import Mathlib

/-!
# Immature-point tracing (`src/FullSystem/ImmaturePoint.cpp`)

A shallow embedding of `ImmaturePoint::traceOn` and `ImmaturePoint::traceStereo`.

## Number model

A C++ `float` is modelled by `Flt`: an exact rational, `+inf`, `-inf` or `NaN`.
The special values follow IEEE-754 (a comparison with `NaN` is false,
`0 * inf = NaN`, `x / 0` is infinite or `NaN`, ...).  The operations `+ - * /`
on `Flt` are exact: a finite result is the exact rational result, and `x / 0`
takes the sign of `x`; the sign of zero is not modelled.  They carry the
statements that depend only on the control flow, on comparisons and on which
expression is stored.

The binary32 arithmetic of the code is `round32` after each exact operation
(`add32`, `sub32`, `mul32`, `div32`: round to nearest, ties to even, subnormals,
overflow to infinity).  It is used where rounding decides the result: the number
of discrete steps, the accumulation of `gradH`, and the runs that show what
float arithmetic does to an identity of exact arithmetic.

## What is a parameter

The global settings (`setting_trace_*`, `wG`, `hG`, `patternP`, `baseline`),
the image interpolation primitives (`getInterpolatedElement31/33`), `sqrtf`
and the g2o optimiser used by `traceStereo` are not part of the translated
file; they are fields of `Globals`, `FrameHessian` and `G2O`.
-/

namespace dso

/-- A `float`: an exact rational or one of the IEEE special values. -/
inductive Flt where
  | fin (q : ℚ)
  | pinf
  | ninf
  | nan
deriving DecidableEq

namespace Flt

/-- The infinity with the sign of `q`, `NaN` for `q = 0`. -/
def infOfSign (q : ℚ) : Flt :=
  if 0 < q then pinf else if q < 0 then ninf else nan

/-- `std::isfinite`. -/
def isfinite : Flt → Bool
  | fin _ => true
  | _ => false

/-- Unary minus. -/
def neg : Flt → Flt
  | fin a => fin (-a)
  | pinf => ninf
  | ninf => pinf
  | nan => nan

/-- Addition. -/
def add : Flt → Flt → Flt
  | fin a, fin b => fin (a + b)
  | fin _, pinf => pinf
  | fin _, ninf => ninf
  | fin _, nan => nan
  | pinf, fin _ => pinf
  | pinf, pinf => pinf
  | pinf, ninf => nan
  | pinf, nan => nan
  | ninf, fin _ => ninf
  | ninf, pinf => nan
  | ninf, ninf => ninf
  | ninf, nan => nan
  | nan, _ => nan

/-- Subtraction. -/
def sub (a b : Flt) : Flt := add a (neg b)

/-- Multiplication. -/
def mul : Flt → Flt → Flt
  | fin a, fin b => fin (a * b)
  | fin a, pinf => infOfSign a
  | fin a, ninf => infOfSign (-a)
  | fin _, nan => nan
  | pinf, fin b => infOfSign b
  | pinf, pinf => pinf
  | pinf, ninf => ninf
  | pinf, nan => nan
  | ninf, fin b => infOfSign (-b)
  | ninf, pinf => ninf
  | ninf, ninf => pinf
  | ninf, nan => nan
  | nan, _ => nan

/-- Division; a zero divisor counts as `+0`. -/
def div : Flt → Flt → Flt
  | fin a, fin b => if b = 0 then infOfSign a else fin (a / b)
  | fin _, pinf => fin 0
  | fin _, ninf => fin 0
  | fin _, nan => nan
  | pinf, fin b => if b < 0 then ninf else pinf
  | pinf, pinf => nan
  | pinf, ninf => nan
  | pinf, nan => nan
  | ninf, fin b => if b < 0 then pinf else ninf
  | ninf, pinf => nan
  | ninf, ninf => nan
  | ninf, nan => nan
  | nan, _ => nan

/-- The comparison `a < b`; false as soon as one side is `NaN`. -/
def lt : Flt → Flt → Bool
  | fin a, fin b => decide (a < b)
  | fin _, pinf => true
  | fin _, ninf => false
  | fin _, nan => false
  | pinf, _ => false
  | ninf, fin _ => true
  | ninf, pinf => true
  | ninf, ninf => false
  | ninf, nan => false
  | nan, _ => false

/-- The comparison `a <= b`; false as soon as one side is `NaN`. -/
def le : Flt → Flt → Bool
  | fin a, fin b => decide (a ≤ b)
  | fin _, pinf => true
  | fin _, ninf => false
  | fin _, nan => false
  | pinf, pinf => true
  | pinf, _ => false
  | ninf, nan => false
  | ninf, _ => true
  | nan, _ => false

/-- `fabs` / `fabsf`. -/
def fabs : Flt → Flt
  | fin a => fin |a|
  | pinf => pinf
  | ninf => pinf
  | nan => nan

/-- `floorf`. -/
def floorf : Flt → Flt
  | fin a => fin (⌊a⌋ : ℤ)
  | x => x

/-- `sqrtf`, given the square root `sqrtQ` on finite non-negative values. -/
def sqrtf (sqrtQ : ℚ → ℚ) : Flt → Flt
  | fin a => if a < 0 then nan else fin (sqrtQ a)
  | pinf => pinf
  | ninf => nan
  | nan => nan

/-- Conversion of an `int` to `float`. -/
def ofInt (i : ℤ) : Flt := fin (i : ℚ)

/-- Conversion `float → int`: truncation toward zero; a value that is not
finite or does not fit 32 bits gives `INT_MIN`, as `cvttss2si` does. -/
def toInt : Flt → ℤ
  | fin a =>
    let t : ℤ := if 0 ≤ a then ⌊a⌋ else ⌈a⌉
    if -2147483648 ≤ t ∧ t < 2147483648 then t else -2147483648
  | _ => -2147483648

instance : Add Flt := ⟨add⟩
instance : Sub Flt := ⟨sub⟩
instance : Mul Flt := ⟨mul⟩
instance : Div Flt := ⟨div⟩
instance : Neg Flt := ⟨neg⟩
instance : LT Flt := ⟨fun a b => lt a b = true⟩
instance : LE Flt := ⟨fun a b => le a b = true⟩
instance (a b : Flt) : Decidable (a < b) := inferInstanceAs (Decidable (lt a b = true))
instance (a b : Flt) : Decidable (a ≤ b) := inferInstanceAs (Decidable (le a b = true))
instance (n : ℕ) : OfNat Flt n := ⟨fin (n : ℚ)⟩

/-- The power `2^e` for an integer exponent. -/
def twoPow (e : ℤ) : ℚ :=
  if 0 ≤ e then ((2 ^ e.toNat : ℕ) : ℚ) else 1 / ((2 ^ (-e).toNat : ℕ) : ℚ)

/-- The exponent of the binade of `q`, searched upward from `e`: the largest
exponent reached with `2^e <= q`, at most `k` above the start. -/
def binExp (q : ℚ) : ℕ → ℤ → ℤ
  | 0, e => e
  | k + 1, e => if twoPow (e + 1) ≤ q then binExp q k (e + 1) else e

/-- Rounding to the nearest integer, ties to even. -/
def roundHalfEven (x : ℚ) : ℤ :=
  if x - ⌊x⌋ < 1 / 2 then ⌊x⌋
  else if 1 / 2 < x - ⌊x⌋ then ⌊x⌋ + 1
  else if ⌊x⌋ % 2 = 0 then ⌊x⌋ else ⌊x⌋ + 1

/-- The binary32 value nearest to `q >= 0` (ties to even): the exponent runs from
`-126` (subnormals included) to `127`, the spacing is `2^(e-23)`, and a result of
`2^128` or more is `+inf`. -/
def round32Pos (q : ℚ) : Flt :=
  let ulp := twoPow (binExp q 253 (-126) - 23)
  let r := (roundHalfEven (q / ulp) : ℚ) * ulp
  if twoPow 128 ≤ r then pinf else fin r

/-- The binary32 value nearest to the rational `q`. -/
def round32Q (q : ℚ) : Flt :=
  if q < 0 then neg (round32Pos (-q)) else round32Pos q

/-- Rounding of an exact result to binary32; the special values are kept. -/
def round32 : Flt → Flt
  | fin q => round32Q q
  | x => x

/-- Binary32 addition: the exact sum, rounded. -/
def add32 (a b : Flt) : Flt := round32 (a + b)

/-- Binary32 subtraction: the exact difference, rounded. -/
def sub32 (a b : Flt) : Flt := round32 (a - b)

/-- Binary32 multiplication: the exact product, rounded. -/
def mul32 (a b : Flt) : Flt := round32 (a * b)

/-- Binary32 division: the exact quotient, rounded. -/
def div32 (a b : Flt) : Flt := round32 (a / b)

end Flt

open Flt

/-- `Vec2f`. -/
structure Vec2f where
  x : Flt
  y : Flt
deriving DecidableEq

/-- `Vec3f`. -/
structure Vec3f where
  x : Flt
  y : Flt
  z : Flt
deriving DecidableEq

/-- `Mat22f`, row major. -/
structure Mat22f where
  m00 : Flt
  m01 : Flt
  m10 : Flt
  m11 : Flt
deriving DecidableEq

/-- `Mat33f`, row major. -/
structure Mat33f where
  m00 : Flt
  m01 : Flt
  m02 : Flt
  m10 : Flt
  m11 : Flt
  m12 : Flt
  m20 : Flt
  m21 : Flt
  m22 : Flt
deriving DecidableEq

/-- `Mat33f::Identity()`. -/
def Mat33f.identity : Mat33f := ⟨1, 0, 0, 0, 1, 0, 0, 0, 1⟩

/-- Matrix times vector. -/
def Mat33f.mulVec (m : Mat33f) (w : Vec3f) : Vec3f :=
  ⟨m.m00 * w.x + m.m01 * w.y + m.m02 * w.z,
   m.m10 * w.x + m.m11 * w.y + m.m12 * w.z,
   m.m20 * w.x + m.m21 * w.y + m.m22 * w.z⟩

/-- `topLeftCorner<2,2>()`. -/
def Mat33f.topLeftCorner (m : Mat33f) : Mat22f := ⟨m.m00, m.m01, m.m10, m.m11⟩

/-- Matrix times vector. -/
def Mat22f.mulVec (m : Mat22f) (w : Vec2f) : Vec2f :=
  ⟨m.m00 * w.x + m.m01 * w.y, m.m10 * w.x + m.m11 * w.y⟩

/-- The quadratic form `w.transpose() * m * w`, evaluated left to right. -/
def Mat22f.quad (m : Mat22f) (w : Vec2f) : Flt :=
  (w.x * m.m00 + w.y * m.m10) * w.x + (w.x * m.m01 + w.y * m.m11) * w.y

/-- Vector plus vector times scalar: `a + b * s`. -/
def Vec3f.addScaled (a b : Vec3f) (s : Flt) : Vec3f :=
  ⟨a.x + b.x * s, a.y + b.y * s, a.z + b.z * s⟩

/-- `enum ImmaturePointStatus`. -/
inductive ImmaturePointStatus where
  | IPS_GOOD
  | IPS_OOB
  | IPS_OUTLIER
  | IPS_SKIPPED
  | IPS_BADCONDITION
  | IPS_UNINITIALIZED
deriving DecidableEq

open ImmaturePointStatus

/-- The fields of `ImmaturePoint` read or written by the trace functions.
`color` and `weights` are the fixed-size arrays, indexed by pattern index. -/
structure ImmaturePoint where
  color : ℕ → Flt
  weights : ℕ → Flt
  gradH : Mat22f
  u : Flt
  v : Flt
  u_stereo : Flt
  v_stereo : Flt
  idepth_min : Flt
  idepth_max : Flt
  idepth_min_stereo : Flt
  idepth_max_stereo : Flt
  idepth_stereo : Flt
  energyTH : Flt
  quality : Flt
  lastTraceStatus : ImmaturePointStatus
  lastTraceUV : Vec2f
  lastTracePixelInterval : Flt

/-- The globals the trace functions read: image size at level 0, the residual
pattern, the stereo baseline, the tracing settings, and `sqrtf` on finite
non-negative values. -/
structure Globals where
  wG0 : ℤ
  hG0 : ℤ
  patternNum : ℕ
  patternP : ℕ → ℤ × ℤ
  baseline : Flt
  setting_maxPixSearch : Flt
  setting_trace_stepsize : Flt
  setting_trace_GNIterations : ℤ
  setting_trace_GNThreshold : Flt
  setting_trace_extraSlackOnTH : Flt
  setting_trace_slackInterval : Flt
  setting_trace_minImprovementFactor : Flt
  setting_minTraceTestRadius : Flt
  setting_huberTH : Flt
  sqrtQ : ℚ → ℚ

/-- The target frame as the trace functions see it: `getInterpolatedElement31`
and `getInterpolatedElement33` on `frame->dI`. -/
structure FrameHessian where
  interp31 : Flt → Flt → Flt
  interp33 : Flt → Flt → Vec3f

/-- What `traceStereo` gets back from g2o: the error of the edge built for
pattern index `idx` in iteration `it`, and the vertex estimate after the last
`optimize(1)`. -/
structure G2O where
  edgeError : ℕ → ℕ → Flt
  estimate : Vec2f

/-- What a trace function hands back: the returned status and the point
afterwards. -/
abbrev TraceResult := ImmaturePointStatus × ImmaturePoint

/-- The statement group `lastTraceUV = uv; lastTracePixelInterval = w;
return lastTraceStatus = s;`. -/
def setTrace (p : ImmaturePoint) (uv : Vec2f) (w : Flt) (s : ImmaturePointStatus) :
    TraceResult :=
  (s, { p with lastTraceUV := uv, lastTracePixelInterval := w, lastTraceStatus := s })

/-- The statement group `lastTraceUV = Vec2f(-1,-1); lastTracePixelInterval = 0;
return lastTraceStatus = s;`. -/
def clearTrace (p : ImmaturePoint) (s : ImmaturePointStatus) : TraceResult :=
  setTrace p ⟨-1, -1⟩ 0 s

/-- The border test `u > 4 && v > 4 && u < wG[0]-5 && v < hG[0]-5`. -/
def inBorder (g : Globals) (u v : Flt) : Bool :=
  u > 4 && v > 4 && u < ofInt (g.wG0 - 5) && v < ofInt (g.hG0 - 5)

/-- `maxPixSearch = (wG[0]+hG[0])*setting_maxPixSearch`. -/
def maxPixSearch (g : Globals) : Flt := ofInt (g.wG0 + g.hG0) * g.setting_maxPixSearch

/-- The two projected ends of the search segment and their distance. -/
structure Endpoints where
  pr : Vec3f
  ptpMin : Vec3f
  uMin : Flt
  vMin : Flt
  uMax : Flt
  vMax : Flt
  dist : Flt

/-- The far end of the segment for a finite upper bound `idMax`: project it,
border test, distance.  `none` when the far end fails the border test. -/
def projectMax (g : Globals) (pr Kt : Vec3f) (idMax uMin vMin : Flt) :
    Option (Flt × Flt × Flt) :=
  let ptpMax := pr.addScaled Kt idMax
  let uMax := ptpMax.x / ptpMax.z
  let vMax := ptpMax.y / ptpMax.z
  if !(inBorder g uMax vMax) then none
  else
    let dist := (uMin - uMax) * (uMin - uMax) + (vMin - vMax) * (vMin - vMax)
    some (uMax, vMax, sqrtf g.sqrtQ dist)

/-- The far end of the segment for a non-finite upper bound: direction from the
projection at inverse depth `0.01`, length `maxPixSearch`.  `none` when that
point fails the border test. -/
def coarseMax (g : Globals) (pr Kt : Vec3f) (uMin vMin : Flt) : Option (Flt × Flt × Flt) :=
  let dist := maxPixSearch g
  let ptpMax := pr.addScaled Kt (fin (1 / 100))
  let uMax := ptpMax.x / ptpMax.z
  let vMax := ptpMax.y / ptpMax.z
  let dx := uMax - uMin
  let dy := vMax - vMin
  let d := 1 / sqrtf g.sqrtQ (dx * dx + dy * dy)
  let uMax := uMin + dist * dx * d
  let vMax := vMin + dist * dy * d
  if !(inBorder g uMax vMax) then none else some (uMax, vMax, dist)

/-- Lines 466-567 of `traceOn`: the entry guard, the projection of both interval
ends, the border tests and the slack test.  (`assert(dist>0)` is compiled out.) -/
def traceOnProject (g : Globals) (p : ImmaturePoint) (hostToFrame_KRKi : Mat33f)
    (hostToFrame_Kt : Vec3f) : TraceResult ⊕ Endpoints :=
  if p.lastTraceStatus = IPS_OOB then .inl (p.lastTraceStatus, p)
  else
    let pr := hostToFrame_KRKi.mulVec ⟨p.u, p.v, 1⟩
    let ptpMin := pr.addScaled hostToFrame_Kt p.idepth_min
    let uMin := ptpMin.x / ptpMin.z
    let vMin := ptpMin.y / ptpMin.z
    if !(inBorder g uMin vMin) then .inl (clearTrace p IPS_OOB)
    else if p.idepth_max.isfinite then
      match projectMax g pr hostToFrame_Kt p.idepth_max uMin vMin with
      | none => .inl (clearTrace p IPS_OOB)
      | some (uMax, vMax, dist) =>
        if dist < g.setting_trace_slackInterval then
          .inl (setTrace p ⟨(uMax + uMin) * fin (1 / 2), (vMax + vMin) * fin (1 / 2)⟩ dist
            IPS_SKIPPED)
        else .inr ⟨pr, ptpMin, uMin, vMin, uMax, vMax, dist⟩
    else
      match coarseMax g pr hostToFrame_Kt uMin vMin with
      | none => .inl (clearTrace p IPS_OOB)
      | some (uMax, vMax, dist) => .inr ⟨pr, ptpMin, uMin, vMin, uMax, vMax, dist⟩

/-- The step `(dx, dy) = setting_trace_stepsize * (uMax-uMin, vMax-vMin)` before it
is normalised. -/
def rawStep (g : Globals) (e : Endpoints) : Vec2f :=
  ⟨g.setting_trace_stepsize * (e.uMax - e.uMin), g.setting_trace_stepsize * (e.vMax - e.vMin)⟩

/-- Gradient energy along the step: `a = (dx,dy)ᵗ gradH (dx,dy)`. -/
def errA (g : Globals) (p : ImmaturePoint) (e : Endpoints) : Flt :=
  p.gradH.quad (rawStep g e)

/-- Gradient energy across the step: `b = (dy,-dx)ᵗ gradH (dy,-dx)`. -/
def errB (g : Globals) (p : ImmaturePoint) (e : Endpoints) : Flt :=
  p.gradH.quad ⟨(rawStep g e).y, -(rawStep g e).x⟩

/-- The bound `errorInPixel = 0.2f + 0.2f * (a+b) / a`. -/
def errorBound (a b : Flt) : Flt := fin (1 / 5) + fin (1 / 5) * (a + b) / a

/-- What the discrete search works on: the values of the locals of the trace
function when the search starts. -/
structure TraceGeom where
  pr : Vec3f
  uMin : Flt
  vMin : Flt
  dist : Flt
  dx : Flt
  dy : Flt
  errorInPixel : Flt
  numSteps : ℤ
  ptx : Flt
  pty : Flt
  rotatetPattern : ℕ → Vec2f

/-- The number of discrete steps for the (clamped) search length `dist`:
`int numSteps = 1.9999f + dist / setting_trace_stepsize;` (line 631) followed by
`if(numSteps >= 100) numSteps = 99;` (line 657). -/
def numStepsOf (g : Globals) (dist : Flt) : ℤ :=
  let numSteps := toInt (add32 (round32 (fin (19999 / 10000)))
    (div32 dist g.setting_trace_stepsize))
  if numSteps ≥ 100 then 99 else numSteps

/-- Lines 606-657 without the early return: clamp of `errorInPixel`, normalised
step, clamp of `dist`, `numSteps`, the shifted start and the rotated pattern. -/
def searchSetup (g : Globals) (KRKi : Mat33f) (e : Endpoints) (errorInPixel : Flt) :
    TraceGeom :=
  let errorInPixel := if errorInPixel > 10 then 10 else errorInPixel
  let dx := (rawStep g e).x / e.dist
  let dy := (rawStep g e).y / e.dist
  let dist := if e.dist > maxPixSearch g then maxPixSearch g else e.dist
  let numSteps := numStepsOf g dist
  let Rplane := KRKi.topLeftCorner
  let randShift := e.uMin * 1000 - floorf (e.uMin * 1000)
  let ptx := e.uMin - randShift * dx
  let pty := e.vMin - randShift * dy
  let rotatetPattern := fun idx =>
    Rplane.mulVec ⟨ofInt (g.patternP idx).1, ofInt (g.patternP idx).2⟩
  ⟨e.pr, e.uMin, e.vMin, dist, dx, dy, errorInPixel, numSteps, ptx, pty, rotatetPattern⟩

/-- Lines 573-657 of `traceOn`: the scale guard, the error bound with the
`IPS_BADCONDITION` return, and the set-up of the search with the return on a
non-finite step. -/
def traceOnGeom (g : Globals) (p : ImmaturePoint) (hostToFrame_KRKi : Mat33f)
    (e : Endpoints) : TraceResult ⊕ TraceGeom :=
  if !(p.idepth_min < 0 || (e.ptpMin.z > fin (3 / 4) && e.ptpMin.z < fin (3 / 2))) then
    .inl (clearTrace p IPS_OOB)
  else
    let errorInPixel := errorBound (errA g p e) (errB g p e)
    if errorInPixel * g.setting_trace_minImprovementFactor > e.dist
        && p.idepth_max.isfinite then
      .inl (setTrace p ⟨(e.uMax + e.uMin) * fin (1 / 2), (e.vMax + e.vMin) * fin (1 / 2)⟩
        e.dist IPS_BADCONDITION)
    else
      let t := searchSetup g hostToFrame_KRKi e errorInPixel
      if !t.dx.isfinite || !t.dy.isfinite then .inl (clearTrace p IPS_OOB) else .inr t

/-- The Huber weight `fabs(residual) < setting_huberTH ? 1 : setting_huberTH / fabs(residual)`. -/
def huberWeight (g : Globals) (residual : Flt) : Flt :=
  if fabs residual < g.setting_huberTH then 1 else g.setting_huberTH / fabs residual

/-- The inner loop of the discrete search (lines 661-672): the energy at
`(ptx, pty)` accumulated over the pattern indices below `n`. -/
def searchEnergy (g : Globals) (frame : FrameHessian) (p : ImmaturePoint) (aff : Vec2f)
    (rot : ℕ → Vec2f) (ptx pty : Flt) : ℕ → Flt
  | 0 => 0
  | idx + 1 =>
    let energy := searchEnergy g frame p aff rot ptx pty idx
    let hitColor := frame.interp31 (ptx + (rot idx).x) (pty + (rot idx).y)
    if !hitColor.isfinite then energy + 100000
    else
      let residual := hitColor - (aff.x * p.color idx + aff.y)
      let hw := huberWeight g residual
      energy + hw * residual * residual * (2 - hw)

/-- The locals of the discrete search loop; `errors` holds `errors[0..i)`. -/
structure SearchState where
  ptx : Flt
  pty : Flt
  bestU : Flt
  bestV : Flt
  bestEnergy : Flt
  bestIdx : ℤ
  errors : List Flt

/-- The discrete search loop (lines 655-691) after `n` iterations. -/
def lineSearch (g : Globals) (frame : FrameHessian) (p : ImmaturePoint) (aff : Vec2f)
    (t : TraceGeom) : ℕ → SearchState
  | 0 => ⟨t.ptx, t.pty, 0, 0, 10000000000, -1, []⟩
  | i + 1 =>
    let s := lineSearch g frame p aff t i
    let energy := searchEnergy g frame p aff t.rotatetPattern s.ptx s.pty g.patternNum
    let errors := s.errors ++ [energy]
    if energy < s.bestEnergy then
      ⟨s.ptx + t.dx, s.pty + t.dy, s.ptx, s.pty, energy, i, errors⟩
    else
      ⟨s.ptx + t.dx, s.pty + t.dy, s.bestU, s.bestV, s.bestEnergy, s.bestIdx, errors⟩

/-- The second-best loop (lines 695-700) after `n` iterations. -/
def secondBestLoop (g : Globals) (errors : List Flt) (bestIdx : ℤ) : ℕ → Flt
  | 0 => 10000000000
  | i + 1 =>
    let secondBest := secondBestLoop g errors bestIdx i
    if (ofInt i < ofInt bestIdx - g.setting_minTraceTestRadius
          || ofInt i > ofInt bestIdx + g.setting_minTraceTestRadius)
        && errors.getD i nan < secondBest then
      errors.getD i nan
    else secondBest

/-- The discrete search as run by a trace call: `numSteps` iterations. -/
def runSearch (g : Globals) (frame : FrameHessian) (p : ImmaturePoint) (aff : Vec2f)
    (t : TraceGeom) : SearchState :=
  lineSearch g frame p aff t t.numSteps.toNat

/-- `newQuality = secondBest / bestEnergy` (lines 695-701). -/
def newQuality (g : Globals) (t : TraceGeom) (s : SearchState) : Flt :=
  secondBestLoop g s.errors s.bestIdx t.numSteps.toNat / s.bestEnergy

/-- The update `if(newQuality < quality || numSteps > 10) quality = newQuality;`. -/
def updateQuality (g : Globals) (p : ImmaturePoint) (t : TraceGeom) (s : SearchState) :
    ImmaturePoint :=
  if newQuality g t s < p.quality || t.numSteps > 10 then
    { p with quality := newQuality g t s }
  else p

/-- The sums of one Gauss-Newton iteration of `traceOn` (lines 712-726) over the
pattern indices below `n`: `(H, b, energy)`. -/
def gnSums (g : Globals) (frame : FrameHessian) (p : ImmaturePoint) (aff : Vec2f)
    (t : TraceGeom) (bestU bestV : Flt) : ℕ → Flt × Flt × Flt
  | 0 => (1, 0, 0)
  | idx + 1 =>
    let (H, b, energy) := gnSums g frame p aff t bestU bestV idx
    let hitColor := frame.interp33 (bestU + (t.rotatetPattern idx).x)
      (bestV + (t.rotatetPattern idx).y)
    if !hitColor.x.isfinite then (H, b, energy + 100000)
    else
      let residual := hitColor.x - (aff.x * p.color idx + aff.y)
      let dResdDist := t.dx * hitColor.y + t.dy * hitColor.z
      let hw := huberWeight g residual
      (H + hw * dResdDist * dResdDist, b + hw * residual * dResdDist,
        energy + p.weights idx * p.weights idx * hw * residual * residual * (2 - hw))

/-- The locals of the Gauss-Newton loop of `traceOn`. -/
structure GNState where
  bestU : Flt
  bestV : Flt
  uBak : Flt
  vBak : Flt
  stepBack : Flt
  bestEnergy : Flt

/-- The clamp of the Gauss-Newton step (lines 746-752), `gnstepsize = 1`. -/
def gnClamp (H b : Flt) : Flt :=
  let step := -1 * b / H
  let step := if step < fin (-1 / 2) then fin (-1 / 2)
    else if step > fin (1 / 2) then fin (1 / 2) else step
  if !step.isfinite then 0 else step

/-- One iteration of the Gauss-Newton loop of `traceOn` up to the `break` test
(lines 712-766). -/
def gnStep (g : Globals) (frame : FrameHessian) (p : ImmaturePoint) (aff : Vec2f)
    (t : TraceGeom) (s : GNState) : GNState :=
  let (H, b, energy) := gnSums g frame p aff t s.bestU s.bestV g.patternNum
  if energy > s.bestEnergy then
    let stepBack := s.stepBack * fin (1 / 2)
    { s with stepBack := stepBack, bestU := s.uBak + stepBack * t.dx,
             bestV := s.vBak + stepBack * t.dy }
  else
    let step := gnClamp H b
    ⟨s.bestU + step * t.dx, s.bestV + step * t.dy, s.bestU, s.bestV, step, energy⟩

/-- The Gauss-Newton loop of `traceOn` (lines 711-769) with `n` iterations left. -/
def gnLoop (g : Globals) (frame : FrameHessian) (p : ImmaturePoint) (aff : Vec2f)
    (t : TraceGeom) : ℕ → GNState → GNState
  | 0, s => s
  | n + 1, s =>
    let s := gnStep g frame p aff t s
    if fabs s.stepBack < g.setting_trace_GNThreshold then s
    else gnLoop g frame p aff t n s

/-- Lines 707-769 of `traceOn`: the refinement started from the discrete best. -/
def gnRefine (g : Globals) (frame : FrameHessian) (p : ImmaturePoint) (aff : Vec2f)
    (t : TraceGeom) (s : SearchState) : GNState :=
  let bestEnergy := if g.setting_trace_GNIterations > 0 then 100000 else s.bestEnergy
  gnLoop g frame p aff t g.setting_trace_GNIterations.toNat
    ⟨s.bestU, s.bestV, s.bestU, s.bestV, 0, bestEnergy⟩

/-- The back-projection of pixel coordinate `c` on one axis:
`(pr[2]*c - pr[i]) / (Kt[i] - Kt[2]*c)`. -/
def backProject (pr2 pri Kti Kt2 c : Flt) : Flt := (pr2 * c - pri) / (Kti - Kt2 * c)

/-- The back-projected pair (lines 799-806), on the axis with the larger step
component. -/
def rawInterval (pr Kt : Vec3f) (t : TraceGeom) (bestU bestV : Flt) : Flt × Flt :=
  if t.dx * t.dx > t.dy * t.dy then
    (backProject pr.z pr.x Kt.x Kt.z (bestU - t.errorInPixel * t.dx),
     backProject pr.z pr.x Kt.x Kt.z (bestU + t.errorInPixel * t.dx))
  else
    (backProject pr.z pr.y Kt.y Kt.z (bestV - t.errorInPixel * t.dy),
     backProject pr.z pr.y Kt.y Kt.z (bestV + t.errorInPixel * t.dy))

/-- The statement `if(idepth_min > idepth_max) std::swap(idepth_min, idepth_max);`. -/
def swapIfGreater (iv : Flt × Flt) : Flt × Flt :=
  if iv.1 > iv.2 then (iv.2, iv.1) else iv

/-- The new interval (lines 799-810): back-projection, then the swap. -/
def newInterval (pr Kt : Vec3f) (t : TraceGeom) (bestU bestV : Flt) : Flt × Flt :=
  swapIfGreater (rawInterval pr Kt t bestU bestV)

/-- Lines 777-827 of `traceOn`: the energy test, the interval update and the
final status. -/
def traceOnFinish (g : Globals) (p : ImmaturePoint) (hostToFrame_Kt : Vec3f) (t : TraceGeom)
    (bestU bestV bestEnergy : Flt) : TraceResult :=
  if !(bestEnergy < p.energyTH * g.setting_trace_extraSlackOnTH) then
    if p.lastTraceStatus = IPS_OUTLIER then clearTrace p IPS_OOB
    else clearTrace p IPS_OUTLIER
  else
    let iv := newInterval t.pr hostToFrame_Kt t bestU bestV
    let p := { p with idepth_min := iv.1, idepth_max := iv.2 }
    if !p.idepth_min.isfinite || !p.idepth_max.isfinite || p.idepth_max < 0 then
      clearTrace p IPS_OUTLIER
    else
      setTrace p ⟨bestU, bestV⟩ (2 * t.errorInPixel) IPS_GOOD

/-- Lines 654-827 of `traceOn`: discrete search, quality update, refinement,
energy test and interval update. -/
def traceOnSearch (g : Globals) (frame : FrameHessian) (p : ImmaturePoint)
    (hostToFrame_Kt : Vec3f) (hostToFrame_affine : Vec2f) (t : TraceGeom) : TraceResult :=
  let s := runSearch g frame p hostToFrame_affine t
  let p := updateQuality g p t s
  let r := gnRefine g frame p hostToFrame_affine t s
  traceOnFinish g p hostToFrame_Kt t r.bestU r.bestV r.bestEnergy

/-- `ImmaturePoint::traceOn`. -/
def traceOn (g : Globals) (frame : FrameHessian) (p : ImmaturePoint)
    (hostToFrame_KRKi : Mat33f) (hostToFrame_Kt : Vec3f) (hostToFrame_affine : Vec2f) :
    TraceResult :=
  match traceOnProject g p hostToFrame_KRKi hostToFrame_Kt with
  | .inl r => r
  | .inr e =>
    match traceOnGeom g p hostToFrame_KRKi e with
    | .inl r => r
    | .inr t => traceOnSearch g frame p hostToFrame_Kt hostToFrame_affine t

/-- The geometry with which a `traceOn` call enters the discrete search; `none`
when the call returns before it. -/
def traceOnReach (g : Globals) (p : ImmaturePoint) (hostToFrame_KRKi : Mat33f)
    (hostToFrame_Kt : Vec3f) : Option TraceGeom :=
  match traceOnProject g p hostToFrame_KRKi hostToFrame_Kt with
  | .inl _ => none
  | .inr e =>
    match traceOnGeom g p hostToFrame_KRKi e with
    | .inl _ => none
    | .inr t => some t

/-- The stereo translation `bl`: `(-baseline, 0, 0)` when matching left to right
(`mode_right`), `(baseline, 0, 0)` otherwise. -/
def stereoBl (g : Globals) (mode_right : Bool) : Vec3f :=
  if mode_right then ⟨-g.baseline, 0, 0⟩ else ⟨g.baseline, 0, 0⟩

/-- The stereo `Kt = K*bl`. -/
def stereoKt (g : Globals) (K : Mat33f) (mode_right : Bool) : Vec3f :=
  K.mulVec (stereoBl g mode_right)

/-- The stereo `bf = -K(0,0)*bl[0]`. -/
def stereoBf (g : Globals) (K : Mat33f) (mode_right : Bool) : Flt :=
  -K.m00 * (stereoBl g mode_right).x

/-- The statement `return lastTraceStatus = s;` alone. -/
def setStatus (p : ImmaturePoint) (s : ImmaturePointStatus) : TraceResult :=
  (s, { p with lastTraceStatus := s })

/-- Lines 98-192 of `traceStereo`: the projection of both ends of the stereo
interval, the border tests and the slack test.  There is no entry guard. -/
def traceStereoProject (g : Globals) (p : ImmaturePoint) (K : Mat33f) (mode_right : Bool) :
    TraceResult ⊕ Endpoints :=
  let Kt := stereoKt g K mode_right
  let pr := Mat33f.identity.mulVec ⟨p.u_stereo, p.v_stereo, 1⟩
  let ptpMin := pr.addScaled Kt p.idepth_min_stereo
  let uMin := ptpMin.x / ptpMin.z
  let vMin := ptpMin.y / ptpMin.z
  if !(inBorder g uMin vMin) then .inl (clearTrace p IPS_OOB)
  else if p.idepth_max_stereo.isfinite then
    match projectMax g pr Kt p.idepth_max_stereo uMin vMin with
    | none => .inl (clearTrace p IPS_OOB)
    | some (uMax, vMax, dist) =>
      if dist < g.setting_trace_slackInterval then .inl (setStatus p IPS_SKIPPED)
      else .inr ⟨pr, ptpMin, uMin, vMin, uMax, vMax, dist⟩
  else
    match coarseMax g pr Kt uMin vMin with
    | none => .inl (clearTrace p IPS_OOB)
    | some (uMax, vMax, dist) => .inr ⟨pr, ptpMin, uMin, vMin, uMax, vMax, dist⟩

/-- Lines 195-260 of `traceStereo`: the scale guard (on the monocular
`idepth_min`, as written), the error bound with the `IPS_BADCONDITION` return,
and the set-up of the search with the return on a non-finite step. -/
def traceStereoGeom (g : Globals) (p : ImmaturePoint) (e : Endpoints) :
    TraceResult ⊕ TraceGeom :=
  if !(p.idepth_min < 0 || (e.ptpMin.z > fin (3 / 4) && e.ptpMin.z < fin (3 / 2))) then
    .inl (clearTrace p IPS_OOB)
  else
    let errorInPixel := errorBound (errA g p e) (errB g p e)
    if errorInPixel * g.setting_trace_minImprovementFactor > e.dist
        && p.idepth_max_stereo.isfinite then
      .inl (setStatus p IPS_BADCONDITION)
    else
      let t := searchSetup g Mat33f.identity e errorInPixel
      if !t.dx.isfinite || !t.dy.isfinite then .inl (clearTrace p IPS_OOB) else .inr t

/-- The energy of iteration `it` of the stereo refinement loop (lines 333-346)
over the pattern indices below `n`; the residual is the error of the g2o edge. -/
def stereoEnergy (g : Globals) (p : ImmaturePoint) (solver : G2O) (it : ℕ) : ℕ → Flt
  | 0 => 0
  | idx + 1 =>
    let energy := stereoEnergy g p solver it idx
    let residual := solver.edgeError it idx
    let hw := huberWeight g residual
    energy + p.weights idx * p.weights idx * hw * residual * residual * (2 - hw)

/-- The `bestEnergy` of the stereo refinement loop (lines 330-408) after `n`
iterations, started from `bestEnergy0`. -/
def stereoGNLoop (g : Globals) (p : ImmaturePoint) (solver : G2O) (bestEnergy0 : Flt) :
    ℕ → Flt
  | 0 => bestEnergy0
  | it + 1 =>
    let bestEnergy := stereoGNLoop g p solver bestEnergy0 it
    let energy := stereoEnergy g p solver it g.patternNum
    if energy > bestEnergy then bestEnergy else energy

/-- Lines 324-408 of `traceStereo`: the final `bestEnergy`. -/
def stereoRefine (g : Globals) (p : ImmaturePoint) (solver : G2O) (s : SearchState) : Flt :=
  let bestEnergy := if g.setting_trace_GNIterations > 0 then 100000 else s.bestEnergy
  stereoGNLoop g p solver bestEnergy g.setting_trace_GNIterations.toNat

/-- Lines 413-450 of `traceStereo`: the energy test, the update of the stereo
interval, `idepth_stereo` and the final status. -/
def traceStereoFinish (g : Globals) (p : ImmaturePoint) (K : Mat33f) (mode_right : Bool)
    (t : TraceGeom) (bestU bestV bestEnergy : Flt) : TraceResult :=
  if !(bestEnergy < p.energyTH * g.setting_trace_extraSlackOnTH) then
    if p.lastTraceStatus = IPS_OUTLIER then clearTrace p IPS_OOB
    else clearTrace p IPS_OUTLIER
  else
    let iv := newInterval t.pr (stereoKt g K mode_right) t bestU bestV
    let p := { p with idepth_min_stereo := iv.1, idepth_max_stereo := iv.2 }
    if !p.idepth_min_stereo.isfinite || !p.idepth_max_stereo.isfinite
        || p.idepth_max_stereo < 0 then
      clearTrace p IPS_OUTLIER
    else
      setTrace { p with idepth_stereo := (p.u_stereo - bestU) / stereoBf g K mode_right }
        ⟨bestU, bestV⟩ (2 * t.errorInPixel) IPS_GOOD

/-- Lines 257-450 of `traceStereo`: discrete search, quality update, refinement
by g2o, energy test and interval update. -/
def traceStereoSearch (g : Globals) (frame : FrameHessian) (solver : G2O)
    (p : ImmaturePoint) (K : Mat33f) (mode_right : Bool) (t : TraceGeom) : TraceResult :=
  let s := runSearch g frame p ⟨1, 0⟩ t
  let p := updateQuality g p t s
  traceStereoFinish g p K mode_right t solver.estimate.x solver.estimate.y
    (stereoRefine g p solver s)

/-- `ImmaturePoint::traceStereo`. -/
def traceStereo (g : Globals) (frame : FrameHessian) (solver : G2O) (p : ImmaturePoint)
    (K : Mat33f) (mode_right : Bool) : TraceResult :=
  match traceStereoProject g p K mode_right with
  | .inl r => r
  | .inr e =>
    match traceStereoGeom g p e with
    | .inl r => r
    | .inr t => traceStereoSearch g frame solver p K mode_right t

/-- The geometry with which a `traceStereo` call enters the discrete search;
`none` when the call returns before it. -/
def traceStereoReach (g : Globals) (p : ImmaturePoint) (K : Mat33f) (mode_right : Bool) :
    Option TraceGeom :=
  match traceStereoProject g p K mode_right with
  | .inl _ => none
  | .inr e =>
    match traceStereoGeom g p e with
    | .inl _ => none
    | .inr t => some t

/-- The `bestEnergy` a `traceOn` call brings to the energy test (line 777);
`none` when the call returns before the discrete search. -/
def traceOnBestEnergy (g : Globals) (frame : FrameHessian) (p : ImmaturePoint)
    (hostToFrame_KRKi : Mat33f) (hostToFrame_Kt : Vec3f) (hostToFrame_affine : Vec2f) :
    Option Flt :=
  (traceOnReach g p hostToFrame_KRKi hostToFrame_Kt).map fun t =>
    let s := runSearch g frame p hostToFrame_affine t
    (gnRefine g frame (updateQuality g p t s) hostToFrame_affine t s).bestEnergy

/-- The `bestEnergy` a `traceStereo` call brings to the energy test (line 413);
`none` when the call returns before the discrete search. -/
def traceStereoBestEnergy (g : Globals) (frame : FrameHessian) (solver : G2O)
    (p : ImmaturePoint) (K : Mat33f) (mode_right : Bool) : Option Flt :=
  (traceStereoReach g p K mode_right).map fun t =>
    let s := runSearch g frame p ⟨1, 0⟩ t
    stereoRefine g (updateQuality g p t s) solver s

/-- The list `errors[0..numSteps)` a `traceOn` call fills in its discrete search;
`none` when the call returns before the search. -/
def traceOnErrors (g : Globals) (frame : FrameHessian) (p : ImmaturePoint)
    (hostToFrame_KRKi : Mat33f) (hostToFrame_Kt : Vec3f) (hostToFrame_affine : Vec2f) :
    Option (List Flt) :=
  (traceOnReach g p hostToFrame_KRKi hostToFrame_Kt).map fun t =>
    (runSearch g frame p hostToFrame_affine t).errors

/-- The threshold of the energy test: `energyTH*setting_trace_extraSlackOnTH`. -/
def energyThreshold (g : Globals) (p : ImmaturePoint) : Flt :=
  p.energyTH * g.setting_trace_extraSlackOnTH

/-- The `numSteps` of the discrete search of a `traceOn` call; `none` when the
call returns before the search. -/
def traceOnNumSteps (g : Globals) (p : ImmaturePoint) (hostToFrame_KRKi : Mat33f)
    (hostToFrame_Kt : Vec3f) : Option ℤ :=
  (traceOnReach g p hostToFrame_KRKi hostToFrame_Kt).map fun t => t.numSteps

/-- The `newQuality = secondBest / bestEnergy` of the discrete search of a
`traceOn` call; `none` when the call returns before the search. -/
def traceOnNewQuality (g : Globals) (frame : FrameHessian) (p : ImmaturePoint)
    (hostToFrame_KRKi : Mat33f) (hostToFrame_Kt : Vec3f) (hostToFrame_affine : Vec2f) :
    Option Flt :=
  (traceOnReach g p hostToFrame_KRKi hostToFrame_Kt).map fun t =>
    newQuality g t (runSearch g frame p hostToFrame_affine t)

/-- The `numSteps` of the discrete search of a `traceStereo` call; `none` when
the call returns before the search. -/
def traceStereoNumSteps (g : Globals) (p : ImmaturePoint) (K : Mat33f) (mode_right : Bool) :
    Option ℤ :=
  (traceStereoReach g p K mode_right).map fun t => t.numSteps

/-- The `newQuality = secondBest / bestEnergy` of the discrete search of a
`traceStereo` call; `none` when the call returns before the search. -/
def traceStereoNewQuality (g : Globals) (frame : FrameHessian) (p : ImmaturePoint)
    (K : Mat33f) (mode_right : Bool) : Option Flt :=
  (traceStereoReach g p K mode_right).map fun t =>
    newQuality g t (runSearch g frame p ⟨1, 0⟩ t)

/-- The status an energy-test failure gives a point that entered with status `st`. -/
def rejectStatus (st : ImmaturePointStatus) : ImmaturePointStatus :=
  if st = IPS_OUTLIER then IPS_OOB else IPS_OUTLIER

/-! ## Vocabulary of the claims -/

/-- What every return before the discrete search has in common: the status is
not `IPS_GOOD`, and `quality` and both inverse-depth intervals are untouched. -/
def EarlyExit (p : ImmaturePoint) (r : TraceResult) : Prop :=
  r.1 ≠ IPS_GOOD ∧ r.2.quality = p.quality ∧
    r.2.idepth_min = p.idepth_min ∧ r.2.idepth_max = p.idepth_max ∧
    r.2.idepth_min_stereo = p.idepth_min_stereo ∧
    r.2.idepth_max_stereo = p.idepth_max_stereo

/-- The interval facts established by a successful update. -/
def GoodInterval (lo hi : Flt) : Prop :=
  lo ≤ hi ∧ lo.isfinite = true ∧ hi.isfinite = true ∧ (0 : Flt) ≤ hi

/-- The pixel at which the host ray of `p` at inverse depth `d` is seen in the
target frame (lines 490-494 and 514-516 of `traceOn`). -/
def rayPixel (hostToFrame_KRKi : Mat33f) (hostToFrame_Kt : Vec3f) (p : ImmaturePoint)
    (d : Flt) : Vec2f :=
  let ptp := (hostToFrame_KRKi.mulVec ⟨p.u, p.v, 1⟩).addScaled hostToFrame_Kt d
  ⟨ptp.x / ptp.z, ptp.y / ptp.z⟩

/-- The projected depth component `ptpMin[2]` tested by the scale guard. -/
def rayDepth (hostToFrame_KRKi : Mat33f) (hostToFrame_Kt : Vec3f) (p : ImmaturePoint)
    (d : Flt) : Flt :=
  ((hostToFrame_KRKi.mulVec ⟨p.u, p.v, 1⟩).addScaled hostToFrame_Kt d).z

/-- The distance of two pixels as computed in lines 526-527. -/
def pixelDist (g : Globals) (a b : Vec2f) : Flt :=
  sqrtf g.sqrtQ ((a.x - b.x) * (a.x - b.x) + (a.y - b.y) * (a.y - b.y))

/-- The midpoint as computed in lines 534 and 601: `Vec2f(uMax+uMin, vMax+vMin)*0.5`. -/
def midpoint (mn mx : Vec2f) : Vec2f :=
  ⟨(mx.x + mn.x) * fin (1 / 2), (mx.y + mn.y) * fin (1 / 2)⟩

/-- The step `d = setting_trace_stepsize * (uMax-uMin, vMax-vMin)` between two
projections (lines 584-585). -/
def stepVec (g : Globals) (mn mx : Vec2f) : Vec2f :=
  ⟨g.setting_trace_stepsize * (mx.x - mn.x), g.setting_trace_stepsize * (mx.y - mn.y)⟩

/-- The orthogonal vector `(dy, -dx)` used for `b` (line 590). -/
def perp (d : Vec2f) : Vec2f := ⟨d.y, -d.x⟩

/-- The scale guard of line 573 as a proposition on the monocular `idepth_min` and
the projected depth component `z`. -/
def ScaleOk (p : ImmaturePoint) (z : Flt) : Prop :=
  p.idepth_min < 0 ∨ (z > fin (3 / 4) ∧ z < fin (3 / 2))

/-- A `traceOn` call on `p` with a finite `idepth_max` gets past the entry guard,
both border tests, the slack test and the scale guard (lines 466-579). -/
def PassesGuards (g : Globals) (p : ImmaturePoint) (KRKi : Mat33f) (Kt : Vec3f) : Prop :=
  p.lastTraceStatus ≠ IPS_OOB ∧ p.idepth_max.isfinite = true ∧
  inBorder g (rayPixel KRKi Kt p p.idepth_min).x (rayPixel KRKi Kt p p.idepth_min).y = true ∧
  inBorder g (rayPixel KRKi Kt p p.idepth_max).x (rayPixel KRKi Kt p p.idepth_max).y = true ∧
  ¬ pixelDist g (rayPixel KRKi Kt p p.idepth_min) (rayPixel KRKi Kt p p.idepth_max)
      < g.setting_trace_slackInterval ∧
  ScaleOk p (rayDepth KRKi Kt p p.idepth_min)

/-- The `a` of line 588 for a finite `idepth_max`. -/
def gradAlong (g : Globals) (p : ImmaturePoint) (KRKi : Mat33f) (Kt : Vec3f) : Flt :=
  p.gradH.quad (stepVec g (rayPixel KRKi Kt p p.idepth_min) (rayPixel KRKi Kt p p.idepth_max))

/-- The `b` of line 590 for a finite `idepth_max`. -/
def gradAcross (g : Globals) (p : ImmaturePoint) (KRKi : Mat33f) (Kt : Vec3f) : Flt :=
  p.gradH.quad
    (perp (stepVec g (rayPixel KRKi Kt p p.idepth_min) (rayPixel KRKi Kt p p.idepth_max)))

/-- The `dist` of line 527 for a finite `idepth_max`. -/
def rayDist (g : Globals) (p : ImmaturePoint) (KRKi : Mat33f) (Kt : Vec3f) : Flt :=
  pixelDist g (rayPixel KRKi Kt p p.idepth_min) (rayPixel KRKi Kt p p.idepth_max)

/-- The point after a return that records the midpoint of the two projections and
their distance under status `s` (lines 534-536 and 601-603). -/
def withMidpoint (g : Globals) (p : ImmaturePoint) (KRKi : Mat33f) (Kt : Vec3f)
    (s : ImmaturePointStatus) : ImmaturePoint :=
  { p with
    lastTraceUV := midpoint (rayPixel KRKi Kt p p.idepth_min) (rayPixel KRKi Kt p p.idepth_max)
    lastTracePixelInterval := rayDist g p KRKi Kt
    lastTraceStatus := s }

/-- The order `q' <= q` read as "smaller or the same value"; it agrees with the
IEEE comparison whenever `q` is not `NaN`, and holds for an unchanged `NaN`. -/
def NotIncreased (q' q : Flt) : Prop := q' < q ∨ q' = q

/-! ## Concrete data for test runs -/

/-- Integer square root by Newton's iteration from above, `k` rounds at most. -/
def newtonSqrt (n : ℕ) : ℕ → ℕ → ℕ
  | 0, x => x
  | k + 1, x =>
    if x = 0 then 0
    else if (x + n / x) / 2 < x then newtonSqrt n k ((x + n / x) / 2) else x

/-- A square root on the rationals, rounded down to a multiple of `1/1000`
(for arguments up to about `10^13`). -/
def sqrtMilli (q : ℚ) : ℚ :=
  (newtonSqrt (q.num.toNat * q.den * 1000000) 64 (q.num.toNat * q.den * 1000000) : ℚ)
    / ((q.den : ℚ) * 1000)

/-- Test globals: a 640x480 image, a two-point pattern, and the values the
comment at the head of `traceOn` lists for the tracing settings (with the slack
interval `1.5`). -/
def demoGlobals : Globals where
  wG0 := 640
  hG0 := 480
  patternNum := 2
  patternP := fun idx => if idx = 0 then (0, 0) else (0, 1)
  baseline := fin (1 / 10)
  setting_maxPixSearch := fin (27 / 1000)
  setting_trace_stepsize := 1
  setting_trace_GNIterations := 3
  setting_trace_GNThreshold := fin (1 / 10)
  setting_trace_extraSlackOnTH := fin (6 / 5)
  setting_trace_slackInterval := fin (3 / 2)
  setting_trace_minImprovementFactor := 2
  setting_minTraceTestRadius := 2
  setting_huberTH := 9
  sqrtQ := sqrtMilli

/-- A test image whose intensity is `5 * |x - x0| + 10`, with zero gradient
reported by `getInterpolatedElement33`. -/
def demoFrame (x0 : ℚ) : FrameHessian where
  interp31 := fun x _ =>
    match x with
    | fin q => fin (5 * |q - x0| + 10)
    | _ => nan
  interp33 := fun x _ =>
    match x with
    | fin q => ⟨fin (5 * |q - x0| + 10), 0, 0⟩
    | _ => ⟨nan, nan, nan⟩

/-- A test point at `(100, 100)` with intensity `10` at every pattern index,
weights `w`, a gradient along `x` only, inverse depth in `[0, 3]` (both
intervals), and status `st`. -/
def demoPoint (w : Flt) (st : ImmaturePointStatus) : ImmaturePoint where
  color := fun _ => 10
  weights := fun _ => w
  gradH := ⟨1, 0, 0, 0⟩
  u := 100
  v := 100
  u_stereo := 100
  v_stereo := 100
  idepth_min := 0
  idepth_max := 3
  idepth_min_stereo := 0
  idepth_max_stereo := 3
  idepth_stereo := 0
  energyTH := 288
  quality := 10000
  lastTraceStatus := st
  lastTraceUV := ⟨-1, -1⟩
  lastTracePixelInterval := 0

/-- A test calibration matrix with focal length `10`. -/
def demoK : Mat33f := ⟨10, 0, 320, 0, 10, 240, 0, 0, 1⟩

/-- A test g2o run: every edge error is `err`, the final estimate is `(x, 100)`. -/
def demoSolver (err : Flt) (x : Flt) : G2O where
  edgeError := fun _ _ => err
  estimate := ⟨x, 100⟩

/-- The test point with the upper bound of the interval at `1`. -/
def demoNarrow : ImmaturePoint := { demoPoint 1 IPS_UNINITIALIZED with idepth_max := 1 }

/-- The test point with most of its gradient energy across the search direction. -/
def demoAcross : ImmaturePoint :=
  { demoPoint 1 IPS_UNINITIALIZED with gradH := ⟨fin (1 / 100), 0, 0, 1⟩ }

/-- The test globals with the refinement switched off. -/
def demoGlobalsNoGN : Globals := { demoGlobals with setting_trace_GNIterations := 0 }

/-- The test globals with a short maximal search length (`11.2` pixels). -/
def demoGlobalsShort : Globals := { demoGlobals with setting_maxPixSearch := fin (1 / 100) }

/-- The test point with the upper bound of the interval at `20`. -/
def demoWide : ImmaturePoint := { demoPoint 1 IPS_UNINITIALIZED with idepth_max := 20 }

/-- Test endpoints three pixels apart on the row `v = 100`. -/
def demoEndpoints : Endpoints := ⟨⟨100, 100, 1⟩, ⟨100, 100, 1⟩, 100, 100, 103, 100, 3⟩

/-- The pair a `traceOn` call back-projects and swaps in lines 799-810; `none`
when the call returns before the discrete search. -/
def traceOnNewInterval (g : Globals) (frame : FrameHessian) (p : ImmaturePoint)
    (hostToFrame_KRKi : Mat33f) (hostToFrame_Kt : Vec3f) (hostToFrame_affine : Vec2f) :
    Option (Flt × Flt) :=
  (traceOnReach g p hostToFrame_KRKi hostToFrame_Kt).map fun t =>
    let s := runSearch g frame p hostToFrame_affine t
    let r := gnRefine g frame (updateQuality g p t s) hostToFrame_affine t s
    newInterval t.pr hostToFrame_Kt t r.bestU r.bestV

/-- The test of line 812 on a back-projected pair. -/
def intervalRejected (iv : Flt × Flt) : Bool :=
  !iv.1.isfinite || !iv.2.isfinite || iv.2 < 0

/-- The test point with the interval `[-1, 2]`. -/
def demoBehind : ImmaturePoint :=
  { demoPoint 1 IPS_UNINITIALIZED with idepth_min := -1, idepth_max := 2 }

/-! ## The constructors -/

/-- The host frame as the constructors see it: `getInterpolatedElement33BiLin` on
`host->dI`, giving `[intensity, dx, dy]`. -/
structure HostImage where
  interp33BiLin : Flt → Flt → Vec3f

/-- The global settings read by the constructors. -/
structure EnergySettings where
  setting_outlierTH : Flt
  setting_overallEnergyTHWeight : Flt
  setting_outlierTHSumComponent : Flt

/-- `Mat22f::setZero()`. -/
def Mat22f.zero : Mat22f := ⟨0, 0, 0, 0⟩

/-- The update `gradH += grad * grad.transpose()` for `grad = (gx, gy)`, in
binary32: each product is rounded, then each sum. -/
def Mat22f.addOuter (m : Mat22f) (gx gy : Flt) : Mat22f :=
  ⟨add32 m.m00 (mul32 gx gx), add32 m.m01 (mul32 gx gy), add32 m.m10 (mul32 gy gx),
    add32 m.m11 (mul32 gy gy)⟩

/-- The quadratic form `w.transpose() * m * w` of lines 588 and 590 in binary32,
evaluated left to right with every product and sum rounded. -/
def Mat22f.quad32 (m : Mat22f) (w : Vec2f) : Flt :=
  add32 (mul32 (add32 (mul32 w.x m.m00) (mul32 w.y m.m10)) w.x)
    (mul32 (add32 (mul32 w.x m.m01) (mul32 w.y m.m11)) w.y)

/-- The sample `ptc` the constructor takes for pattern index `idx`:
`getInterpolatedElement33BiLin(host->dI, u+dx, v+dy, wG[0])`. -/
def patternSample (g : Globals) (host : HostImage) (u v : Flt) (idx : ℕ) : Vec3f :=
  host.interp33BiLin (u + ofInt (g.patternP idx).1) (v + ofInt (g.patternP idx).2)

/-- The sampling loop of the constructors (lines 39-56 and 69-82) after `n`
iterations: `.inl p` when an iteration has taken the `return` of line 49 / 77
(with `energyTH = NAN` set), `.inr p` otherwise. -/
def sampleLoop (g : Globals) (es : EnergySettings) (host : HostImage) (p0 : ImmaturePoint) :
    ℕ → ImmaturePoint ⊕ ImmaturePoint
  | 0 => .inr p0
  | idx + 1 =>
    match sampleLoop g es host p0 idx with
    | .inl p => .inl p
    | .inr p =>
      let ptc := patternSample g host p.u p.v idx
      let p := { p with color := Function.update p.color idx ptc.x }
      if !(p.color idx).isfinite then .inl { p with energyTH := nan }
      else
        .inr { p with
          gradH := p.gradH.addOuter ptc.y ptc.z
          weights := Function.update p.weights idx
            (sqrtf g.sqrtQ (es.setting_outlierTHSumComponent /
              (es.setting_outlierTHSumComponent + (ptc.y * ptc.y + ptc.z * ptc.z)))) }

/-- The member initialisers `u(u_), v(v_), idepth_min(0), idepth_max(NAN),
lastTraceStatus(IPS_UNINITIALIZED)` followed by `gradH.setZero()`.  `raw` is the
object before construction: members the constructor does not assign keep its
values. -/
def ImmaturePoint.initMembers (raw : ImmaturePoint) (u v : Flt) : ImmaturePoint :=
  { raw with u := u, v := v, idepth_min := 0, idepth_max := nan,
             lastTraceStatus := IPS_UNINITIALIZED, gradH := Mat22f.zero }

/-- The body shared by both constructors, for the coordinates `(u, v)` as floats. -/
def ImmaturePoint.construct (g : Globals) (es : EnergySettings) (host : HostImage)
    (raw : ImmaturePoint) (u v : Flt) : ImmaturePoint :=
  match sampleLoop g es host (ImmaturePoint.initMembers raw u v) g.patternNum with
  | .inl p => p
  | .inr p =>
    let energyTH := ofInt g.patternNum * es.setting_outlierTH
    { p with
      energyTH := energyTH * (es.setting_overallEnergyTHWeight * es.setting_overallEnergyTHWeight)
      quality := 10000 }

/-- `ImmaturePoint::ImmaturePoint(int u_, int v_, FrameHessian* host_, float type,
CalibHessian* HCalib)` (the member `my_type` is not part of the model). -/
def ImmaturePoint.mkInt (g : Globals) (es : EnergySettings) (host : HostImage)
    (raw : ImmaturePoint) (u_ v_ : ℤ) : ImmaturePoint :=
  ImmaturePoint.construct g es host raw (ofInt u_) (ofInt v_)

/-- `ImmaturePoint::ImmaturePoint(float u_, float v_, FrameHessian* host_,
CalibHessian* HCalib)`. -/
def ImmaturePoint.mkFloat (g : Globals) (es : EnergySettings) (host : HostImage)
    (raw : ImmaturePoint) (u_ v_ : Flt) : ImmaturePoint :=
  ImmaturePoint.construct g es host raw u_ v_

/-- Test settings: `setting_outlierTH = 12*12`, `setting_overallEnergyTHWeight = 1`,
`setting_outlierTHSumComponent = 50*50`. -/
def demoEnergy : EnergySettings := ⟨144, 1, 2500⟩

/-- A test host image of constant intensity `10` whose gradient is `grad` at
`x = 100` and zero elsewhere. -/
def demoHost (grad : Flt) : HostImage where
  interp33BiLin := fun x _ => if x = 100 then ⟨10, grad, 0⟩ else ⟨10, 0, 0⟩

/-- A test host image whose intensity is not finite at `x = 100`. -/
def demoHostHole : HostImage where
  interp33BiLin := fun x _ => if x = 100 then ⟨nan, 0, 0⟩ else ⟨10, 3, 4⟩

/-- A test host image of constant intensity `10` and constant gradient
`(33.2f, 38.3f)`. -/
def demoHostSlope : HostImage where
  interp33BiLin := fun _ _ => ⟨10, round32 (fin (166 / 5)), round32 (fin (383 / 10))⟩

/-- The value is `NaN`, `+inf` or a finite number that is at least `lo`. -/
def AtLeastOrNaN (lo : ℚ) (x : Flt) : Prop :=
  x = nan ∨ x = pinf ∨ ∃ q : ℚ, lo ≤ q ∧ x = fin q

/-- The position `b` is reached from `a` in at most `n` moves along `(dx, dy)`:
a move takes a position `m` reached with fewer moves to
`(m.1 + s*dx, m.2 + s*dy)` for a finite step `s` with `|s| <= 1/2`, the sums and
products being those of the code. -/
def StepsAlong (dx dy : Flt) : ℕ → Flt × Flt → Flt × Flt → Prop
  | 0, a, b => b = a
  | n + 1, a, b => StepsAlong dx dy n a b ∨
    ∃ m : Flt × Flt, ∃ s : ℚ, StepsAlong dx dy n a m ∧ |s| ≤ 1 / 2 ∧
      b = (m.1 + fin s * dx, m.2 + fin s * dy)

/-- The update `bestU += step*dx; bestV += step*dy;` of lines 758-759 in
binary32. -/
def gnAdvance32 (bestU bestV step dx dy : Flt) : Flt × Flt :=
  (add32 bestU (mul32 step dx), add32 bestV (mul32 step dy))

/-- A test image of intensity `10` whose gradient samples are `NaN`. -/
def demoFrameNoGrad : FrameHessian where
  interp31 := fun _ _ => 10
  interp33 := fun _ _ => ⟨10, nan, nan⟩

/-- The denominator `H` of the first Gauss-Newton iteration of a `traceOn` call
(lines 712-726, at the discrete best); `none` when the call returns before the
discrete search. -/
def traceOnFirstH (g : Globals) (frame : FrameHessian) (p : ImmaturePoint)
    (hostToFrame_KRKi : Mat33f) (hostToFrame_Kt : Vec3f) (hostToFrame_affine : Vec2f) :
    Option Flt :=
  (traceOnReach g p hostToFrame_KRKi hostToFrame_Kt).map fun t =>
    let s := runSearch g frame p hostToFrame_affine t
    (gnSums g frame (updateQuality g p t s) hostToFrame_affine t s.bestU s.bestV
      g.patternNum).1

/-- The projection of lines 491-493 on one axis in binary32:
`(pr[i] + Kt[i]*d) / (pr[2] + Kt[2]*d)`, every operation rounded. -/
def project32 (pri pr2 Kti Kt2 d : Flt) : Flt :=
  div32 (add32 pri (mul32 Kti d)) (add32 pr2 (mul32 Kt2 d))

/-- The back-projection of lines 800-806 on one axis in binary32:
`(pr[2]*c - pr[i]) / (Kt[i] - Kt[2]*c)`, every operation rounded. -/
def backProject32 (pr2 pri Kti Kt2 c : Flt) : Flt :=
  div32 (sub32 (mul32 pr2 c) pri) (sub32 Kti (mul32 Kt2 c))

/-- The number `q` is a binary32 value: rounding leaves it unchanged. -/
def Exact32 (q : ℚ) : Prop := round32 (fin q) = fin q

instance (q : ℚ) : Decidable (Exact32 q) := by unfold Exact32; infer_instance

/-- None of the operations of the projection of `d` and of the back-projection of
the result rounds on the axis with components `pr[i]`, `Kt[i]`: every
intermediate value, and `d` itself, is a binary32 value. -/
def Unrounded32 (pri pr2 Kti Kt2 d : ℚ) : Prop :=
  Exact32 d ∧ Exact32 (Kti * d) ∧ Exact32 (pri + Kti * d) ∧ Exact32 (Kt2 * d) ∧
  Exact32 (pr2 + Kt2 * d) ∧ Exact32 ((pri + Kti * d) / (pr2 + Kt2 * d)) ∧
  Exact32 (pr2 * ((pri + Kti * d) / (pr2 + Kt2 * d))) ∧
  Exact32 (pr2 * ((pri + Kti * d) / (pr2 + Kt2 * d)) - pri) ∧
  Exact32 (Kt2 * ((pri + Kti * d) / (pr2 + Kt2 * d))) ∧
  Exact32 (Kti - Kt2 * ((pri + Kti * d) / (pr2 + Kt2 * d)))

instance (a b c e d : ℚ) : Decidable (Unrounded32 a b c e d) := by
  unfold Unrounded32; infer_instance

/-- Matrix times vector in binary32: each product rounded, the sums rounded from
left to right. -/
def Mat33f.mulVec32 (m : Mat33f) (w : Vec3f) : Vec3f :=
  ⟨add32 (add32 (mul32 m.m00 w.x) (mul32 m.m01 w.y)) (mul32 m.m02 w.z),
   add32 (add32 (mul32 m.m10 w.x) (mul32 m.m11 w.y)) (mul32 m.m12 w.z),
   add32 (add32 (mul32 m.m20 w.x) (mul32 m.m21 w.y)) (mul32 m.m22 w.z)⟩

/-- The back-projected pair of lines 425-432 (and 799-806) in binary32. -/
def rawInterval32 (pr Kt : Vec3f) (t : TraceGeom) (bestU bestV : Flt) : Flt × Flt :=
  if mul32 t.dx t.dx > mul32 t.dy t.dy then
    (backProject32 pr.z pr.x Kt.x Kt.z (sub32 bestU (mul32 t.errorInPixel t.dx)),
     backProject32 pr.z pr.x Kt.x Kt.z (add32 bestU (mul32 t.errorInPixel t.dx)))
  else
    (backProject32 pr.z pr.y Kt.y Kt.z (sub32 bestV (mul32 t.errorInPixel t.dy)),
     backProject32 pr.z pr.y Kt.y Kt.z (add32 bestV (mul32 t.errorInPixel t.dy)))

/-- Lines 425-450 of `traceStereo` in binary32, for a call that has passed the
energy test: the new `(idepth_min_stereo, idepth_max_stereo, idepth_stereo)` of a
call that returns `IPS_GOOD`, `none` when the interval is rejected in line 440. -/
def stereoResolve32 (g : Globals) (p : ImmaturePoint) (K : Mat33f) (mode_right : Bool)
    (t : TraceGeom) (bestU bestV : Flt) : Option (Flt × Flt × Flt) :=
  let Kt := K.mulVec32 (stereoBl g mode_right)
  let bf := mul32 (-K.m00) (stereoBl g mode_right).x
  let iv := swapIfGreater (rawInterval32 t.pr Kt t bestU bestV)
  if !iv.1.isfinite || !iv.2.isfinite || iv.2 < 0 then none
  else some (iv.1, iv.2, div32 (sub32 p.u_stereo bestU) bf)

/-- The test globals with the baseline `0.1f`. -/
def demoGlobals32 : Globals := { demoGlobals with baseline := round32 (fin (1 / 10)) }

/-- A test calibration matrix with `fx = fy = 500`. -/
def demoK500 : Mat33f := ⟨500, 0, 320, 0, 500, 240, 0, 0, 1⟩

/-- The geometry of a stereo search from `(100, 100)` towards smaller `u`, with
`errorInPixel = 0.4f`. -/
def demoGeom32 : TraceGeom :=
  { pr := ⟨100, 100, 1⟩, uMin := 100, vMin := 100, dist := 10, dx := -1, dy := 0,
    errorInPixel := round32 (fin (2 / 5)), numSteps := 11, ptx := 100, pty := 100,
    rotatetPattern := fun _ => ⟨0, 0⟩ }

/-! ## Basic facts on `Flt` -/

namespace Flt

theorem lt_iff (a b : Flt) : a < b ↔ lt a b = true := Iff.rfl

theorem le_iff (a b : Flt) : a ≤ b ↔ le a b = true := Iff.rfl

theorem isfinite_iff (a : Flt) : a.isfinite = true ↔ ∃ q, a = fin q := by
  cases a <;> simp [isfinite]

@[simp] theorem fin_add_fin (a b : ℚ) : fin a + fin b = fin (a + b) := rfl

@[simp] theorem fin_sub_fin (a b : ℚ) : fin a - fin b = fin (a - b) := by
  show fin (a + -b) = fin (a - b)
  rw [sub_eq_add_neg]

@[simp] theorem fin_mul_fin (a b : ℚ) : fin a * fin b = fin (a * b) := rfl

@[simp] theorem neg_fin (a : ℚ) : -fin a = fin (-a) := rfl

theorem fin_div_fin (a b : ℚ) (hb : b ≠ 0) : fin a / fin b = fin (a / b) := by
  show Flt.div (fin a) (fin b) = fin (a / b)
  simp [Flt.div, hb]

@[simp] theorem fin_lt_fin (a b : ℚ) : fin a < fin b ↔ a < b := by
  simp [lt_iff, lt]

theorem ofNat_eq_fin (n : ℕ) : (OfNat.ofNat n : Flt) = fin (n : ℚ) := rfl

@[simp] theorem isfinite_fin (a : ℚ) : (fin a).isfinite = true := rfl

theorem le_of_lt_fin {a b : Flt} (h : a < b) (ha : a.isfinite = true)
    (hb : b.isfinite = true) : a ≤ b := by
  obtain ⟨x, rfl⟩ := (isfinite_iff a).1 ha
  obtain ⟨y, rfl⟩ := (isfinite_iff b).1 hb
  simp only [lt_iff, le_iff, lt, le, decide_eq_true_eq] at *
  exact le_of_lt h

theorem le_of_not_lt_fin {a b : Flt} (h : ¬ b < a) (ha : a.isfinite = true)
    (hb : b.isfinite = true) : a ≤ b := by
  obtain ⟨x, rfl⟩ := (isfinite_iff a).1 ha
  obtain ⟨y, rfl⟩ := (isfinite_iff b).1 hb
  simp only [lt_iff, le_iff, lt, le, decide_eq_true_eq] at *
  exact not_lt.1 h

/-! ### Rounding to binary32 -/

theorem twoPow_eq (e : ℤ) : twoPow e = (2 : ℚ) ^ e := by
  unfold twoPow
  split_ifs with h
  · obtain ⟨n, rfl⟩ := Int.eq_ofNat_of_zero_le h
    simp
  · have h' : 0 ≤ -e := by omega
    obtain ⟨n, hn⟩ := Int.eq_ofNat_of_zero_le h'
    have he : e = -(n : ℤ) := by omega
    subst he
    simp

theorem twoPow_pos (e : ℤ) : 0 < twoPow e := by
  rw [twoPow_eq]
  positivity

theorem twoPow_sub (a b : ℤ) : twoPow (a - b) = twoPow a / twoPow b := by
  simp only [twoPow_eq]
  rw [zpow_sub₀ (by norm_num)]

/-- The exponent search stays at the start or ends at a power of two below `q`. -/
theorem binExp_spec (q : ℚ) (k : ℕ) : ∀ e : ℤ,
    binExp q k e = e ∨ twoPow (binExp q k e) ≤ q := by
  induction k with
  | zero => intro e; exact Or.inl rfl
  | succ k ih =>
    intro e
    unfold binExp
    split_ifs with h
    · rcases ih (e + 1) with h1 | h1
      · right
        rw [h1]
        exact h
      · exact Or.inr h1
    · exact Or.inl rfl

theorem roundHalfEven_near (x : ℚ) : |(roundHalfEven x : ℚ) - x| ≤ 1 / 2 := by
  have h1 := Int.floor_le x
  have h2 := Int.lt_floor_add_one x
  unfold roundHalfEven
  rw [abs_le]
  split_ifs with a b c
  · constructor <;> linarith
  · push_cast
    constructor <;> linarith
  · constructor <;> linarith
  · push_cast
    constructor <;> linarith

theorem roundHalfEven_nonneg (x : ℚ) (hx : 0 ≤ x) : 0 ≤ roundHalfEven x := by
  have h := Int.floor_nonneg.2 hx
  unfold roundHalfEven
  split_ifs <;> omega

/-- The rounded value of a non-negative rational, before the overflow test, is
non-negative and within half a unit in the last place, which is at most `2^-150`
or `q / 2^24`. -/
theorem round32Pos_val (q : ℚ) (hq : 0 ≤ q) :
    0 ≤ (roundHalfEven (q / twoPow (binExp q 253 (-126) - 23)) : ℚ)
        * twoPow (binExp q 253 (-126) - 23) ∧
    |(roundHalfEven (q / twoPow (binExp q 253 (-126) - 23)) : ℚ)
        * twoPow (binExp q 253 (-126) - 23) - q| ≤ max (1 / 2 ^ 150) (q / 2 ^ 24) := by
  have hu := twoPow_pos (binExp q 253 (-126) - 23)
  constructor
  · have h1 := roundHalfEven_nonneg (q / twoPow (binExp q 253 (-126) - 23))
      (div_nonneg hq hu.le)
    have h2 : (0 : ℚ) ≤ roundHalfEven (q / twoPow (binExp q 253 (-126) - 23)) := by
      exact_mod_cast h1
    exact mul_nonneg h2 hu.le
  · have hn := roundHalfEven_near (q / twoPow (binExp q 253 (-126) - 23))
    have hd : |(roundHalfEven (q / twoPow (binExp q 253 (-126) - 23)) : ℚ)
          * twoPow (binExp q 253 (-126) - 23) - q|
        ≤ twoPow (binExp q 253 (-126) - 23) / 2 := by
      have : (roundHalfEven (q / twoPow (binExp q 253 (-126) - 23)) : ℚ)
            * twoPow (binExp q 253 (-126) - 23) - q
          = ((roundHalfEven (q / twoPow (binExp q 253 (-126) - 23)) : ℚ)
            - q / twoPow (binExp q 253 (-126) - 23))
            * twoPow (binExp q 253 (-126) - 23) := by
        field_simp
      rw [this, abs_mul, abs_of_pos hu]
      calc _ ≤ 1 / 2 * twoPow (binExp q 253 (-126) - 23) :=
            mul_le_mul_of_nonneg_right hn hu.le
        _ = _ := by ring
    refine le_trans hd ?_
    rw [twoPow_sub]
    have h23 : twoPow 23 = 2 ^ 23 := by rw [twoPow_eq]; norm_cast
    rcases binExp_spec q 253 (-126) with he | he
    · rw [he]
      apply le_max_of_le_left
      rw [h23, twoPow_eq]
      norm_num
    · apply le_max_of_le_right
      rw [h23]
      have : twoPow (binExp q 253 (-126)) / 2 ^ 23 / 2 ≤ q / 2 ^ 23 / 2 := by
        apply div_le_div_of_nonneg_right _ (by norm_num)
        exact div_le_div_of_nonneg_right he (by norm_num)
      calc _ ≤ q / 2 ^ 23 / 2 := this
        _ = q / 2 ^ 24 := by ring

/-- Rounding keeps the sign: a non-negative rational rounds to `+inf` or to a
non-negative rational. -/
theorem round32Pos_nonneg (q : ℚ) (hq : 0 ≤ q) :
    round32Pos q = pinf ∨ ∃ r : ℚ, round32Pos q = fin r ∧ 0 ≤ r := by
  unfold round32Pos
  dsimp only
  split_ifs with h
  · exact Or.inl rfl
  · exact Or.inr ⟨_, rfl, (round32Pos_val q hq).1⟩

theorem round32Q_of_nonneg (q : ℚ) (hq : 0 ≤ q) : round32Q q = round32Pos q := by
  unfold round32Q
  rw [if_neg (not_lt.2 hq)]

/-- Rounding a non-negative rational up to `2^126` gives a finite non-negative
value within the rounding error. -/
theorem round32Q_fin (q : ℚ) (hq : 0 ≤ q) (hb : q ≤ 2 ^ 126) :
    ∃ r : ℚ, round32Q q = fin r ∧ 0 ≤ r ∧ |r - q| ≤ max (1 / 2 ^ 150) (q / 2 ^ 24) := by
  rw [round32Q_of_nonneg q hq]
  obtain ⟨h0, hd⟩ := round32Pos_val q hq
  unfold round32Pos
  dsimp only
  split_ifs with h
  · exfalso
    have h1 := (abs_le.1 hd).2
    have h2 : max (1 / 2 ^ 150 : ℚ) (q / 2 ^ 24) ≤ 1 + q := by
      apply max_le
      · have : (1 : ℚ) / 2 ^ 150 ≤ 1 := by norm_num
        linarith
      · have : q / 2 ^ 24 ≤ q := div_le_self hq (by norm_num)
        linarith
    have h3 : twoPow 128 = 2 ^ 128 := by rw [twoPow_eq]; norm_cast
    rw [h3] at h
    have h4 : (2 : ℚ) ^ 128 = 4 * 2 ^ 126 := by norm_num
    have h5 : (1 : ℚ) < 2 ^ 126 := by norm_num
    linarith
  · exact ⟨_, rfl, h0, hd⟩

end Flt

/-! ## The error bound -/

theorem skip_return_of_guards (g : Globals) (frame : FrameHessian) (p : ImmaturePoint)
    (KRKi : Mat33f) (Kt : Vec3f) (aff : Vec2f)
    (h0 : p.lastTraceStatus ≠ IPS_OOB) (hfin : p.idepth_max.isfinite = true)
    (hmin : inBorder g (rayPixel KRKi Kt p p.idepth_min).x
      (rayPixel KRKi Kt p p.idepth_min).y = true)
    (hmax : inBorder g (rayPixel KRKi Kt p p.idepth_max).x
      (rayPixel KRKi Kt p p.idepth_max).y = true)
    (hd : rayDist g p KRKi Kt < g.setting_trace_slackInterval) :
    traceOn g frame p KRKi Kt aff = (IPS_SKIPPED, withMidpoint g p KRKi Kt IPS_SKIPPED) := by
  unfold rayDist at hd
  unfold rayPixel at hmin hmax hd
  unfold pixelDist at hd
  dsimp only at hmin hmax hd
  unfold traceOn traceOnProject projectMax
  dsimp only
  rw [if_neg h0]
  simp only [hmin, hmax, hfin, Bool.not_true, Bool.false_eq_true, if_false, if_true, hd]
  rfl

theorem badcondition_return_of_guards (g : Globals) (frame : FrameHessian) (p : ImmaturePoint)
    (KRKi : Mat33f) (Kt : Vec3f) (aff : Vec2f) (hg : PassesGuards g p KRKi Kt)
    (hc : errorBound (gradAlong g p KRKi Kt) (gradAcross g p KRKi Kt)
        * g.setting_trace_minImprovementFactor > rayDist g p KRKi Kt) :
    traceOn g frame p KRKi Kt aff =
      (IPS_BADCONDITION, withMidpoint g p KRKi Kt IPS_BADCONDITION) := by
  obtain ⟨h0, hfin, hmin, hmax, hd, hs⟩ := hg
  unfold gradAlong gradAcross rayDist at hc
  unfold rayPixel at hmin hmax hd hc
  unfold pixelDist at hd hc
  unfold stepVec perp at hc
  unfold ScaleOk rayDepth at hs
  dsimp only at hmin hmax hd hc hs
  have hs' : (!(decide (p.idepth_min < 0) ||
      (decide (((KRKi.mulVec ⟨p.u, p.v, 1⟩).addScaled Kt p.idepth_min).z > fin (3 / 4)) &&
       decide (((KRKi.mulVec ⟨p.u, p.v, 1⟩).addScaled Kt p.idepth_min).z < fin (3 / 2)))))
      = false := by
    rcases hs with h | ⟨h1, h2⟩
    · simp [h]
    · simp [h1, h2]
  unfold traceOn traceOnProject projectMax
  dsimp only
  rw [if_neg h0]
  simp only [hmin, hmax, hfin, Bool.not_true, Bool.false_eq_true, if_false, if_true, hd]
  unfold traceOnGeom errA errB rawStep
  dsimp only
  simp only [hs', hc, hfin, Bool.false_eq_true, if_false, decide_True, Bool.and_self, if_true]
  rfl

theorem errorBound_small (b dist f : ℚ) (hb : 0 < b) (hf : 0 < f) :
    ∃ ε : ℚ, 0 < ε ∧ ∀ a : ℚ, 0 < a → a < ε →
      errorBound (fin a) (fin b) * fin f > fin dist := by
  refine ⟨b * f / (5 * (|dist| + 1)), by positivity, ?_⟩
  intro a ha hlt
  have hpos : (0 : ℚ) < 5 * (|dist| + 1) := by positivity
  have h1 : a * (5 * (|dist| + 1)) < b * f := (lt_div_iff₀ hpos).1 hlt
  have key : |dist| + 1 < b * f / (5 * a) := by
    rw [lt_div_iff₀ (by positivity)]
    linarith
  have hval : errorBound (fin a) (fin b) * fin f
      = fin ((1 / 5 + 1 / 5 * (a + b) / a) * f) := by
    show Flt.mul (Flt.add (fin (1 / 5)) (Flt.div (Flt.mul (fin (1 / 5))
      (Flt.add (fin a) (fin b))) (fin a))) (fin f) = _
    simp [Flt.mul, Flt.add, Flt.div, ha.ne']
  rw [hval]
  show Flt.lt (fin dist) (fin ((1 / 5 + 1 / 5 * (a + b) / a) * f)) = true
  simp only [Flt.lt, decide_eq_true_eq]
  have hexp : (1 / 5 + 1 / 5 * (a + b) / a) * f = 2 * f / 5 + b * f / (5 * a) := by
    field_simp
    ring
  rw [hexp]
  have := le_abs_self dist
  linarith

/-! ## The interval update -/

theorem swapIfGreater_le (iv : Flt × Flt) (h1 : (swapIfGreater iv).1.isfinite = true)
    (h2 : (swapIfGreater iv).2.isfinite = true) :
    (swapIfGreater iv).1 ≤ (swapIfGreater iv).2 := by
  unfold swapIfGreater at *
  by_cases hswap : iv.1 > iv.2
  · rw [if_pos hswap] at h1 h2 ⊢
    exact Flt.le_of_lt_fin hswap h1 h2
  · rw [if_neg hswap] at h1 h2 ⊢
    exact Flt.le_of_not_lt_fin hswap h1 h2

/-! ## Returns before the discrete search -/

theorem earlyExit_clearTrace (p : ImmaturePoint) (s : ImmaturePointStatus)
    (hs : s ≠ IPS_GOOD) : EarlyExit p (clearTrace p s) := by
  simp [EarlyExit, clearTrace, setTrace, hs]

theorem earlyExit_setTrace (p : ImmaturePoint) (uv : Vec2f) (w : Flt)
    (s : ImmaturePointStatus) (hs : s ≠ IPS_GOOD) : EarlyExit p (setTrace p uv w s) := by
  simp [EarlyExit, setTrace, hs]

theorem earlyExit_setStatus (p : ImmaturePoint) (s : ImmaturePointStatus)
    (hs : s ≠ IPS_GOOD) : EarlyExit p (setStatus p s) := by
  simp [EarlyExit, setStatus, hs]

theorem traceOnProject_inl (g : Globals) (p : ImmaturePoint) (KRKi : Mat33f) (Kt : Vec3f)
    (r : TraceResult) (h : traceOnProject g p KRKi Kt = .inl r) : EarlyExit p r := by
  unfold traceOnProject at h
  dsimp only at h
  repeat' split at h
  all_goals first
    | (cases h; done)
    | (cases h; exact earlyExit_clearTrace p _ (by decide))
    | (cases h; simp [EarlyExit, *])

theorem traceOnGeom_inl (g : Globals) (p : ImmaturePoint) (KRKi : Mat33f) (e : Endpoints)
    (r : TraceResult) (h : traceOnGeom g p KRKi e = .inl r) : EarlyExit p r := by
  unfold traceOnGeom at h
  dsimp only at h
  repeat' split at h
  all_goals first
    | (cases h; done)
    | (cases h; exact earlyExit_clearTrace p _ (by decide))

theorem traceStereoProject_inl (g : Globals) (p : ImmaturePoint) (K : Mat33f)
    (mode_right : Bool) (r : TraceResult)
    (h : traceStereoProject g p K mode_right = .inl r) : EarlyExit p r := by
  unfold traceStereoProject at h
  dsimp only at h
  repeat' split at h
  all_goals first
    | (cases h; done)
    | (cases h; exact earlyExit_clearTrace p _ (by decide))

theorem traceStereoGeom_inl (g : Globals) (p : ImmaturePoint) (e : Endpoints)
    (r : TraceResult) (h : traceStereoGeom g p e = .inl r) : EarlyExit p r := by
  unfold traceStereoGeom at h
  dsimp only at h
  repeat' split at h
  all_goals first
    | (cases h; done)
    | (cases h; exact earlyExit_clearTrace p _ (by decide))

/-! ## The final stage -/

theorem goodInterval_newInterval (pr Kt : Vec3f) (t : TraceGeom) (bestU bestV : Flt)
    (h1 : (newInterval pr Kt t bestU bestV).1.isfinite = true)
    (h2 : (newInterval pr Kt t bestU bestV).2.isfinite = true)
    (h3 : ¬ (newInterval pr Kt t bestU bestV).2 < 0) :
    GoodInterval (newInterval pr Kt t bestU bestV).1 (newInterval pr Kt t bestU bestV).2 :=
  ⟨swapIfGreater_le _ h1 h2, h1, h2, Flt.le_of_not_lt_fin h3 rfl h2⟩

theorem traceOnFinish_good (g : Globals) (p : ImmaturePoint) (Kt : Vec3f) (t : TraceGeom)
    (bestU bestV bestEnergy : Flt)
    (h : (traceOnFinish g p Kt t bestU bestV bestEnergy).1 = IPS_GOOD) :
    GoodInterval (traceOnFinish g p Kt t bestU bestV bestEnergy).2.idepth_min
      (traceOnFinish g p Kt t bestU bestV bestEnergy).2.idepth_max := by
  unfold traceOnFinish at h ⊢
  dsimp only at h ⊢
  split_ifs at h ⊢ with h1 h2 h3
  · simp [clearTrace, setTrace] at h
  · simp [clearTrace, setTrace] at h
  · simp [clearTrace, setTrace] at h
  · simp only [Bool.or_eq_true, Bool.not_eq_true', decide_eq_true_eq, not_or,
      Bool.not_eq_false] at h3
    exact goodInterval_newInterval _ _ _ _ _ h3.1.1 h3.1.2 h3.2

theorem traceStereoFinish_good (g : Globals) (p : ImmaturePoint) (K : Mat33f)
    (mode_right : Bool) (t : TraceGeom) (bestU bestV bestEnergy : Flt)
    (h : (traceStereoFinish g p K mode_right t bestU bestV bestEnergy).1 = IPS_GOOD) :
    GoodInterval
      (traceStereoFinish g p K mode_right t bestU bestV bestEnergy).2.idepth_min_stereo
      (traceStereoFinish g p K mode_right t bestU bestV bestEnergy).2.idepth_max_stereo := by
  unfold traceStereoFinish at h ⊢
  dsimp only at h ⊢
  split_ifs at h ⊢ with h1 h2 h3
  · simp [clearTrace, setTrace] at h
  · simp [clearTrace, setTrace] at h
  · simp [clearTrace, setTrace] at h
  · simp only [Bool.or_eq_true, Bool.not_eq_true', decide_eq_true_eq, not_or,
      Bool.not_eq_false] at h3
    exact goodInterval_newInterval _ _ _ _ _ h3.1.1 h3.1.2 h3.2

theorem updateQuality_fields (g : Globals) (p : ImmaturePoint) (t : TraceGeom)
    (s : SearchState) :
    (updateQuality g p t s).energyTH = p.energyTH ∧
    (updateQuality g p t s).lastTraceStatus = p.lastTraceStatus ∧
    (updateQuality g p t s).idepth_min = p.idepth_min ∧
    (updateQuality g p t s).idepth_max = p.idepth_max ∧
    (updateQuality g p t s).idepth_min_stereo = p.idepth_min_stereo ∧
    (updateQuality g p t s).idepth_max_stereo = p.idepth_max_stereo := by
  unfold updateQuality
  split_ifs <;> simp

theorem traceOnFinish_reject (g : Globals) (p : ImmaturePoint) (Kt : Vec3f) (t : TraceGeom)
    (bestU bestV bestEnergy : Flt)
    (h : ¬ bestEnergy < p.energyTH * g.setting_trace_extraSlackOnTH) :
    traceOnFinish g p Kt t bestU bestV bestEnergy =
      clearTrace p (rejectStatus p.lastTraceStatus) := by
  unfold traceOnFinish rejectStatus
  simp only [h, decide_False, Bool.not_false, if_true]
  split_ifs <;> rfl

theorem traceStereoFinish_reject (g : Globals) (p : ImmaturePoint) (K : Mat33f)
    (mode_right : Bool) (t : TraceGeom) (bestU bestV bestEnergy : Flt)
    (h : ¬ bestEnergy < p.energyTH * g.setting_trace_extraSlackOnTH) :
    traceStereoFinish g p K mode_right t bestU bestV bestEnergy =
      clearTrace p (rejectStatus p.lastTraceStatus) := by
  unfold traceStereoFinish rejectStatus
  simp only [h, decide_False, Bool.not_false, if_true]
  split_ifs <;> rfl

/-! ## The two halves of a trace call -/

theorem traceOn_of_reach_none (g : Globals) (frame : FrameHessian) (p : ImmaturePoint)
    (KRKi : Mat33f) (Kt : Vec3f) (aff : Vec2f) (h : traceOnReach g p KRKi Kt = none) :
    EarlyExit p (traceOn g frame p KRKi Kt aff) := by
  unfold traceOnReach at h
  unfold traceOn
  split at h
  · next r hr => exact traceOnProject_inl g p KRKi Kt r hr
  · next e he =>
    split at h
    · next r hr => exact traceOnGeom_inl g p KRKi e r hr
    · cases h

theorem traceOn_of_reach_some (g : Globals) (frame : FrameHessian) (p : ImmaturePoint)
    (KRKi : Mat33f) (Kt : Vec3f) (aff : Vec2f) (t : TraceGeom)
    (h : traceOnReach g p KRKi Kt = some t) :
    traceOn g frame p KRKi Kt aff = traceOnSearch g frame p Kt aff t := by
  unfold traceOnReach at h
  unfold traceOn
  split at h
  · cases h
  · next e he =>
    split at h
    · cases h
    · next t2 ht => cases h; rfl

theorem traceStereo_of_reach_none (g : Globals) (frame : FrameHessian) (solver : G2O)
    (p : ImmaturePoint) (K : Mat33f) (mode_right : Bool)
    (h : traceStereoReach g p K mode_right = none) :
    EarlyExit p (traceStereo g frame solver p K mode_right) := by
  unfold traceStereoReach at h
  unfold traceStereo
  split at h
  · next r hr => exact traceStereoProject_inl g p K mode_right r hr
  · next e he =>
    split at h
    · next r hr => exact traceStereoGeom_inl g p e r hr
    · cases h

theorem traceStereo_of_reach_some (g : Globals) (frame : FrameHessian) (solver : G2O)
    (p : ImmaturePoint) (K : Mat33f) (mode_right : Bool) (t : TraceGeom)
    (h : traceStereoReach g p K mode_right = some t) :
    traceStereo g frame solver p K mode_right =
      traceStereoSearch g frame solver p K mode_right t := by
  unfold traceStereoReach at h
  unfold traceStereo
  split at h
  · cases h
  · next e he =>
    split at h
    · cases h
    · next t2 ht => cases h; rfl

/-! ## The energy test -/

/-- A `traceOn` call that brings a `bestEnergy` not below the threshold to the
energy test returns `IPS_OOB` for a point that entered as `IPS_OUTLIER` and
`IPS_OUTLIER` otherwise, and clears the trace fields. -/
theorem traceOn_energy_reject (g : Globals) (frame : FrameHessian) (p : ImmaturePoint)
    (KRKi : Mat33f) (Kt : Vec3f) (aff : Vec2f) (e : Flt)
    (hE : traceOnBestEnergy g frame p KRKi Kt aff = some e)
    (h : ¬ e < p.energyTH * g.setting_trace_extraSlackOnTH) :
    (traceOn g frame p KRKi Kt aff).1 = rejectStatus p.lastTraceStatus ∧
    (traceOn g frame p KRKi Kt aff).2.lastTraceStatus = rejectStatus p.lastTraceStatus ∧
    (traceOn g frame p KRKi Kt aff).2.lastTraceUV = ⟨-1, -1⟩ ∧
    (traceOn g frame p KRKi Kt aff).2.lastTracePixelInterval = 0 := by
  unfold traceOnBestEnergy at hE
  cases hreach : traceOnReach g p KRKi Kt with
  | none => simp [hreach] at hE
  | some t =>
    simp only [hreach, Option.map_some', Option.some.injEq] at hE
    subst hE
    rw [traceOn_of_reach_some g frame p KRKi Kt aff t hreach]
    unfold traceOnSearch
    dsimp only
    rw [traceOnFinish_reject _ _ _ _ _ _ _
      (by rw [(updateQuality_fields g p t _).1]; exact h)]
    simp [clearTrace, setTrace, (updateQuality_fields g p t _).2.1]

/-- The same for `traceStereo`. -/
theorem traceStereo_energy_reject (g : Globals) (frame : FrameHessian) (solver : G2O)
    (p : ImmaturePoint) (K : Mat33f) (mode_right : Bool) (e : Flt)
    (hE : traceStereoBestEnergy g frame solver p K mode_right = some e)
    (h : ¬ e < p.energyTH * g.setting_trace_extraSlackOnTH) :
    (traceStereo g frame solver p K mode_right).1 = rejectStatus p.lastTraceStatus ∧
    (traceStereo g frame solver p K mode_right).2.lastTraceStatus =
      rejectStatus p.lastTraceStatus ∧
    (traceStereo g frame solver p K mode_right).2.lastTraceUV = ⟨-1, -1⟩ ∧
    (traceStereo g frame solver p K mode_right).2.lastTracePixelInterval = 0 := by
  unfold traceStereoBestEnergy at hE
  cases hreach : traceStereoReach g p K mode_right with
  | none => simp [hreach] at hE
  | some t =>
    simp only [hreach, Option.map_some', Option.some.injEq] at hE
    subst hE
    rw [traceStereo_of_reach_some g frame solver p K mode_right t hreach]
    unfold traceStereoSearch
    dsimp only
    rw [traceStereoFinish_reject _ _ _ _ _ _ _ _
      (by rw [(updateQuality_fields g p t _).1]; exact h)]
    simp [clearTrace, setTrace, (updateQuality_fields g p t _).2.1]

/-! ## The discrete search -/

theorem Flt.not_lt_of_lt {a b : Flt} (h : a < b) : ¬ b < a := by
  cases a <;> cases b <;> simp_all [Flt.lt_iff, Flt.lt]
  exact le_of_lt h

theorem lineSearch_bestEnergy (g : Globals) (frame : FrameHessian) (p : ImmaturePoint)
    (aff : Vec2f) (t : TraceGeom) (n : ℕ) :
    (lineSearch g frame p aff t n).bestEnergy = 10000000000 ∨
    (lineSearch g frame p aff t n).bestEnergy ∈ (lineSearch g frame p aff t n).errors := by
  induction n with
  | zero => left; rfl
  | succ i ih =>
    unfold lineSearch
    dsimp only
    split_ifs
    · right; simp
    · rcases ih with h | h
      · left; exact h
      · right; simp [h]

theorem gnRefine_of_no_iterations (g : Globals) (frame : FrameHessian) (p : ImmaturePoint)
    (aff : Vec2f) (t : TraceGeom) (s : SearchState) (h : g.setting_trace_GNIterations ≤ 0) :
    (gnRefine g frame p aff t s).bestEnergy = s.bestEnergy := by
  unfold gnRefine
  have h1 : ¬ g.setting_trace_GNIterations > 0 := not_lt.2 h
  have h2 : g.setting_trace_GNIterations.toNat = 0 := Int.toNat_eq_zero.2 h
  simp only [h1, if_false, h2, gnLoop]

/-! ## The quality update -/

theorem Flt.le_of_notIncreased {a b : Flt} (h : NotIncreased a b) (hb : b ≠ nan) : a ≤ b := by
  rcases h with h | h
  · cases a <;> cases b <;> simp_all [Flt.lt_iff, Flt.le_iff, Flt.lt, Flt.le]
    exact le_of_lt h
  · subst h
    cases a <;> simp_all [Flt.le_iff, Flt.le]

theorem traceOnFinish_quality (g : Globals) (p : ImmaturePoint) (Kt : Vec3f) (t : TraceGeom)
    (bestU bestV bestEnergy : Flt) :
    (traceOnFinish g p Kt t bestU bestV bestEnergy).2.quality = p.quality := by
  unfold traceOnFinish
  dsimp only
  split_ifs <;> rfl

theorem traceStereoFinish_quality (g : Globals) (p : ImmaturePoint) (K : Mat33f)
    (mode_right : Bool) (t : TraceGeom) (bestU bestV bestEnergy : Flt) :
    (traceStereoFinish g p K mode_right t bestU bestV bestEnergy).2.quality = p.quality := by
  unfold traceStereoFinish
  dsimp only
  split_ifs <;> rfl

theorem updateQuality_short (g : Globals) (p : ImmaturePoint) (t : TraceGeom)
    (s : SearchState) (h : t.numSteps ≤ 10) :
    NotIncreased (updateQuality g p t s).quality p.quality := by
  unfold updateQuality NotIncreased
  have h10 : ¬ t.numSteps > 10 := not_lt.2 h
  by_cases hq : newQuality g t s < p.quality
  · left
    simp [hq]
  · right
    simp [hq, h10]

theorem updateQuality_long (g : Globals) (p : ImmaturePoint) (t : TraceGeom)
    (s : SearchState) (h : t.numSteps > 10) :
    (updateQuality g p t s).quality = newQuality g t s := by
  unfold updateQuality
  simp [h]

/-! ## The number of steps -/

theorem toInt_fin_of_pos (a : ℚ) (h0 : 0 ≤ a) (h1 : a < 2147483648) :
    toInt (fin a) = ⌊a⌋ := by
  unfold toInt
  have hf0 : (0 : ℤ) ≤ ⌊a⌋ := Int.floor_nonneg.2 h0
  have hf1 : ⌊a⌋ < 2147483648 := by
    have : ((⌊a⌋ : ℤ) : ℚ) < ((2147483648 : ℤ) : ℚ) := lt_of_le_of_lt (Int.floor_le a) (by exact_mod_cast h1)
    exact_mod_cast this
  simp only [h0, if_true]
  rw [if_pos ⟨by omega, hf1⟩]

/-- The float sum `1.9999f + dist / setting_trace_stepsize` for a positive length
and step size: a finite value within a relative `2^-22` of the exact sum. -/
theorem stepSum32_spec (d s : ℚ) (hd : 0 < d) (hpos : 0 < s) (hr : d / s ≤ 2 ^ 30) :
    ∃ v : ℚ, add32 (round32 (fin (19999 / 10000))) (div32 (fin d) (fin s)) = fin v ∧
      0 ≤ v ∧ v < 2147483648 ∧
      |v - (19999 / 10000 + d / s)| ≤ (19999 / 10000 + d / s) / 2 ^ 22 := by
  have hq : (0 : ℚ) ≤ d / s := (div_pos hd hpos).le
  have ha : round32 (fin (19999 / 10000)) = fin (16776377 / 8388608) := by decide!
  obtain ⟨x, hx, hx0, hxe⟩ := round32Q_fin (d / s) hq
    (le_trans hr (by norm_num))
  have hdiv : div32 (fin d) (fin s) = fin x := by
    unfold div32
    rw [fin_div_fin _ _ hpos.ne']
    exact hx
  have hxb : x ≤ d / s + (1 / 2 ^ 150 + d / s / 2 ^ 24) := by
    have h1 := (abs_le.1 hxe).2
    have h2 : max (1 / 2 ^ 150 : ℚ) (d / s / 2 ^ 24) ≤ 1 / 2 ^ 150 + d / s / 2 ^ 24 := by
      apply max_le
      · have : (0 : ℚ) ≤ d / s / 2 ^ 24 := by positivity
        linarith
      · have : (0 : ℚ) ≤ 1 / 2 ^ 150 := by positivity
        linarith
    linarith
  have hxl : d / s - (1 / 2 ^ 150 + d / s / 2 ^ 24) ≤ x := by
    have h1 := (abs_le.1 hxe).1
    have h2 : max (1 / 2 ^ 150 : ℚ) (d / s / 2 ^ 24) ≤ 1 / 2 ^ 150 + d / s / 2 ^ 24 := by
      apply max_le
      · have : (0 : ℚ) ≤ d / s / 2 ^ 24 := by positivity
        linarith
      · have : (0 : ℚ) ≤ 1 / 2 ^ 150 := by positivity
        linarith
    linarith
  have hsum0 : (0 : ℚ) ≤ 16776377 / 8388608 + x := by positivity
  obtain ⟨v, hv, hv0, hve⟩ := round32Q_fin (16776377 / 8388608 + x) hsum0 (by
    have : (d / s) / 2 ^ 24 ≤ d / s := div_le_self hq (by norm_num)
    have h150 : (1 : ℚ) / 2 ^ 150 ≤ 1 := by norm_num
    have : (2 : ℚ) ^ 30 * 2 + 4 ≤ 2 ^ 126 := by norm_num
    linarith)
  have hmax : max (1 / 2 ^ 150 : ℚ) ((16776377 / 8388608 + x) / 2 ^ 24)
      = (16776377 / 8388608 + x) / 2 ^ 24 := by
    apply max_eq_right
    have : (1 : ℚ) / 2 ^ 150 ≤ (16776377 / 8388608) / 2 ^ 24 := by norm_num
    have : (16776377 / 8388608 : ℚ) / 2 ^ 24 ≤ (16776377 / 8388608 + x) / 2 ^ 24 :=
      div_le_div_of_nonneg_right (by linarith) (by norm_num)
    linarith
  rw [hmax] at hve
  refine ⟨v, ?_, hv0, ?_, ?_⟩
  · rw [ha, hdiv]
    unfold add32
    rw [fin_add_fin]
    exact hv
  · have h1 := (abs_le.1 hve).2
    have h2 : (16776377 / 8388608 + x) / 2 ^ 24 ≤ 16776377 / 8388608 + x :=
      div_le_self hsum0 (by norm_num)
    have : (d / s) / 2 ^ 24 ≤ d / s := div_le_self hq (by norm_num)
    have h150 : (1 : ℚ) / 2 ^ 150 ≤ 1 := by norm_num
    have : (2 : ℚ) ^ 30 = 1073741824 := by norm_num
    linarith
  · rw [abs_le]
    have h1 := abs_le.1 hve
    have e24 : (16776377 / 8388608 + x) / 2 ^ 24
        = (16776377 / 8388608 + x) * (1 / 16777216) := by norm_num [div_eq_mul_inv]
    have e22 : (19999 / 10000 + d / s) / 2 ^ 22
        = (19999 / 10000 + d / s) * (1 / 4194304) := by norm_num [div_eq_mul_inv]
    have q24 : d / s / 2 ^ 24 = d / s * (1 / 16777216) := by norm_num [div_eq_mul_inv]
    have h150 : (1 : ℚ) / 2 ^ 150 ≤ 1 / 100000000 := by norm_num
    rw [e24] at h1
    rw [e22]
    rw [q24] at hxb hxl
    constructor <;> nlinarith [h1.1, h1.2, hxb, hxl, hq, h150]

theorem numStepsOf_eq (g : Globals) (d s : ℚ) (hs : g.setting_trace_stepsize = fin s)
    (hd : 0 < d) (hpos : 0 < s) (hr : d / s ≤ 2 ^ 30) :
    ∃ v : ℚ, add32 (round32 (fin (19999 / 10000))) (div32 (fin d) (fin s)) = fin v ∧
      |v - (19999 / 10000 + d / s)| ≤ (19999 / 10000 + d / s) / 2 ^ 22 ∧
      numStepsOf g (fin d) = min ⌊v⌋ 99 := by
  obtain ⟨v, hv, hv0, hv1, hve⟩ := stepSum32_spec d s hd hpos hr
  refine ⟨v, hv, hve, ?_⟩
  unfold numStepsOf
  rw [hs, hv, toInt_fin_of_pos _ hv0 hv1]
  dsimp only
  split_ifs with h
  · omega
  · omega

/-! ## Zero translation -/

theorem backProject_zero (a b c : Flt) : (backProject a b (fin 0) (fin 0) c).isfinite = false := by
  unfold backProject
  have hden : fin 0 - fin 0 * c = fin 0 ∨ fin 0 - fin 0 * c = nan := by
    cases c
    · left; simp
    · right; show Flt.sub (fin 0) (Flt.mul (fin 0) pinf) = nan
      simp [Flt.sub, Flt.mul, Flt.infOfSign, Flt.add, Flt.neg]
    · right; show Flt.sub (fin 0) (Flt.mul (fin 0) ninf) = nan
      simp [Flt.sub, Flt.mul, Flt.infOfSign, Flt.add, Flt.neg]
    · right; rfl
  rcases hden with h | h
  · rw [h]
    generalize a * c - b = n
    show (Flt.div n (fin 0)).isfinite = false
    cases n <;> simp [Flt.div, Flt.infOfSign, Flt.isfinite]
    split_ifs <;> rfl
  · rw [h]
    generalize a * c - b = n
    show (Flt.div n nan).isfinite = false
    cases n <;> rfl

theorem zero_eq_fin : (0 : Flt) = fin 0 := by
  rw [ofNat_eq_fin]; simp

theorem one_eq_fin : (1 : Flt) = fin 1 := by
  rw [ofNat_eq_fin]; simp

theorem newInterval_zero (pr : Vec3f) (t : TraceGeom) (bestU bestV : Flt) :
    (newInterval pr ⟨0, 0, 0⟩ t bestU bestV).1.isfinite = false := by
  unfold newInterval swapIfGreater rawInterval
  simp only [zero_eq_fin]
  split_ifs <;> simp [backProject_zero]

theorem traceOnFinish_zero (g : Globals) (p : ImmaturePoint) (t : TraceGeom)
    (bestU bestV bestEnergy : Flt) :
    (traceOnFinish g p ⟨0, 0, 0⟩ t bestU bestV bestEnergy).1 ≠ IPS_GOOD := by
  intro h
  unfold traceOnFinish at h
  dsimp only at h
  split_ifs at h with h1 h2 h3
  · simp [clearTrace, setTrace] at h
  · simp [clearTrace, setTrace] at h
  · simp [clearTrace, setTrace] at h
  · simp [newInterval_zero] at h3

theorem inBorder_finite (g : Globals) (u v : Flt) (h : inBorder g u v = true) :
    ∃ a b : ℚ, u = fin a ∧ v = fin b := by
  unfold inBorder at h
  simp only [Bool.and_eq_true, decide_eq_true_eq] at h
  obtain ⟨⟨⟨h1, h2⟩, h3⟩, h4⟩ := h
  cases u <;> cases v <;> simp_all [Flt.lt_iff, Flt.lt, Flt.ofInt]

theorem rayPixel_zero_motion (p : ImmaturePoint) (a b d : ℚ) (hu : p.u = fin a)
    (hv : p.v = fin b) :
    rayPixel Mat33f.identity ⟨0, 0, 0⟩ p (fin d) = ⟨p.u, p.v⟩ := by
  unfold rayPixel Mat33f.mulVec Mat33f.identity Vec3f.addScaled
  simp [hu, hv, ofNat_eq_fin, fin_div_fin]

theorem zero_motion_skip_return (g : Globals) (frame : FrameHessian) (p : ImmaturePoint)
    (aff : Vec2f) (h0 : p.lastTraceStatus ≠ IPS_OOB) (hb : inBorder g p.u p.v = true)
    (hmin : p.idepth_min.isfinite = true) (hmax : p.idepth_max.isfinite = true)
    (hsq : g.sqrtQ 0 = 0) (hsl : (0 : Flt) < g.setting_trace_slackInterval) :
    traceOn g frame p Mat33f.identity ⟨0, 0, 0⟩ aff =
      (IPS_SKIPPED,
        { p with lastTraceUV := ⟨p.u, p.v⟩, lastTracePixelInterval := 0,
                 lastTraceStatus := IPS_SKIPPED }) := by
  obtain ⟨a, b, hu, hv⟩ := inBorder_finite g p.u p.v hb
  obtain ⟨c, hc⟩ := (Flt.isfinite_iff _).1 hmin
  obtain ⟨d, hd⟩ := (Flt.isfinite_iff _).1 hmax
  have r1 := rayPixel_zero_motion p a b c hu hv
  have r2 := rayPixel_zero_motion p a b d hu hv
  rw [← hc] at r1
  rw [← hd] at r2
  have hdist : rayDist g p Mat33f.identity ⟨0, 0, 0⟩ = 0 := by
    unfold rayDist pixelDist
    rw [r1, r2]
    simp [hu, hv, Flt.sqrtf, hsq, ofNat_eq_fin]
  rw [skip_return_of_guards g frame p Mat33f.identity ⟨0, 0, 0⟩ aff h0 hmax
    (by rw [r1]; exact hb) (by rw [r2]; exact hb) (by rw [hdist]; exact hsl)]
  unfold withMidpoint midpoint
  rw [hdist, r1, r2]
  simp [hu, hv]
  constructor <;> ring

/-! ## Back-projection -/

theorem backProject32_of_unrounded (a k z c d : ℚ) (hz : z + c * d ≠ 0)
    (hk : k * z ≠ c * a) (hu : Unrounded32 a z k c d) :
    backProject32 (fin z) (fin a) (fin k) (fin c)
      (project32 (fin a) (fin z) (fin k) (fin c) (fin d)) = fin d := by
  obtain ⟨e0, e1, e2, e3, e4, e5, e6, e7, e8, e9⟩ := hu
  unfold Exact32 at e0 e1 e2 e3 e4 e5 e6 e7 e8 e9
  have hden : k - c * ((a + k * d) / (z + c * d)) ≠ 0 := by
    have : k - c * ((a + k * d) / (z + c * d)) = (k * z - c * a) / (z + c * d) := by
      field_simp
      ring
    rw [this]
    exact div_ne_zero (sub_ne_zero.2 hk) hz
  have hP : project32 (fin a) (fin z) (fin k) (fin c) (fin d) =
      fin ((a + k * d) / (z + c * d)) := by
    unfold project32 div32 add32 mul32
    rw [fin_mul_fin, e1, fin_add_fin, e2, fin_mul_fin, e3, fin_add_fin, e4,
      fin_div_fin _ _ hz, e5]
  rw [hP]
  unfold backProject32 div32 sub32 mul32
  rw [fin_mul_fin, e6, fin_sub_fin, e7, fin_mul_fin, e8, fin_sub_fin, e9,
    fin_div_fin _ _ hden]
  have : (z * ((a + k * d) / (z + c * d)) - a) / (k - c * ((a + k * d) / (z + c * d))) = d := by
    rw [div_eq_iff hden]
    field_simp
    ring
  rw [this, e0]

/-! ## The stereo depth -/

theorem Flt.neg_infOfSign (q : ℚ) : Flt.neg (Flt.infOfSign q) = Flt.infOfSign (-q) := by
  unfold Flt.infOfSign
  rcases lt_trichotomy q 0 with h | h | h
  · have h1 : ¬ 0 < q := not_lt.2 h.le
    have h2 : (0 : ℚ) < -q := neg_pos.2 h
    simp [h, h1, h2, Flt.neg]
  · subst h
    simp [Flt.neg]
  · have h1 : ¬ q < 0 := not_lt.2 h.le
    have h2 : -q < 0 := neg_neg_of_pos h
    have h3 : ¬ (0 : ℚ) < -q := not_lt.2 h2.le
    simp [h, h1, h2, h3, Flt.neg]

theorem Flt.neg_ctor :
    (∀ q, Flt.neg (fin q) = fin (-q)) ∧ Flt.neg pinf = ninf ∧ Flt.neg ninf = pinf ∧
      Flt.neg nan = nan := ⟨fun _ => rfl, rfl, rfl, rfl⟩

theorem Flt.neg_mul_neg (a b : Flt) : -a * -b = b * a := by
  show Flt.mul (Flt.neg a) (Flt.neg b) = Flt.mul b a
  cases a <;> cases b <;>
    simp [Flt.neg_ctor.1, Flt.neg_ctor.2.1, Flt.neg_ctor.2.2.1, Flt.neg_ctor.2.2.2, Flt.mul,
      mul_comm]

theorem Flt.neg_mul (a b : Flt) : -a * b = -(b * a) := by
  show Flt.mul (Flt.neg a) b = Flt.neg (Flt.mul b a)
  cases a <;> cases b <;>
    simp [Flt.neg_ctor.1, Flt.neg_ctor.2.1, Flt.neg_ctor.2.2.1, Flt.neg_ctor.2.2.2, Flt.mul,
      mul_comm, Flt.neg_infOfSign]

theorem stereoBf_eq (g : Globals) (K : Mat33f) (mode_right : Bool) :
    stereoBf g K mode_right =
      if mode_right then g.baseline * K.m00 else -(g.baseline * K.m00) := by
  unfold stereoBf stereoBl
  cases mode_right
  · simp only [Bool.false_eq_true, if_false]
    exact Flt.neg_mul _ _
  · simp only [if_true]
    exact Flt.neg_mul_neg _ _

theorem updateQuality_stereo (g : Globals) (p : ImmaturePoint) (t : TraceGeom)
    (s : SearchState) : (updateQuality g p t s).u_stereo = p.u_stereo := by
  unfold updateQuality
  split_ifs <;> rfl

/-- The point after a successful stereo update. -/
theorem traceStereoFinish_of_good (g : Globals) (p : ImmaturePoint) (K : Mat33f)
    (mode_right : Bool) (t : TraceGeom) (bestU bestV bestEnergy : Flt)
    (h : (traceStereoFinish g p K mode_right t bestU bestV bestEnergy).1 = IPS_GOOD) :
    (traceStereoFinish g p K mode_right t bestU bestV bestEnergy).2 =
      { p with
        idepth_min_stereo := (newInterval t.pr (stereoKt g K mode_right) t bestU bestV).1
        idepth_max_stereo := (newInterval t.pr (stereoKt g K mode_right) t bestU bestV).2
        idepth_stereo := (p.u_stereo - bestU) / stereoBf g K mode_right
        lastTraceUV := ⟨bestU, bestV⟩
        lastTracePixelInterval := 2 * t.errorInPixel
        lastTraceStatus := IPS_GOOD } := by
  unfold traceStereoFinish at h ⊢
  dsimp only at h ⊢
  split_ifs at h ⊢
  · simp [clearTrace, setTrace] at h
  · simp [clearTrace, setTrace] at h
  · simp [clearTrace, setTrace] at h
  · rfl

theorem traceStereo_good_reach (g : Globals) (frame : FrameHessian) (solver : G2O)
    (p : ImmaturePoint) (K : Mat33f) (mode_right : Bool)
    (h : (traceStereo g frame solver p K mode_right).1 = IPS_GOOD) :
    ∃ t, traceStereoReach g p K mode_right = some t ∧
      traceStereo g frame solver p K mode_right =
        traceStereoSearch g frame solver p K mode_right t := by
  cases ht : traceStereoReach g p K mode_right with
  | none => exact absurd h (traceStereo_of_reach_none g frame solver p K mode_right ht).1
  | some t => exact ⟨t, rfl, traceStereo_of_reach_some g frame solver p K mode_right t ht⟩

/-! ## The interval after a failed trace -/

/-- The three outcomes of the final stage of `traceOn`. -/
theorem traceOnFinish_cases (g : Globals) (p : ImmaturePoint) (Kt : Vec3f) (t : TraceGeom)
    (bestU bestV bestEnergy : Flt) :
    (¬ bestEnergy < p.energyTH * g.setting_trace_extraSlackOnTH ∧
      traceOnFinish g p Kt t bestU bestV bestEnergy =
        clearTrace p (rejectStatus p.lastTraceStatus)) ∨
    (bestEnergy < p.energyTH * g.setting_trace_extraSlackOnTH ∧
      intervalRejected (newInterval t.pr Kt t bestU bestV) = true ∧
      traceOnFinish g p Kt t bestU bestV bestEnergy =
        clearTrace { p with idepth_min := (newInterval t.pr Kt t bestU bestV).1,
                            idepth_max := (newInterval t.pr Kt t bestU bestV).2 }
          IPS_OUTLIER) ∨
    (bestEnergy < p.energyTH * g.setting_trace_extraSlackOnTH ∧
      intervalRejected (newInterval t.pr Kt t bestU bestV) = false ∧
      traceOnFinish g p Kt t bestU bestV bestEnergy =
        setTrace { p with idepth_min := (newInterval t.pr Kt t bestU bestV).1,
                          idepth_max := (newInterval t.pr Kt t bestU bestV).2 }
          ⟨bestU, bestV⟩ (2 * t.errorInPixel) IPS_GOOD) := by
  by_cases hE : bestEnergy < p.energyTH * g.setting_trace_extraSlackOnTH
  · right
    cases hrej : intervalRejected (newInterval t.pr Kt t bestU bestV)
    · right
      refine ⟨hE, rfl, ?_⟩
      unfold intervalRejected at hrej
      unfold traceOnFinish
      simp only [hE, decide_True, Bool.not_true, Bool.false_eq_true, if_false, hrej]
    · left
      refine ⟨hE, rfl, ?_⟩
      unfold intervalRejected at hrej
      unfold traceOnFinish
      simp only [hE, decide_True, Bool.not_true, Bool.false_eq_true, if_false, hrej, if_true]
  · left
    exact ⟨hE, traceOnFinish_reject g p Kt t bestU bestV bestEnergy hE⟩

/-- What a `traceOn` call that enters the discrete search returns, by the
outcome of the final stage. -/
theorem traceOn_outcomes (g : Globals) (frame : FrameHessian) (p : ImmaturePoint)
    (KRKi : Mat33f) (Kt : Vec3f) (aff : Vec2f) (t : TraceGeom)
    (ht : traceOnReach g p KRKi Kt = some t) :
    ∃ e iv, traceOnBestEnergy g frame p KRKi Kt aff = some e ∧
      traceOnNewInterval g frame p KRKi Kt aff = some iv ∧
      ((¬ e < energyThreshold g p ∧
          (traceOn g frame p KRKi Kt aff).1 = rejectStatus p.lastTraceStatus ∧
          (traceOn g frame p KRKi Kt aff).2.idepth_min = p.idepth_min ∧
          (traceOn g frame p KRKi Kt aff).2.idepth_max = p.idepth_max) ∨
        (e < energyThreshold g p ∧ intervalRejected iv = true ∧
          (traceOn g frame p KRKi Kt aff).1 = IPS_OUTLIER ∧
          (traceOn g frame p KRKi Kt aff).2.idepth_min = iv.1 ∧
          (traceOn g frame p KRKi Kt aff).2.idepth_max = iv.2) ∨
        (e < energyThreshold g p ∧ intervalRejected iv = false ∧
          (traceOn g frame p KRKi Kt aff).1 = IPS_GOOD ∧
          (traceOn g frame p KRKi Kt aff).2.idepth_min = iv.1 ∧
          (traceOn g frame p KRKi Kt aff).2.idepth_max = iv.2)) := by
  refine ⟨_, _, by unfold traceOnBestEnergy; rw [ht]; rfl,
    by unfold traceOnNewInterval; rw [ht]; rfl, ?_⟩
  rw [traceOn_of_reach_some g frame p KRKi Kt aff t ht]
  unfold traceOnSearch energyThreshold
  dsimp only
  have hf := updateQuality_fields g p t (runSearch g frame p aff t)
  rcases traceOnFinish_cases g (updateQuality g p t (runSearch g frame p aff t)) Kt t
      (gnRefine g frame (updateQuality g p t (runSearch g frame p aff t)) aff t
        (runSearch g frame p aff t)).bestU
      (gnRefine g frame (updateQuality g p t (runSearch g frame p aff t)) aff t
        (runSearch g frame p aff t)).bestV
      (gnRefine g frame (updateQuality g p t (runSearch g frame p aff t)) aff t
        (runSearch g frame p aff t)).bestEnergy with ⟨h1, h2⟩ | ⟨h1, h2, h3⟩ | ⟨h1, h2, h3⟩
  · left
    rw [hf.1] at h1
    rw [h2]
    exact ⟨h1, by simp [clearTrace, setTrace, hf.2.1], by simp [clearTrace, setTrace, hf.2.2.1],
      by simp [clearTrace, setTrace, hf.2.2.2.1]⟩
  · right; left
    rw [hf.1] at h1
    rw [h3]
    exact ⟨h1, h2, rfl, rfl, rfl⟩
  · right; right
    rw [hf.1] at h1
    rw [h3]
    exact ⟨h1, h2, rfl, rfl, rfl⟩

/-! ## What construction establishes -/

/-- What the sampling loop has established after `n` iterations. -/
theorem sampleLoop_spec (g : Globals) (es : EnergySettings) (host : HostImage)
    (p0 : ImmaturePoint) (n : ℕ) :
    (∀ p, sampleLoop g es host p0 n = .inl p →
      p.energyTH = nan ∧
      ∃ idx, idx < n ∧ (patternSample g host p0.u p0.v idx).x.isfinite = false) ∧
    (∀ p, sampleLoop g es host p0 n = .inr p →
      p.u = p0.u ∧ p.v = p0.v ∧ p.energyTH = p0.energyTH ∧
      ∀ idx, idx < n → (patternSample g host p0.u p0.v idx).x.isfinite = true) := by
  induction n with
  | zero =>
    refine ⟨fun p h => ?_, fun p h => ?_⟩
    · simp [sampleLoop] at h
    · simp only [sampleLoop, Sum.inr.injEq] at h
      subst h
      exact ⟨rfl, rfl, rfl, fun idx hidx => absurd hidx (Nat.not_lt_zero _)⟩
  | succ i ih =>
    obtain ⟨ihl, ihr⟩ := ih
    refine ⟨fun p h => ?_, fun p h => ?_⟩
    · unfold sampleLoop at h
      split at h
      · next q hq =>
        cases h
        obtain ⟨h1, idx, h2, h3⟩ := ihl _ hq
        exact ⟨h1, idx, Nat.lt_succ_of_lt h2, h3⟩
      · next q hq =>
        obtain ⟨hu, hv, -, -⟩ := ihr _ hq
        dsimp only at h
        split_ifs at h with hfin
        cases h
        refine ⟨rfl, i, Nat.lt_succ_self i, ?_⟩
        simpa [Function.update_same, hu, hv] using hfin
    · unfold sampleLoop at h
      split at h
      · cases h
      · next q hq =>
        obtain ⟨hu, hv, hE, hall⟩ := ihr _ hq
        dsimp only at h
        split_ifs at h with hfin
        cases h
        refine ⟨hu, hv, hE, fun idx hidx => ?_⟩
        rcases Nat.lt_succ_iff_lt_or_eq.1 hidx with hlt | heq
        · exact hall idx hlt
        · subst heq
          simpa [Function.update_same, hu, hv] using hfin

theorem construct_energyTH (g : Globals) (es : EnergySettings) (host : HostImage)
    (raw : ImmaturePoint) (u v : Flt) :
    ((∃ idx, idx < g.patternNum ∧ (patternSample g host u v idx).x.isfinite = false) →
      (ImmaturePoint.construct g es host raw u v).energyTH = nan) ∧
    ((∀ idx, idx < g.patternNum → (patternSample g host u v idx).x.isfinite = true) →
      (ImmaturePoint.construct g es host raw u v).energyTH =
        ofInt g.patternNum * es.setting_outlierTH *
          (es.setting_overallEnergyTHWeight * es.setting_overallEnergyTHWeight) ∧
      (ImmaturePoint.construct g es host raw u v).quality = 10000) := by
  unfold ImmaturePoint.construct
  dsimp only
  obtain ⟨hl, hr⟩ := sampleLoop_spec g es host (ImmaturePoint.initMembers raw u v) g.patternNum
  have hu : (ImmaturePoint.initMembers raw u v).u = u := rfl
  have hv : (ImmaturePoint.initMembers raw u v).v = v := rfl
  rw [hu, hv] at hl hr
  constructor
  · rintro ⟨idx, hidx, hbad⟩
    cases hs : sampleLoop g es host (ImmaturePoint.initMembers raw u v) g.patternNum with
    | inl p => exact (hl p hs).1
    | inr p =>
      have := (hr p hs).2.2.2 idx hidx
      rw [hbad] at this
      cases this
  · intro hall
    cases hs : sampleLoop g es host (ImmaturePoint.initMembers raw u v) g.patternNum with
    | inl p =>
      obtain ⟨-, idx, hidx, hbad⟩ := hl p hs
      have := hall idx hidx
      rw [hbad] at this
      cases this
    | inr p => exact ⟨rfl, rfl⟩

theorem Flt.mul_comm' (a b : Flt) : a * b = b * a := by
  show Flt.mul a b = Flt.mul b a
  cases a <;> cases b <;> simp [Flt.mul, mul_comm]

theorem AtLeastOrNaN.round32 {x : Flt} (hx : AtLeastOrNaN 0 x) :
    AtLeastOrNaN 0 (Flt.round32 x) := by
  rcases hx with rfl | rfl | ⟨q, hq, rfl⟩
  · exact Or.inl rfl
  · exact Or.inr (Or.inl rfl)
  · show AtLeastOrNaN 0 (round32Q q)
    rw [Flt.round32Q_of_nonneg q hq]
    rcases Flt.round32Pos_nonneg q hq with h | ⟨r, h, hr⟩
    · exact Or.inr (Or.inl h)
    · exact Or.inr (Or.inr ⟨r, hr, h⟩)

theorem AtLeastOrNaN.sq (x : Flt) : AtLeastOrNaN 0 (x * x) := by
  cases x with
  | fin q => exact Or.inr (Or.inr ⟨q * q, mul_self_nonneg q, rfl⟩)
  | pinf => exact Or.inr (Or.inl rfl)
  | ninf => exact Or.inr (Or.inl rfl)
  | nan => exact Or.inl rfl

theorem AtLeastOrNaN.add_nonneg {x y : Flt} (hx : AtLeastOrNaN 0 x) (hy : AtLeastOrNaN 0 y) :
    AtLeastOrNaN 0 (x + y) := by
  show AtLeastOrNaN 0 (Flt.add x y)
  rcases hx with rfl | rfl | ⟨a, ha, rfl⟩ <;> rcases hy with rfl | rfl | ⟨b, hb, rfl⟩
  all_goals first
    | exact Or.inl rfl
    | exact Or.inr (Or.inl rfl)
    | exact Or.inr (Or.inr ⟨a + b, by linarith, rfl⟩)

/-- One accumulation keeps a diagonal entry `NaN` or non-negative. -/
theorem AtLeastOrNaN.accumulate {m : Flt} (hm : AtLeastOrNaN 0 m) (x : Flt) :
    AtLeastOrNaN 0 (add32 m (mul32 x x)) :=
  (hm.add_nonneg (AtLeastOrNaN.sq x).round32).round32

theorem AtLeastOrNaN.zero : AtLeastOrNaN 0 (0 : Flt) :=
  Or.inr (Or.inr ⟨0, le_refl _, by rw [ofNat_eq_fin]; simp⟩)

/-- What the sampling loop keeps true of `gradH`: symmetry, and diagonal entries
that are `NaN` or non-negative. -/
theorem sampleLoop_gradH (g : Globals) (es : EnergySettings) (host : HostImage)
    (p0 : ImmaturePoint) (n : ℕ) :
    ∀ r, sampleLoop g es host p0 n = r →
      (p0.gradH.m01 = p0.gradH.m10 → (r.elim id id).gradH.m01 = (r.elim id id).gradH.m10) ∧
      (AtLeastOrNaN 0 p0.gradH.m00 → AtLeastOrNaN 0 (r.elim id id).gradH.m00) ∧
      (AtLeastOrNaN 0 p0.gradH.m11 → AtLeastOrNaN 0 (r.elim id id).gradH.m11) := by
  induction n with
  | zero =>
    intro r hr
    simp only [sampleLoop] at hr
    subst hr
    exact ⟨fun h => h, fun h => h, fun h => h⟩
  | succ i ih =>
    intro r hr
    unfold sampleLoop at hr
    cases hq : sampleLoop g es host p0 i with
    | inl q =>
      rw [hq] at hr
      dsimp only at hr
      subst hr
      exact ih _ hq
    | inr q =>
      rw [hq] at hr
      dsimp only at hr
      obtain ⟨h1, h2, h3⟩ := ih _ hq
      simp only [Sum.elim_inr, id] at h1 h2 h3
      split_ifs at hr with hfin
      · subst hr
        exact ⟨h1, h2, h3⟩
      · subst hr
        simp only [Sum.elim_inr, id]
        refine ⟨fun hs => ?_, fun hs => ?_, fun hs => ?_⟩
        · simp only [Mat22f.addOuter]
          rw [h1 hs]
          unfold Flt.mul32
          rw [Flt.mul_comm' (patternSample g host q.u q.v i).y]
        · exact (h2 hs).accumulate _
        · exact (h3 hs).accumulate _

theorem construct_gradH (g : Globals) (es : EnergySettings) (host : HostImage)
    (raw : ImmaturePoint) (u v : Flt) :
    (ImmaturePoint.construct g es host raw u v).gradH =
      ((sampleLoop g es host (ImmaturePoint.initMembers raw u v) g.patternNum).elim
        id id).gradH := by
  unfold ImmaturePoint.construct
  cases sampleLoop g es host (ImmaturePoint.initMembers raw u v) g.patternNum <;> rfl

theorem construct_symmetric (g : Globals) (es : EnergySettings) (host : HostImage)
    (raw : ImmaturePoint) (u v : Flt) :
    (ImmaturePoint.construct g es host raw u v).gradH.m01 =
      (ImmaturePoint.construct g es host raw u v).gradH.m10 := by
  rw [construct_gradH]
  exact (sampleLoop_gradH g es host _ g.patternNum _ rfl).1 rfl

theorem construct_diagonal (g : Globals) (es : EnergySettings) (host : HostImage)
    (raw : ImmaturePoint) (u v : Flt) :
    AtLeastOrNaN 0 (ImmaturePoint.construct g es host raw u v).gradH.m00 ∧
    AtLeastOrNaN 0 (ImmaturePoint.construct g es host raw u v).gradH.m11 := by
  rw [construct_gradH]
  exact ⟨(sampleLoop_gradH g es host _ g.patternNum _ rfl).2.1 AtLeastOrNaN.zero,
    (sampleLoop_gradH g es host _ g.patternNum _ rfl).2.2 AtLeastOrNaN.zero⟩

/-! ## The Gauss-Newton refinement -/

theorem AtLeastOrNaN.add {x y : Flt} (hx : AtLeastOrNaN 1 x) (hy : AtLeastOrNaN 0 y) :
    AtLeastOrNaN 1 (x + y) := by
  show AtLeastOrNaN 1 (Flt.add x y)
  rcases hx with rfl | rfl | ⟨a, ha, rfl⟩ <;> rcases hy with rfl | rfl | ⟨b, hb, rfl⟩
  all_goals first
    | exact Or.inl rfl
    | exact Or.inr (Or.inl rfl)
    | exact Or.inr (Or.inr ⟨a + b, by linarith, rfl⟩)

theorem AtLeastOrNaN.mul_self {w : Flt} (hw : AtLeastOrNaN 0 w) (d : Flt) :
    AtLeastOrNaN 0 (w * d * d) := by
  show AtLeastOrNaN 0 (Flt.mul (Flt.mul w d) d)
  rcases hw with rfl | rfl | ⟨a, ha, rfl⟩
  · exact Or.inl rfl
  · cases d with
    | fin x =>
      rcases lt_trichotomy x 0 with h | h | h
      · have h1 : ¬ 0 < x := not_lt.2 h.le
        have h2 : (0 : ℚ) < -x := neg_pos.2 h
        simp [Flt.mul, Flt.infOfSign, h, h1, h2, AtLeastOrNaN]
      · subst h
        simp [Flt.mul, Flt.infOfSign, AtLeastOrNaN]
      · simp [Flt.mul, Flt.infOfSign, h, AtLeastOrNaN]
    | pinf => exact Or.inr (Or.inl rfl)
    | ninf => exact Or.inr (Or.inl rfl)
    | nan => exact Or.inl rfl
  · cases d with
    | fin x =>
      refine Or.inr (Or.inr ⟨a * x * x, ?_, rfl⟩)
      have := mul_self_nonneg x
      nlinarith [mul_nonneg ha this]
    | pinf =>
      rcases lt_or_eq_of_le ha with h | h
      · simp [Flt.mul, Flt.infOfSign, h, AtLeastOrNaN]
      · subst h
        simp [Flt.mul, Flt.infOfSign, AtLeastOrNaN]
    | ninf =>
      rcases lt_or_eq_of_le ha with h | h
      · have h1 : ¬ a < 0 := not_lt.2 ha
        simp [Flt.mul, Flt.infOfSign, h, h1, AtLeastOrNaN]
      · subst h
        simp [Flt.mul, Flt.infOfSign, AtLeastOrNaN]
    | nan => exact Or.inl rfl

theorem huberWeight_nonneg (g : Globals) (h : ℚ) (hh : g.setting_huberTH = fin h)
    (h0 : 0 ≤ h) (r : Flt) : AtLeastOrNaN 0 (huberWeight g r) := by
  unfold huberWeight
  split_ifs
  · exact Or.inr (Or.inr ⟨1, by norm_num, by rw [ofNat_eq_fin]; simp⟩)
  · rw [hh]
    show AtLeastOrNaN 0 (Flt.div (fin h) (Flt.fabs r))
    cases r with
    | fin a =>
      by_cases ha : |a| = 0
      · rcases lt_or_eq_of_le h0 with h1 | h1
        · simp [Flt.fabs, Flt.div, ha, Flt.infOfSign, h1, AtLeastOrNaN]
        · subst h1
          simp [Flt.fabs, Flt.div, ha, Flt.infOfSign, AtLeastOrNaN]
      · refine Or.inr (Or.inr ⟨h / |a|, div_nonneg h0 (abs_nonneg a), ?_⟩)
        simp [Flt.fabs, Flt.div, ha]
    | pinf => exact Or.inr (Or.inr ⟨0, le_refl _, rfl⟩)
    | ninf => exact Or.inr (Or.inr ⟨0, le_refl _, rfl⟩)
    | nan => exact Or.inl rfl

theorem gnSums_H (g : Globals) (frame : FrameHessian) (p : ImmaturePoint) (aff : Vec2f)
    (t : TraceGeom) (bestU bestV : Flt) (h : ℚ) (hh : g.setting_huberTH = fin h)
    (h0 : 0 ≤ h) (n : ℕ) : AtLeastOrNaN 1 (gnSums g frame p aff t bestU bestV n).1 := by
  induction n with
  | zero =>
    exact Or.inr (Or.inr ⟨1, le_refl _, by simp [gnSums, ofNat_eq_fin]⟩)
  | succ idx ih =>
    unfold gnSums
    dsimp only
    split_ifs
    · exact ih
    · exact ih.add ((huberWeight_nonneg g h hh h0 _).mul_self _)

theorem AtLeastOrNaN.one_le {x : Flt} (hx : AtLeastOrNaN 1 x) : x = nan ∨ (1 : Flt) ≤ x := by
  rcases hx with rfl | rfl | ⟨q, hq, rfl⟩
  · exact Or.inl rfl
  · exact Or.inr rfl
  · right
    rw [ofNat_eq_fin]
    simpa [Flt.le_iff, Flt.le] using hq

theorem gnClamp_range (H b : Flt) : ∃ s : ℚ, gnClamp H b = fin s ∧ |s| ≤ 1 / 2 := by
  unfold gnClamp
  dsimp only
  generalize -1 * b / H = step
  by_cases h1 : step < fin (-1 / 2)
  · simp only [h1, if_true]
    exact ⟨-1 / 2, by simp [Flt.isfinite], by norm_num [abs_le]⟩
  · simp only [h1, if_false]
    by_cases h2 : step > fin (1 / 2)
    · simp only [h2, if_true]
      exact ⟨1 / 2, by simp [Flt.isfinite], by norm_num [abs_le]⟩
    · simp only [h2, if_false]
      cases step with
      | fin q =>
        refine ⟨q, by simp [Flt.isfinite], ?_⟩
        simp only [fin_lt_fin, gt_iff_lt, not_lt] at h1 h2
        rw [abs_le]
        constructor <;> linarith
      | pinf => exact ⟨0, by simp [Flt.isfinite, ofNat_eq_fin], by norm_num⟩
      | ninf => exact ⟨0, by simp [Flt.isfinite, ofNat_eq_fin], by norm_num⟩
      | nan => exact ⟨0, by simp [Flt.isfinite, ofNat_eq_fin], by norm_num⟩

theorem StepsAlong.mono {dx dy : Flt} {n : ℕ} {a b : Flt × Flt}
    (h : StepsAlong dx dy n a b) : StepsAlong dx dy (n + 1) a b := Or.inl h

theorem StepsAlong.mono_le {dx dy : Flt} {a b : Flt × Flt} {n m : ℕ} (hnm : n ≤ m)
    (h : StepsAlong dx dy n a b) : StepsAlong dx dy m a b := by
  induction hnm with
  | refl => exact h
  | step _ ih => exact ih.mono

/-- The invariant of the Gauss-Newton loop: the last accepted position and the
current estimate are both reached in at most `n` moves, and `stepBack` is a finite
number of absolute value at most `1/2`. -/
theorem gnStep_stepsAlong (g : Globals) (frame : FrameHessian) (p : ImmaturePoint)
    (aff : Vec2f) (t : TraceGeom) (a : Flt × Flt) (n : ℕ) (s : GNState)
    (hb : StepsAlong t.dx t.dy n a (s.uBak, s.vBak))
    (hc : StepsAlong t.dx t.dy n a (s.bestU, s.bestV))
    (hs : ∃ σ : ℚ, s.stepBack = fin σ ∧ |σ| ≤ 1 / 2) :
    StepsAlong t.dx t.dy (n + 1) a
      ((gnStep g frame p aff t s).uBak, (gnStep g frame p aff t s).vBak) ∧
    StepsAlong t.dx t.dy (n + 1) a
      ((gnStep g frame p aff t s).bestU, (gnStep g frame p aff t s).bestV) ∧
    ∃ σ : ℚ, (gnStep g frame p aff t s).stepBack = fin σ ∧ |σ| ≤ 1 / 2 := by
  obtain ⟨σ, hσ, hσb⟩ := hs
  unfold gnStep
  dsimp only
  split_ifs
  · have hhalf : |σ * (1 / 2)| ≤ 1 / 2 := by
      rw [abs_mul]
      have : |(1 / 2 : ℚ)| = 1 / 2 := by norm_num [abs_of_pos]
      rw [this]
      nlinarith [abs_nonneg σ]
    refine ⟨hb.mono, Or.inr ⟨(s.uBak, s.vBak), σ * (1 / 2), hb, hhalf, ?_⟩,
      σ * (1 / 2), ?_, hhalf⟩
    · simp only [hσ, fin_mul_fin]
    · simp only [hσ, fin_mul_fin]
  · obtain ⟨st, hst, hstb⟩ := gnClamp_range
      (gnSums g frame p aff t s.bestU s.bestV g.patternNum).1
      (gnSums g frame p aff t s.bestU s.bestV g.patternNum).2.1
    refine ⟨hc.mono, Or.inr ⟨(s.bestU, s.bestV), st, hc, hstb, ?_⟩, st, hst, hstb⟩
    show (s.bestU + gnClamp _ _ * t.dx, s.bestV + gnClamp _ _ * t.dy) = _
    rw [hst]

theorem gnLoop_stepsAlong (g : Globals) (frame : FrameHessian) (p : ImmaturePoint)
    (aff : Vec2f) (t : TraceGeom) (a : Flt × Flt) (k : ℕ) :
    ∀ (n : ℕ) (s : GNState), StepsAlong t.dx t.dy n a (s.uBak, s.vBak) →
      StepsAlong t.dx t.dy n a (s.bestU, s.bestV) →
      (∃ σ : ℚ, s.stepBack = fin σ ∧ |σ| ≤ 1 / 2) →
      StepsAlong t.dx t.dy (n + k) a
        ((gnLoop g frame p aff t k s).bestU, (gnLoop g frame p aff t k s).bestV) := by
  induction k with
  | zero =>
    intro n s _ hc _
    simpa [gnLoop] using hc
  | succ k ih =>
    intro n s hb hc hs
    obtain ⟨h1, h2, h3⟩ := gnStep_stepsAlong g frame p aff t a n s hb hc hs
    unfold gnLoop
    dsimp only
    split_ifs
    · exact h2.mono_le (by omega)
    · have := ih (n + 1) _ h1 h2 h3
      rw [show n + (k + 1) = n + 1 + k by omega]
      exact this

theorem gnRefine_stepsAlong (g : Globals) (frame : FrameHessian) (p : ImmaturePoint)
    (aff : Vec2f) (t : TraceGeom) (s0 : SearchState) :
    StepsAlong t.dx t.dy g.setting_trace_GNIterations.toNat (s0.bestU, s0.bestV)
      ((gnRefine g frame p aff t s0).bestU, (gnRefine g frame p aff t s0).bestV) := by
  have := gnLoop_stepsAlong g frame p aff t (s0.bestU, s0.bestV)
    g.setting_trace_GNIterations.toNat 0
    ⟨s0.bestU, s0.bestV, s0.bestU, s0.bestV, 0,
      if g.setting_trace_GNIterations > 0 then 100000 else s0.bestEnergy⟩
    rfl rfl ⟨0, by simp [ofNat_eq_fin], by norm_num⟩
  rw [Nat.zero_add] at this
  exact this

/-! ## The stereo search line -/

theorem Flt.isfinite_add {a b : Flt} (h : (a + b).isfinite = true) :
    a.isfinite = true ∧ b.isfinite = true := by
  cases a <;> cases b <;> first | exact ⟨rfl, rfl⟩ | exact Bool.noConfusion h

theorem Flt.isfinite_sub {a b : Flt} (h : (a - b).isfinite = true) :
    a.isfinite = true ∧ b.isfinite = true := by
  cases a <;> cases b <;> first | exact ⟨rfl, rfl⟩ | exact Bool.noConfusion h

theorem Flt.isfinite_mul {a b : Flt} (h : (a * b).isfinite = true) :
    a.isfinite = true ∧ b.isfinite = true := by
  cases a with
  | fin x =>
    cases b with
    | fin y => exact ⟨rfl, rfl⟩
    | pinf =>
      exfalso
      change (Flt.infOfSign x).isfinite = true at h
      unfold Flt.infOfSign at h
      split_ifs at h <;> exact Bool.noConfusion h
    | ninf =>
      exfalso
      change (Flt.infOfSign (-x)).isfinite = true at h
      unfold Flt.infOfSign at h
      split_ifs at h <;> exact Bool.noConfusion h
    | nan => exact Bool.noConfusion h
  | pinf =>
    cases b with
    | fin y =>
      exfalso
      change (Flt.infOfSign y).isfinite = true at h
      unfold Flt.infOfSign at h
      split_ifs at h <;> exact Bool.noConfusion h
    | pinf => exact Bool.noConfusion h
    | ninf => exact Bool.noConfusion h
    | nan => exact Bool.noConfusion h
  | ninf =>
    cases b with
    | fin y =>
      exfalso
      change (Flt.infOfSign (-y)).isfinite = true at h
      unfold Flt.infOfSign at h
      split_ifs at h <;> exact Bool.noConfusion h
    | pinf => exact Bool.noConfusion h
    | ninf => exact Bool.noConfusion h
    | nan => exact Bool.noConfusion h
  | nan => exact Bool.noConfusion h

theorem Flt.isfinite_div {a b : Flt} (h : (a / b).isfinite = true) :
    a.isfinite = true ∧ b ≠ nan := by
  cases a with
  | fin x =>
    refine ⟨rfl, ?_⟩
    rintro rfl
    exact Bool.noConfusion h
  | pinf =>
    exfalso
    cases b with
    | fin y =>
      change (if y < 0 then ninf else pinf).isfinite = true at h
      split_ifs at h <;> exact Bool.noConfusion h
    | pinf => exact Bool.noConfusion h
    | ninf => exact Bool.noConfusion h
    | nan => exact Bool.noConfusion h
  | ninf =>
    exfalso
    cases b with
    | fin y =>
      change (if y < 0 then pinf else ninf).isfinite = true at h
      split_ifs at h <;> exact Bool.noConfusion h
    | pinf => exact Bool.noConfusion h
    | ninf => exact Bool.noConfusion h
    | nan => exact Bool.noConfusion h
  | nan => exact Bool.noConfusion h

/-- A product with the finite zero is zero or `NaN`. -/
theorem Flt.zero_mul_cases (x : Flt) :
    (fin 0 * x = fin 0 ∧ x.isfinite = true) ∨ fin 0 * x = nan := by
  cases x with
  | fin q => exact Or.inl ⟨by simp, rfl⟩
  | pinf => right; show Flt.infOfSign 0 = nan; simp [Flt.infOfSign]
  | ninf => right; show Flt.infOfSign (-0) = nan; simp [Flt.infOfSign]
  | nan => right; rfl

theorem Flt.mul_zero_cases (x : Flt) :
    (x * fin 0 = fin 0 ∧ x.isfinite = true) ∨ x * fin 0 = nan := by
  cases x with
  | fin q => exact Or.inl ⟨by simp, rfl⟩
  | pinf => right; show Flt.infOfSign 0 = nan; simp [Flt.infOfSign]
  | ninf => right; show Flt.infOfSign (-0) = nan; simp [Flt.infOfSign]
  | nan => right; rfl

/-- The depth row of the stereo projection: `1` for finite arguments, `NaN` otherwise. -/
theorem stereo_depth_row (u v m : Flt) :
    (∃ a c d : ℚ, u = fin a ∧ v = fin c ∧ m = fin d) ∨
      (Mat33f.identity.mulVec ⟨u, v, 1⟩).z + fin 0 * m = nan := by
  unfold Mat33f.mulVec Mat33f.identity
  simp only [zero_eq_fin, one_eq_fin]
  rcases Flt.zero_mul_cases u with ⟨hu, hu'⟩ | hu
  · rcases Flt.zero_mul_cases v with ⟨hv, hv'⟩ | hv
    · rcases Flt.zero_mul_cases m with ⟨hm, hm'⟩ | hm
      · left
        obtain ⟨a, ha⟩ := (isfinite_iff _).1 hu'
        obtain ⟨c, hc⟩ := (isfinite_iff _).1 hv'
        obtain ⟨d, hd⟩ := (isfinite_iff _).1 hm'
        exact ⟨a, c, d, ha, hc, hd⟩
      · right
        rw [hu, hv, hm]
        rfl
    · right
      rw [hu, hv]
      rfl
  · right
    rw [hu]
    rfl

theorem Flt.div_nan (x : Flt) : x / nan = nan := by
  cases x <;> rfl

theorem inBorder_nan (g : Globals) (v : Flt) : inBorder g nan v = false := by
  unfold inBorder
  have : ¬ (nan > (4 : Flt)) := by decide
  simp [this]

/-- The stereo projection of a finite point at a finite inverse depth. -/
theorem stereo_project_fin (k a c d : ℚ) :
    ((Mat33f.identity.mulVec ⟨fin a, fin c, 1⟩).addScaled ⟨fin k, fin 0, fin 0⟩ (fin d))
      = ⟨fin (a + k * d), fin c, fin 1⟩ := by
  unfold Mat33f.mulVec Mat33f.identity Vec3f.addScaled
  simp [zero_eq_fin, one_eq_fin]

theorem Flt.div_one' (x : Flt) : x / fin 1 = x := by
  cases x with
  | fin q => rw [fin_div_fin _ _ one_ne_zero]; simp
  | pinf => show (if (1 : ℚ) < 0 then ninf else pinf) = pinf; norm_num
  | ninf => show (if (1 : ℚ) < 0 then pinf else ninf) = ninf; norm_num
  | nan => rfl

/-- A sum whose second term has a factor zero is the first term when it is finite. -/
theorem Flt.add_mul_zero_mul (y : ℚ) (X D : Flt)
    (h : (fin y + X * fin 0 * D).isfinite = true) : fin y + X * fin 0 * D = fin y := by
  have h1 := (Flt.isfinite_add h).2
  have h2 := Flt.isfinite_mul h1
  rcases Flt.mul_zero_cases X with ⟨hX, -⟩ | hX
  · rw [hX] at h2 ⊢
    obtain ⟨d, hd⟩ := (isfinite_iff _).1 h2.2
    rw [hd]
    simp
  · rw [hX] at h2
    exact Bool.noConfusion h2.1

theorem traceStereoProject_horizontal (g : Globals) (p : ImmaturePoint) (K : Mat33f)
    (k : ℚ) (mode_right : Bool) (hKt : stereoKt g K mode_right = ⟨fin k, fin 0, fin 0⟩)
    (e : Endpoints) (h : traceStereoProject g p K mode_right = .inr e) :
    ∃ a c d x : ℚ, p.u_stereo = fin a ∧ p.v_stereo = fin c ∧ p.idepth_min_stereo = fin d ∧
      e.pr = ⟨fin a, fin c, fin 1⟩ ∧ e.ptpMin = ⟨fin (a + k * d), fin c, fin 1⟩ ∧
      e.uMin = fin (a + k * d) ∧ e.vMin = fin c ∧ e.uMax = fin x ∧ e.vMax = fin c := by
  unfold traceStereoProject at h
  rw [hKt] at h
  rcases stereo_depth_row p.u_stereo p.v_stereo p.idepth_min_stereo with
    ⟨a, c, d, hu, hv, hd⟩ | hz
  · rw [hu, hv, hd] at h
    have hpr : Mat33f.identity.mulVec ⟨fin a, fin c, 1⟩ = ⟨fin a, fin c, fin 1⟩ := by
      unfold Mat33f.mulVec Mat33f.identity
      simp [zero_eq_fin, one_eq_fin]
    have hpm : ∀ M : ℚ, (⟨fin a, fin c, fin 1⟩ : Vec3f).addScaled ⟨fin k, fin 0, fin 0⟩ (fin M)
        = ⟨fin (a + k * M), fin c, fin 1⟩ := by
      intro M
      unfold Vec3f.addScaled
      simp
    simp only [stereo_project_fin, Flt.div_one'] at h
    rw [hpr] at h
    by_cases hb0 : inBorder g (fin (a + k * d)) (fin c) = true
    · simp only [hb0, Bool.not_true, Bool.false_eq_true, if_false] at h
      by_cases hf : p.idepth_max_stereo.isfinite = true
      · simp only [hf, if_true] at h
        obtain ⟨M, hM⟩ := (isfinite_iff _).1 hf
        unfold projectMax at h
        rw [hM] at h
        simp only [hpm, Flt.div_one'] at h
        by_cases hb1 : inBorder g (fin (a + k * M)) (fin c) = true
        · simp only [hb1, Bool.not_true, Bool.false_eq_true, if_false] at h
          split at h
          · exact Sum.noConfusion h
          · simp only [Sum.inr.injEq] at h
            subst h
            exact ⟨a, c, d, _, hu, hv, hd, rfl, rfl, rfl, rfl, rfl, rfl⟩
        · simp only [hb1, Bool.not_false, if_true] at h
          exact Sum.noConfusion h
      · simp only [hf, Bool.false_eq_true, if_false] at h
        unfold coarseMax at h
        simp only [hpm, Flt.div_one', fin_sub_fin, sub_self] at h
        split at h
        · exact Sum.noConfusion h
        · rename_i uMax vMax dist heq
          split at heq
          · exact Option.noConfusion heq
          · rename_i hb
            simp only [Option.some.injEq, Prod.mk.injEq] at heq
            obtain ⟨h1, h2, h3⟩ := heq
            simp only [Sum.inr.injEq] at h
            subst h
            have hb' : inBorder g uMax vMax = true := by
              rw [← h1, ← h2]
              simpa using hb
            obtain ⟨x, y, hx, hy⟩ := inBorder_finite g uMax vMax hb'
            refine ⟨a, c, d, x, hu, hv, hd, rfl, rfl, rfl, rfl, hx, ?_⟩
            show vMax = fin c
            rw [← h2]
            apply Flt.add_mul_zero_mul
            rw [h2, hy]
            rfl
    · simp only [hb0, Bool.not_false, if_true] at h
      exact Sum.noConfusion h
  · exfalso
    have hz' : ((Mat33f.identity.mulVec ⟨p.u_stereo, p.v_stereo, 1⟩).addScaled
        ⟨fin k, fin 0, fin 0⟩ p.idepth_min_stereo).z = nan := hz
    simp only [hz', Flt.div_nan, inBorder_nan] at h
    exact Sum.noConfusion h

theorem Flt.mul_zero_div (s d : Flt) (h : (s * fin 0 / d).isfinite = true) :
    s * fin 0 / d = fin 0 := by
  rcases Flt.mul_zero_cases s with ⟨hs, -⟩ | hs
  · rw [hs] at h ⊢
    cases d with
    | fin y =>
      by_cases hy : y = 0
      · subst hy
        exact absurd h (by decide)
      · rw [fin_div_fin _ _ hy]
        simp
    | pinf => rfl
    | ninf => rfl
    | nan => exact Bool.noConfusion h
  · rw [hs] at h
    exact Bool.noConfusion (Flt.isfinite_div h).1

theorem traceStereoGeom_horizontal (g : Globals) (p : ImmaturePoint) (e : Endpoints)
    (c : ℚ) (hmin : e.vMin = fin c) (hmax : e.vMax = fin c) (t : TraceGeom)
    (h : traceStereoGeom g p e = .inr t) :
    t.pr = e.pr ∧ t.dy = fin 0 ∧ ∃ dx : ℚ, t.dx = fin dx := by
  unfold traceStereoGeom at h
  dsimp only at h
  split at h
  · exact Sum.noConfusion h
  · split at h
    · exact Sum.noConfusion h
    · split at h
      · exact Sum.noConfusion h
      · rename_i hfin
        simp only [Sum.inr.injEq] at h
        subst h
        simp only [Bool.or_eq_true, Bool.not_eq_true', not_or, Bool.not_eq_false] at hfin
        refine ⟨rfl, ?_, (isfinite_iff _).1 hfin.1⟩
        have hy := hfin.2
        unfold searchSetup rawStep at hy ⊢
        dsimp only at hy ⊢
        rw [hmin, hmax] at hy ⊢
        simp only [fin_sub_fin, sub_self] at hy ⊢
        exact Flt.mul_zero_div _ _ hy

theorem traceStereoReach_horizontal (g : Globals) (p : ImmaturePoint) (K : Mat33f)
    (k : ℚ) (mode_right : Bool) (hKt : stereoKt g K mode_right = ⟨fin k, fin 0, fin 0⟩)
    (t : TraceGeom) (h : traceStereoReach g p K mode_right = some t) :
    ∃ a c dx : ℚ, p.u_stereo = fin a ∧ p.v_stereo = fin c ∧
      t.pr = ⟨fin a, fin c, fin 1⟩ ∧ t.dx = fin dx ∧ t.dy = fin 0 := by
  unfold traceStereoReach at h
  cases he : traceStereoProject g p K mode_right with
  | inl r => rw [he] at h; exact Option.noConfusion h
  | inr e =>
    rw [he] at h
    dsimp only at h
    obtain ⟨a, c, d, x, hu, hv, -, hpr, -, -, hvmin, -, hvmax⟩ :=
      traceStereoProject_horizontal g p K k mode_right hKt e he
    cases hg : traceStereoGeom g p e with
    | inl r => rw [hg] at h; exact Option.noConfusion h
    | inr t' =>
      rw [hg] at h
      simp only [Option.some.injEq] at h
      subst h
      obtain ⟨h1, h2, dx, h3⟩ := traceStereoGeom_horizontal g p e c hvmin hvmax t' hg
      exact ⟨a, c, dx, hu, hv, h1.trans hpr, h3, h2⟩

theorem backProject_stereo (k a : ℚ) (hk : k ≠ 0) (x : Flt)
    (h : (backProject (fin 1) (fin a) (fin k) (fin 0) x).isfinite = true) :
    ∃ q : ℚ, x = fin q ∧ backProject (fin 1) (fin a) (fin k) (fin 0) x = fin ((q - a) / k) := by
  rcases Flt.zero_mul_cases x with ⟨-, hx⟩ | hx
  · obtain ⟨q, rfl⟩ := (isfinite_iff _).1 hx
    refine ⟨q, rfl, ?_⟩
    unfold backProject
    simp only [fin_mul_fin, fin_sub_fin]
    rw [fin_div_fin _ _ (by simpa using hk)]
    simp
  · exfalso
    unfold backProject at h
    rw [hx] at h
    have : fin k - nan = nan := rfl
    rw [this, Flt.div_nan] at h
    exact Bool.noConfusion h

theorem swapIfGreater_cases (iv : Flt × Flt) :
    swapIfGreater iv = iv ∨ swapIfGreater iv = (iv.2, iv.1) := by
  unfold swapIfGreater
  split_ifs
  · exact Or.inr rfl
  · exact Or.inl rfl

/-- The new stereo interval, when finite, is centred at `(bestU - u_stereo) / k`. -/
theorem newInterval_stereo_midpoint (k a c dx : ℚ) (hk : k ≠ 0) (t : TraceGeom)
    (hpr : t.pr = ⟨fin a, fin c, fin 1⟩) (hdx : t.dx = fin dx) (hdy : t.dy = fin 0)
    (bestU bestV : Flt)
    (h1 : (newInterval t.pr ⟨fin k, fin 0, fin 0⟩ t bestU bestV).1.isfinite = true)
    (h2 : (newInterval t.pr ⟨fin k, fin 0, fin 0⟩ t bestU bestV).2.isfinite = true) :
    ∃ U lo hi : ℚ, bestU = fin U ∧
      newInterval t.pr ⟨fin k, fin 0, fin 0⟩ t bestU bestV = (fin lo, fin hi) ∧
      lo ≤ hi ∧ (U - a) / k = (lo + hi) / 2 := by
  have hle := swapIfGreater_le _ h1 h2
  unfold newInterval at h1 h2 hle ⊢
  have hfin : (rawInterval t.pr ⟨fin k, fin 0, fin 0⟩ t bestU bestV).1.isfinite = true ∧
      (rawInterval t.pr ⟨fin k, fin 0, fin 0⟩ t bestU bestV).2.isfinite = true := by
    rcases swapIfGreater_cases (rawInterval t.pr ⟨fin k, fin 0, fin 0⟩ t bestU bestV)
      with hs | hs
    · rw [hs] at h1 h2
      exact ⟨h1, h2⟩
    · rw [hs] at h1 h2
      exact ⟨h2, h1⟩
  obtain ⟨hf1, hf2⟩ := hfin
  have hraw : ∃ U W : ℚ, bestU = fin U ∧
      rawInterval t.pr ⟨fin k, fin 0, fin 0⟩ t bestU bestV =
        (fin ((U - W - a) / k), fin ((U + W - a) / k)) := by
    unfold rawInterval at hf1 hf2 ⊢
    rw [hpr, hdx, hdy] at hf1 hf2 ⊢
    dsimp only at hf1 hf2 ⊢
    split_ifs at hf1 hf2 ⊢
    · dsimp only at hf1 hf2 ⊢
      obtain ⟨q1, e1, b1⟩ := backProject_stereo k a hk _ hf1
      obtain ⟨q2, e2, b2⟩ := backProject_stereo k a hk _ hf2
      have hU := (Flt.isfinite_sub (by rw [e1]; rfl :
        (bestU - t.errorInPixel * fin dx).isfinite = true))
      obtain ⟨U, hU'⟩ := (isfinite_iff _).1 hU.1
      obtain ⟨W, hW'⟩ := (isfinite_iff _).1 hU.2
      rw [hU', hW'] at e1 e2
      simp only [fin_sub_fin, fin_add_fin, Flt.fin.injEq] at e1 e2
      refine ⟨U, W, hU', ?_⟩
      rw [b1, b2, e1, e2]
    · dsimp only at hf1
      rw [backProject_zero] at hf1
      exact Bool.noConfusion hf1
  obtain ⟨U, W, hU, hraw⟩ := hraw
  rw [hraw] at hle ⊢
  rcases swapIfGreater_cases (fin ((U - W - a) / k), fin ((U + W - a) / k)) with hs | hs
  · rw [hs] at hle ⊢
    refine ⟨U, _, _, hU, rfl, by simpa [Flt.le_iff, Flt.le] using hle, ?_⟩
    field_simp
    ring
  · rw [hs] at hle ⊢
    refine ⟨U, _, _, hU, rfl, by simpa [Flt.le_iff, Flt.le] using hle, ?_⟩
    field_simp
    ring

/-! ## Repeating a trace -/

theorem Flt.div_eq_fin {x z : Flt} {a : ℚ} (h : x / z = fin a) (ha : a ≠ 0) :
    ∃ x' z' : ℚ, x = fin x' ∧ z = fin z' ∧ z' ≠ 0 := by
  have hx := (Flt.isfinite_div (by rw [h]; rfl : (x / z).isfinite = true)).1
  obtain ⟨x', rfl⟩ := (isfinite_iff _).1 hx
  cases z with
  | fin z' =>
    refine ⟨x', z', rfl, rfl, ?_⟩
    rintro rfl
    change Flt.infOfSign x' = fin a at h
    unfold Flt.infOfSign at h
    split_ifs at h
  | pinf =>
    change fin 0 = fin a at h
    exact absurd (Flt.fin.inj h).symm ha
  | ninf =>
    change fin 0 = fin a at h
    exact absurd (Flt.fin.inj h).symm ha
  | nan => exact Flt.noConfusion h

theorem inBorder_pos (g : Globals) (a : ℚ) (v : Flt) (h : inBorder g (fin a) v = true) :
    a ≠ 0 := by
  unfold inBorder at h
  simp only [Bool.and_eq_true, decide_eq_true_eq] at h
  have h4 : fin a > (4 : Flt) := h.1.1.1
  rw [ofNat_eq_fin] at h4
  have : ((4 : ℕ) : ℚ) < a := (fin_lt_fin _ _).1 h4
  intro h0
  rw [h0] at this
  norm_num at this

/-- A projection that passes the border test comes from finite data with a
non-zero depth component. -/
theorem ray_in_border (g : Globals) (pr Kt : Vec3f) (d : Flt)
    (h : inBorder g ((pr.addScaled Kt d).x / (pr.addScaled Kt d).z)
      ((pr.addScaled Kt d).y / (pr.addScaled Kt d).z) = true) :
    ∃ X Y Z A B C m : ℚ, pr = ⟨fin X, fin Y, fin Z⟩ ∧ Kt = ⟨fin A, fin B, fin C⟩ ∧
      d = fin m ∧ Z + C * m ≠ 0 := by
  obtain ⟨a, b, ha, hb⟩ := inBorder_finite g _ _ h
  rw [ha] at h
  have ha0 := inBorder_pos g a _ h
  obtain ⟨x', z', hx, hz, hz0⟩ := Flt.div_eq_fin ha ha0
  have hy := (Flt.isfinite_div (by rw [hb]; rfl :
    ((pr.addScaled Kt d).y / (pr.addScaled Kt d).z).isfinite = true)).1
  unfold Vec3f.addScaled at hx hz hy
  dsimp only at hx hz hy
  have hx1 := Flt.isfinite_add (by rw [hx]; rfl : (pr.x + Kt.x * d).isfinite = true)
  have hz1 := Flt.isfinite_add (by rw [hz]; rfl : (pr.z + Kt.z * d).isfinite = true)
  have hy1 := Flt.isfinite_add hy
  have hx2 := Flt.isfinite_mul hx1.2
  have hy2 := Flt.isfinite_mul hy1.2
  have hz2 := Flt.isfinite_mul hz1.2
  obtain ⟨X, hX⟩ := (isfinite_iff _).1 hx1.1
  obtain ⟨Y, hY⟩ := (isfinite_iff _).1 hy1.1
  obtain ⟨Z, hZ⟩ := (isfinite_iff _).1 hz1.1
  obtain ⟨A, hA⟩ := (isfinite_iff _).1 hx2.1
  obtain ⟨B, hB⟩ := (isfinite_iff _).1 hy2.1
  obtain ⟨C, hC⟩ := (isfinite_iff _).1 hz2.1
  obtain ⟨m, hm⟩ := (isfinite_iff _).1 hx2.2
  refine ⟨X, Y, Z, A, B, C, m, ?_, ?_, hm, ?_⟩
  · cases pr
    simp only [Vec3f.mk.injEq]
    exact ⟨hX, hY, hZ⟩
  · cases Kt
    simp only [Vec3f.mk.injEq]
    exact ⟨hA, hB, hC⟩
  · rw [hZ, hC, hm] at hz
    simp only [fin_mul_fin, fin_add_fin, Flt.fin.injEq] at hz
    rw [hz]
    exact hz0

/-- With a first column `(fx, 0, 0)` of `K`, a finite `Kt = K*bl` is
`(k, 0, 0)` and `bf = -K(0,0)*bl[0]` is `-k`. -/
theorem stereoKt_of_finite (g : Globals) (K : Mat33f) (mode_right : Bool)
    (h10 : K.m10 = 0) (h20 : K.m20 = 0) (A B C : ℚ)
    (hKt : stereoKt g K mode_right = ⟨fin A, fin B, fin C⟩) :
    stereoKt g K mode_right = ⟨fin A, fin 0, fin 0⟩ ∧ stereoBf g K mode_right = fin (-A) := by
  have hx : (stereoKt g K mode_right).x = fin A := by rw [hKt]
  have hy : (stereoKt g K mode_right).y = fin B := by rw [hKt]
  have hz : (stereoKt g K mode_right).z = fin C := by rw [hKt]
  have key : ∀ bl0 : Flt, stereoBl g mode_right = ⟨bl0, 0, 0⟩ →
      fin B = fin 0 ∧ fin C = fin 0 ∧ -K.m00 * bl0 = fin (-A) := by
    intro bl0 hbl
    unfold stereoKt Mat33f.mulVec at hx hy hz
    rw [hbl] at hx hy hz
    dsimp only at hx hy hz
    rw [h10] at hy
    rw [h20] at hz
    simp only [zero_eq_fin] at hx hy hz
    have fx1 := Flt.isfinite_add (by rw [hx]; rfl :
      (K.m00 * bl0 + K.m01 * fin 0 + K.m02 * fin 0).isfinite = true)
    have fx2 := Flt.isfinite_add fx1.1
    have fy1 := Flt.isfinite_add (by rw [hy]; rfl :
      (fin 0 * bl0 + K.m11 * fin 0 + K.m12 * fin 0).isfinite = true)
    have fy2 := Flt.isfinite_add fy1.1
    have fz1 := Flt.isfinite_add (by rw [hz]; rfl :
      (fin 0 * bl0 + K.m21 * fin 0 + K.m22 * fin 0).isfinite = true)
    have fz2 := Flt.isfinite_add fz1.1
    have zl : ∀ x : Flt, (fin 0 * x).isfinite = true → fin 0 * x = fin 0 := by
      intro x hx
      rcases Flt.zero_mul_cases x with ⟨h, -⟩ | h
      · exact h
      · rw [h] at hx
        exact Bool.noConfusion hx
    have zr : ∀ x : Flt, (x * fin 0).isfinite = true → x * fin 0 = fin 0 := by
      intro x hx
      rcases Flt.mul_zero_cases x with ⟨h, -⟩ | h
      · exact h
      · rw [h] at hx
        exact Bool.noConfusion hx
    rw [zl _ fy2.1, zr _ fy2.2, zr _ fy1.2] at hy
    rw [zl _ fz2.1, zr _ fz2.2, zr _ fz1.2] at hz
    rw [zr _ fx2.2, zr _ fx1.2] at hx
    have hm := Flt.isfinite_mul fx2.1
    obtain ⟨a, ha⟩ := (isfinite_iff _).1 hm.1
    obtain ⟨b, hb⟩ := (isfinite_iff _).1 hm.2
    rw [ha, hb] at hx ⊢
    simp only [fin_mul_fin, fin_add_fin, add_zero, Flt.fin.injEq] at hx hy hz
    refine ⟨by rw [← hy], by rw [← hz], ?_⟩
    simp only [neg_fin, fin_mul_fin, Flt.fin.injEq]
    rw [← hx]
    ring
  have hbl : ∃ bl0 : Flt, stereoBl g mode_right = ⟨bl0, 0, 0⟩ := by
    unfold stereoBl
    cases mode_right
    · exact ⟨_, rfl⟩
    · exact ⟨_, rfl⟩
  obtain ⟨bl0, hbl⟩ := hbl
  obtain ⟨k1, k2, k3⟩ := key bl0 hbl
  refine ⟨by rw [hKt, k1, k2], ?_⟩
  unfold stereoBf
  rw [hbl]
  exact k3

/-- A `traceStereo` call that gets past the first border test has a finite `Kt`. -/
theorem traceStereoProject_Kt_finite (g : Globals) (p : ImmaturePoint) (K : Mat33f)
    (mode_right : Bool) (e : Endpoints) (h : traceStereoProject g p K mode_right = .inr e) :
    ∃ A B C : ℚ, stereoKt g K mode_right = ⟨fin A, fin B, fin C⟩ := by
  unfold traceStereoProject at h
  dsimp only at h
  generalize stereoKt g K mode_right = Kt at h ⊢
  generalize Mat33f.identity.mulVec ⟨p.u_stereo, p.v_stereo, 1⟩ = pr at h
  by_cases hb0 : inBorder g
      ((pr.addScaled Kt p.idepth_min_stereo).x / (pr.addScaled Kt p.idepth_min_stereo).z)
      ((pr.addScaled Kt p.idepth_min_stereo).y / (pr.addScaled Kt p.idepth_min_stereo).z) = true
  · obtain ⟨X, Y, Z, A, B, C, m, -, hKt, -, -⟩ := ray_in_border g _ _ _ hb0
    exact ⟨A, B, C, hKt⟩
  · simp only [hb0, Bool.not_false, if_true] at h
    exact Sum.noConfusion h

theorem traceStereoReach_project (g : Globals) (p : ImmaturePoint) (K : Mat33f)
    (mode_right : Bool) (t : TraceGeom) (h : traceStereoReach g p K mode_right = some t) :
    ∃ e, traceStereoProject g p K mode_right = .inr e := by
  unfold traceStereoReach at h
  cases he : traceStereoProject g p K mode_right with
  | inl r => rw [he] at h; exact Option.noConfusion h
  | inr e => exact ⟨e, rfl⟩

/-! ## Claims -/

/-- C1: if `traceOn` returns `IPS_GOOD` then afterwards `idepth_min <= idepth_max`,
both bounds are finite and `idepth_max >= 0`; and if `traceStereo` returns
`IPS_GOOD` then `idepth_min_stereo <= idepth_max_stereo`, both are finite and
`idepth_max_stereo >= 0`. -/
theorem trace_good_interval_ordered (g : Globals) (frame : FrameHessian) (solver : G2O)
    (p : ImmaturePoint) (KRKi K : Mat33f) (Kt : Vec3f) (aff : Vec2f) (mode_right : Bool) :
    ((traceOn g frame p KRKi Kt aff).1 = IPS_GOOD →
      GoodInterval (traceOn g frame p KRKi Kt aff).2.idepth_min
        (traceOn g frame p KRKi Kt aff).2.idepth_max) ∧
    ((traceStereo g frame solver p K mode_right).1 = IPS_GOOD →
      GoodInterval (traceStereo g frame solver p K mode_right).2.idepth_min_stereo
        (traceStereo g frame solver p K mode_right).2.idepth_max_stereo) := by
  constructor
  · intro h
    unfold traceOn at h ⊢
    split at h
    · next r hr => exact absurd h (traceOnProject_inl g p KRKi Kt r hr).1
    · split at h
      · next r hr => exact absurd h (traceOnGeom_inl g p KRKi _ r hr).1
      · exact traceOnFinish_good _ _ _ _ _ _ _ h
  · intro h
    unfold traceStereo at h ⊢
    split at h
    · next r hr => exact absurd h (traceStereoProject_inl g p K mode_right r hr).1
    · split at h
      · next r hr => exact absurd h (traceStereoGeom_inl g p _ r hr).1
      · exact traceStereoFinish_good _ _ _ _ _ _ _ _ h

/-- C1 at a concrete run of each trace function that returns `IPS_GOOD`. -/
theorem trace_good_interval_ordered_witness :
    (traceOn demoGlobals (demoFrame 102) (demoPoint 1 IPS_UNINITIALIZED) Mat33f.identity
        ⟨1, 0, 0⟩ ⟨1, 0⟩).1 = IPS_GOOD ∧
    (traceStereo demoGlobals (demoFrame 98) (demoSolver 0 98) (demoPoint 1 IPS_UNINITIALIZED)
        demoK true).1 = IPS_GOOD ∧
    GoodInterval
      (traceOn demoGlobals (demoFrame 102) (demoPoint 1 IPS_UNINITIALIZED) Mat33f.identity
        ⟨1, 0, 0⟩ ⟨1, 0⟩).2.idepth_min
      (traceOn demoGlobals (demoFrame 102) (demoPoint 1 IPS_UNINITIALIZED) Mat33f.identity
        ⟨1, 0, 0⟩ ⟨1, 0⟩).2.idepth_max ∧
    GoodInterval
      (traceStereo demoGlobals (demoFrame 98) (demoSolver 0 98) (demoPoint 1 IPS_UNINITIALIZED)
        demoK true).2.idepth_min_stereo
      (traceStereo demoGlobals (demoFrame 98) (demoSolver 0 98) (demoPoint 1 IPS_UNINITIALIZED)
        demoK true).2.idepth_max_stereo :=
  ⟨by decide!, by decide!,
    (trace_good_interval_ordered demoGlobals (demoFrame 102) (demoSolver 0 98)
      (demoPoint 1 IPS_UNINITIALIZED) Mat33f.identity demoK ⟨1, 0, 0⟩ ⟨1, 0⟩ true).1
      (by decide!),
    (trace_good_interval_ordered demoGlobals (demoFrame 98) (demoSolver 0 98)
      (demoPoint 1 IPS_UNINITIALIZED) Mat33f.identity demoK ⟨1, 0, 0⟩ ⟨1, 0⟩ true).2
      (by decide!)⟩

/-- C2, at the failing input: a point that enters as `IPS_OUTLIER` and fails the
energy test in two consecutive `traceStereo` calls (each reaching the test with
`bestEnergy = 3438`, threshold `345.6`) is `IPS_OOB` after the first call and
`IPS_OUTLIER`, not `IPS_OOB`, after the second. -/
theorem traceStereo_twice_from_outlier :
    traceStereoBestEnergy demoGlobals (demoFrame 98) (demoSolver 100 98)
        (demoPoint 1 IPS_OUTLIER) demoK true = some 3438 ∧
    ¬ ((3438 : Flt) < (demoPoint 1 IPS_OUTLIER).energyTH
        * demoGlobals.setting_trace_extraSlackOnTH) ∧
    (traceStereo demoGlobals (demoFrame 98) (demoSolver 100 98)
        (demoPoint 1 IPS_OUTLIER) demoK true).1 = IPS_OOB ∧
    traceStereoBestEnergy demoGlobals (demoFrame 98) (demoSolver 100 98)
        (traceStereo demoGlobals (demoFrame 98) (demoSolver 100 98)
          (demoPoint 1 IPS_OUTLIER) demoK true).2 demoK true = some 3438 ∧
    (traceStereo demoGlobals (demoFrame 98) (demoSolver 100 98)
        (traceStereo demoGlobals (demoFrame 98) (demoSolver 100 98)
          (demoPoint 1 IPS_OUTLIER) demoK true).2 demoK true).1 = IPS_OUTLIER := by
  refine ⟨by decide!, by decide!, by decide!, by decide!, by decide!⟩

/-- C3: `IPS_OOB` is terminal for `traceOn`: on a point whose `lastTraceStatus`
is `IPS_OOB` the call returns `IPS_OOB` and leaves the point as it was. -/
theorem traceOn_oob_terminal (g : Globals) (frame : FrameHessian) (p : ImmaturePoint)
    (KRKi : Mat33f) (Kt : Vec3f) (aff : Vec2f) (h : p.lastTraceStatus = IPS_OOB) :
    traceOn g frame p KRKi Kt aff = (IPS_OOB, p) := by
  unfold traceOn traceOnProject
  simp [h]

/-- C3 at a concrete `IPS_OOB` point. -/
theorem traceOn_oob_terminal_witness :
    (demoPoint 1 IPS_OOB).lastTraceStatus = IPS_OOB ∧
    traceOn demoGlobals (demoFrame 102) (demoPoint 1 IPS_OOB) Mat33f.identity ⟨1, 0, 0⟩
      ⟨1, 0⟩ = (IPS_OOB, demoPoint 1 IPS_OOB) :=
  ⟨rfl, traceOn_oob_terminal demoGlobals (demoFrame 102) (demoPoint 1 IPS_OOB)
    Mat33f.identity ⟨1, 0, 0⟩ ⟨1, 0⟩ rfl⟩

/-- C7, at the failing input: `traceStereo` on a point whose `lastTraceStatus` is
`IPS_OOB` runs the whole trace and returns `IPS_GOOD`, so the point leaves
`IPS_OOB`. -/
theorem traceStereo_leaves_oob :
    (demoPoint 1 IPS_OOB).lastTraceStatus = IPS_OOB ∧
    (traceStereo demoGlobals (demoFrame 98) (demoSolver 0 98) (demoPoint 1 IPS_OOB)
      demoK true).1 = IPS_GOOD ∧
    (traceStereo demoGlobals (demoFrame 98) (demoSolver 0 98) (demoPoint 1 IPS_OOB)
      demoK true).2.lastTraceStatus = IPS_GOOD := by
  refine ⟨rfl, by decide!, by decide!⟩

/-- C4: for a point that is not `IPS_OOB` and has a finite `idepth_max`, if the
projections of the host ray at `idepth_min` and at `idepth_max` both pass the
border test and their distance is below `setting_trace_slackInterval`, then
`traceOn` returns `IPS_SKIPPED`, sets `lastTracePixelInterval` to that distance and
`lastTraceUV` to the midpoint of the two projections, and changes no other field
(so `idepth_min`, `idepth_max` and `quality` stay). -/
theorem traceOn_skipped (g : Globals) (frame : FrameHessian) (p : ImmaturePoint)
    (KRKi : Mat33f) (Kt : Vec3f) (aff : Vec2f)
    (h0 : p.lastTraceStatus ≠ IPS_OOB) (hfin : p.idepth_max.isfinite = true)
    (hmin : inBorder g (rayPixel KRKi Kt p p.idepth_min).x
      (rayPixel KRKi Kt p p.idepth_min).y = true)
    (hmax : inBorder g (rayPixel KRKi Kt p p.idepth_max).x
      (rayPixel KRKi Kt p p.idepth_max).y = true)
    (hd : rayDist g p KRKi Kt < g.setting_trace_slackInterval) :
    traceOn g frame p KRKi Kt aff = (IPS_SKIPPED, withMidpoint g p KRKi Kt IPS_SKIPPED) ∧
    (withMidpoint g p KRKi Kt IPS_SKIPPED).lastTracePixelInterval = rayDist g p KRKi Kt ∧
    (withMidpoint g p KRKi Kt IPS_SKIPPED).lastTraceUV =
      midpoint (rayPixel KRKi Kt p p.idepth_min) (rayPixel KRKi Kt p p.idepth_max) ∧
    (withMidpoint g p KRKi Kt IPS_SKIPPED).idepth_min = p.idepth_min ∧
    (withMidpoint g p KRKi Kt IPS_SKIPPED).idepth_max = p.idepth_max ∧
    (withMidpoint g p KRKi Kt IPS_SKIPPED).quality = p.quality := by
  exact ⟨skip_return_of_guards g frame p KRKi Kt aff h0 hfin hmin hmax hd, rfl, rfl, rfl, rfl, rfl⟩

/-- C4 at a concrete point whose two projections are one pixel apart. -/
theorem traceOn_skipped_witness :
    demoNarrow.lastTraceStatus ≠ IPS_OOB ∧ demoNarrow.idepth_max.isfinite = true ∧
    rayDist demoGlobals demoNarrow Mat33f.identity ⟨1, 0, 0⟩ = 1 ∧
    traceOn demoGlobals (demoFrame 102) demoNarrow Mat33f.identity ⟨1, 0, 0⟩ ⟨1, 0⟩ =
      (IPS_SKIPPED, withMidpoint demoGlobals demoNarrow Mat33f.identity ⟨1, 0, 0⟩ IPS_SKIPPED) :=
  ⟨by decide, rfl, by decide!,
    (traceOn_skipped demoGlobals (demoFrame 102) demoNarrow Mat33f.identity ⟨1, 0, 0⟩ ⟨1, 0⟩
      (by decide) rfl (by decide!) (by decide!) (by decide!)).1⟩

/-- C5: for a `traceOn` call with finite `idepth_max` that passes the border
tests, the slack test and the scale guard, if
`(0.2 + 0.2 * (a+b)/a) * setting_trace_minImprovementFactor > dist` then the call
returns `IPS_BADCONDITION`, sets `lastTraceUV` to the midpoint of the two
projections and `lastTracePixelInterval` to `dist`, and changes no other field.
And for fixed `b > 0`, `dist` and a positive improvement factor there is a bound
below which every `a > 0` gives `IPS_BADCONDITION`. -/
theorem traceOn_badcondition :
    (∀ (g : Globals) (frame : FrameHessian) (p : ImmaturePoint) (KRKi : Mat33f) (Kt : Vec3f)
        (aff : Vec2f), PassesGuards g p KRKi Kt →
      errorBound (gradAlong g p KRKi Kt) (gradAcross g p KRKi Kt)
        * g.setting_trace_minImprovementFactor > rayDist g p KRKi Kt →
      traceOn g frame p KRKi Kt aff =
        (IPS_BADCONDITION, withMidpoint g p KRKi Kt IPS_BADCONDITION) ∧
      (withMidpoint g p KRKi Kt IPS_BADCONDITION).idepth_min = p.idepth_min ∧
      (withMidpoint g p KRKi Kt IPS_BADCONDITION).idepth_max = p.idepth_max) ∧
    (∀ b dist f : ℚ, 0 < b → 0 < f → ∃ ε : ℚ, 0 < ε ∧
      ∀ (g : Globals) (frame : FrameHessian) (p : ImmaturePoint) (KRKi : Mat33f) (Kt : Vec3f)
        (aff : Vec2f) (a : ℚ), PassesGuards g p KRKi Kt →
        g.setting_trace_minImprovementFactor = fin f → rayDist g p KRKi Kt = fin dist →
        gradAcross g p KRKi Kt = fin b → gradAlong g p KRKi Kt = fin a → 0 < a → a < ε →
        (traceOn g frame p KRKi Kt aff).1 = IPS_BADCONDITION) := by
  constructor
  · intro g frame p KRKi Kt aff hg hc
    exact ⟨badcondition_return_of_guards g frame p KRKi Kt aff hg hc, rfl, rfl⟩
  · intro b dist f hb hf
    obtain ⟨ε, hε, hsmall⟩ := errorBound_small b dist f hb hf
    refine ⟨ε, hε, ?_⟩
    intro g frame p KRKi Kt aff a hg hfac hdist hB hA ha hlt
    rw [badcondition_return_of_guards g frame p KRKi Kt aff hg
      (by rw [hA, hB, hfac, hdist]; exact hsmall a ha hlt)]

/-- C5 at a concrete point with `a = 9/100`, `b = 9`, `dist = 3` and factor `2`. -/
theorem traceOn_badcondition_witness :
    PassesGuards demoGlobals demoAcross Mat33f.identity ⟨1, 0, 0⟩ ∧
    gradAlong demoGlobals demoAcross Mat33f.identity ⟨1, 0, 0⟩ = fin (9 / 100) ∧
    gradAcross demoGlobals demoAcross Mat33f.identity ⟨1, 0, 0⟩ = 9 ∧
    rayDist demoGlobals demoAcross Mat33f.identity ⟨1, 0, 0⟩ = 3 ∧
    traceOn demoGlobals (demoFrame 102) demoAcross Mat33f.identity ⟨1, 0, 0⟩ ⟨1, 0⟩ =
      (IPS_BADCONDITION,
        withMidpoint demoGlobals demoAcross Mat33f.identity ⟨1, 0, 0⟩ IPS_BADCONDITION) :=
  ⟨⟨by decide, rfl, by decide!, by decide!, by decide!, Or.inr ⟨by decide!, by decide!⟩⟩,
    by decide!, by decide!, by decide!,
    (traceOn_badcondition.1 demoGlobals (demoFrame 102) demoAcross Mat33f.identity
      ⟨1, 0, 0⟩ ⟨1, 0⟩
      ⟨by decide, rfl, by decide!, by decide!, by decide!, Or.inr ⟨by decide!, by decide!⟩⟩
      (by decide!)).1⟩

/-- C6 fails as stated: a `traceOn` call whose discrete errors
`[5238, 5058, 4878, 4698]` all exceed the threshold `345.6` returns `IPS_GOOD`,
because the refinement resets `bestEnergy` and tests the weighted energy
`46.98` instead. -/
theorem traceOn_good_despite_discrete_errors :
    traceOnErrors demoGlobals (demoFrame 130) (demoPoint (fin (1 / 10)) IPS_UNINITIALIZED)
      Mat33f.identity ⟨1, 0, 0⟩ ⟨1, 0⟩ = some [5238, 5058, 4878, 4698] ∧
    (∀ e ∈ [(5238 : Flt), 5058, 4878, 4698],
      e > energyThreshold demoGlobals (demoPoint (fin (1 / 10)) IPS_UNINITIALIZED)) ∧
    traceOnBestEnergy demoGlobals (demoFrame 130)
      (demoPoint (fin (1 / 10)) IPS_UNINITIALIZED) Mat33f.identity ⟨1, 0, 0⟩ ⟨1, 0⟩
      = some (fin (2349 / 50)) ∧
    (traceOn demoGlobals (demoFrame 130) (demoPoint (fin (1 / 10)) IPS_UNINITIALIZED)
      Mat33f.identity ⟨1, 0, 0⟩ ⟨1, 0⟩).1 = IPS_GOOD := by
  refine ⟨by decide!, by decide!, by decide!, by decide!⟩

/-- C6 as amended: for a `traceOn` call that reaches the discrete search with
`setting_trace_GNIterations <= 0` (no refinement, so the best discrete energy is
the one tested) and a threshold `energyTH * setting_trace_extraSlackOnTH` not
above the start value `1e10` of `bestEnergy`, if every discrete error exceeds the
threshold then the call returns `IPS_OUTLIER`, or `IPS_OOB` if the point entered
as `IPS_OUTLIER`, and never `IPS_GOOD`. -/
theorem traceOn_outlier_without_refinement (g : Globals) (frame : FrameHessian)
    (p : ImmaturePoint) (KRKi : Mat33f) (Kt : Vec3f) (aff : Vec2f) (errs : List Flt)
    (hreach : traceOnErrors g frame p KRKi Kt aff = some errs)
    (hGN : g.setting_trace_GNIterations ≤ 0)
    (hTH : ¬ (10000000000 : Flt) < energyThreshold g p)
    (hall : ∀ e ∈ errs, e > energyThreshold g p) :
    (traceOn g frame p KRKi Kt aff).1 =
      (if p.lastTraceStatus = IPS_OUTLIER then IPS_OOB else IPS_OUTLIER) ∧
    (traceOn g frame p KRKi Kt aff).1 ≠ IPS_GOOD := by
  unfold traceOnErrors at hreach
  cases ht : traceOnReach g p KRKi Kt with
  | none => simp [ht] at hreach
  | some t =>
    simp only [ht, Option.map_some', Option.some.injEq] at hreach
    subst hreach
    have hE : traceOnBestEnergy g frame p KRKi Kt aff
        = some (runSearch g frame p aff t).bestEnergy := by
      unfold traceOnBestEnergy
      simp only [ht, Option.map_some', gnRefine_of_no_iterations _ _ _ _ _ _ hGN]
    have hrej : ¬ (runSearch g frame p aff t).bestEnergy
        < p.energyTH * g.setting_trace_extraSlackOnTH := by
      rcases lineSearch_bestEnergy g frame p aff t t.numSteps.toNat with h | h
      · unfold runSearch
        rw [h]
        exact hTH
      · exact Flt.not_lt_of_lt (hall _ h)
    have hres := (traceOn_energy_reject g frame p KRKi Kt aff _ hE hrej).1
    refine ⟨hres, ?_⟩
    rw [hres]
    unfold rejectStatus
    split_ifs <;> decide

/-- C6 as amended, at a concrete run without refinement. -/
theorem traceOn_outlier_without_refinement_witness :
    traceOnErrors demoGlobalsNoGN (demoFrame 130) (demoPoint 1 IPS_UNINITIALIZED)
      Mat33f.identity ⟨1, 0, 0⟩ ⟨1, 0⟩ = some [5238, 5058, 4878, 4698] ∧
    (traceOn demoGlobalsNoGN (demoFrame 130) (demoPoint 1 IPS_UNINITIALIZED)
      Mat33f.identity ⟨1, 0, 0⟩ ⟨1, 0⟩).1 = IPS_OUTLIER :=
  ⟨by decide!,
    (traceOn_outlier_without_refinement demoGlobalsNoGN (demoFrame 130)
      (demoPoint 1 IPS_UNINITIALIZED) Mat33f.identity ⟨1, 0, 0⟩ ⟨1, 0⟩
      [5238, 5058, 4878, 4698] (by decide!) (by decide) (by decide!) (by decide!)).1⟩

/-- C8: `quality` does not increase except on long searches.  For `traceOn` and for
`traceStereo`: a call that returns before the discrete search leaves `quality` as
it was; a call that runs the search with `numSteps <= 10` leaves a `quality` that
is smaller than or the same as before (so `<=` in the IEEE sense unless the old
value was `NaN`); a call with `numSteps > 10` sets `quality` to
`secondBest / bestEnergy` of that search. -/
theorem trace_quality_update (g : Globals) (frame : FrameHessian) (solver : G2O)
    (p : ImmaturePoint) (KRKi K : Mat33f) (Kt : Vec3f) (aff : Vec2f) (mode_right : Bool) :
    (traceOnNumSteps g p KRKi Kt = none →
      (traceOn g frame p KRKi Kt aff).2.quality = p.quality) ∧
    (∀ n, traceOnNumSteps g p KRKi Kt = some n → n ≤ 10 →
      NotIncreased (traceOn g frame p KRKi Kt aff).2.quality p.quality ∧
      (p.quality ≠ nan → (traceOn g frame p KRKi Kt aff).2.quality ≤ p.quality)) ∧
    (∀ n, traceOnNumSteps g p KRKi Kt = some n → n > 10 →
      some (traceOn g frame p KRKi Kt aff).2.quality =
        traceOnNewQuality g frame p KRKi Kt aff) ∧
    (traceStereoNumSteps g p K mode_right = none →
      (traceStereo g frame solver p K mode_right).2.quality = p.quality) ∧
    (∀ n, traceStereoNumSteps g p K mode_right = some n → n ≤ 10 →
      NotIncreased (traceStereo g frame solver p K mode_right).2.quality p.quality ∧
      (p.quality ≠ nan → (traceStereo g frame solver p K mode_right).2.quality ≤ p.quality)) ∧
    (∀ n, traceStereoNumSteps g p K mode_right = some n → n > 10 →
      some (traceStereo g frame solver p K mode_right).2.quality =
        traceStereoNewQuality g frame p K mode_right) := by
  unfold traceOnNumSteps traceOnNewQuality traceStereoNumSteps traceStereoNewQuality
  refine ⟨?_, ?_, ?_, ?_, ?_, ?_⟩
  · intro h
    exact (traceOn_of_reach_none g frame p KRKi Kt aff (Option.map_eq_none'.1 h)).2.1
  · intro n hn h10
    obtain ⟨t, ht, rfl⟩ := Option.map_eq_some'.1 hn
    have hq : NotIncreased (traceOn g frame p KRKi Kt aff).2.quality p.quality := by
      rw [traceOn_of_reach_some g frame p KRKi Kt aff t ht]
      unfold traceOnSearch
      dsimp only
      rw [traceOnFinish_quality]
      exact updateQuality_short g p t _ h10
    exact ⟨hq, Flt.le_of_notIncreased hq⟩
  · intro n hn h10
    obtain ⟨t, ht, rfl⟩ := Option.map_eq_some'.1 hn
    rw [traceOn_of_reach_some g frame p KRKi Kt aff t ht, ht]
    unfold traceOnSearch
    dsimp only
    rw [traceOnFinish_quality, updateQuality_long g p t _ h10]
    rfl
  · intro h
    exact (traceStereo_of_reach_none g frame solver p K mode_right
      (Option.map_eq_none'.1 h)).2.1
  · intro n hn h10
    obtain ⟨t, ht, rfl⟩ := Option.map_eq_some'.1 hn
    have hq : NotIncreased (traceStereo g frame solver p K mode_right).2.quality
        p.quality := by
      rw [traceStereo_of_reach_some g frame solver p K mode_right t ht]
      unfold traceStereoSearch
      dsimp only
      rw [traceStereoFinish_quality]
      exact updateQuality_short g p t _ h10
    exact ⟨hq, Flt.le_of_notIncreased hq⟩
  · intro n hn h10
    obtain ⟨t, ht, rfl⟩ := Option.map_eq_some'.1 hn
    rw [traceStereo_of_reach_some g frame solver p K mode_right t ht, ht]
    unfold traceStereoSearch
    dsimp only
    rw [traceStereoFinish_quality, updateQuality_long g p t _ h10]
    rfl

/-- C8 at concrete runs of `traceOn`: one that returns before the search, one with
`numSteps = 4` whose `quality` drops from `10000` to `97/87`, and one with
`numSteps = 13` whose `quality` rises from `10000` to `+inf`. -/
theorem trace_quality_update_witness :
    (traceOnNumSteps demoGlobals demoNarrow Mat33f.identity ⟨1, 0, 0⟩ = none ∧
      (traceOn demoGlobals (demoFrame 102) demoNarrow Mat33f.identity ⟨1, 0, 0⟩
        ⟨1, 0⟩).2.quality = demoNarrow.quality) ∧
    (traceOnNumSteps demoGlobals (demoPoint (fin (1 / 10)) IPS_UNINITIALIZED)
        Mat33f.identity ⟨1, 0, 0⟩ = some 4 ∧
      (traceOn demoGlobals (demoFrame 130) (demoPoint (fin (1 / 10)) IPS_UNINITIALIZED)
        Mat33f.identity ⟨1, 0, 0⟩ ⟨1, 0⟩).2.quality = fin (97 / 87) ∧
      NotIncreased
        (traceOn demoGlobals (demoFrame 130) (demoPoint (fin (1 / 10)) IPS_UNINITIALIZED)
          Mat33f.identity ⟨1, 0, 0⟩ ⟨1, 0⟩).2.quality
        (demoPoint (fin (1 / 10)) IPS_UNINITIALIZED).quality) ∧
    (traceOnNumSteps demoGlobalsShort demoWide Mat33f.identity ⟨1, 0, 0⟩ = some 13 ∧
      traceOnNewQuality demoGlobalsShort (demoFrame 106) demoWide Mat33f.identity ⟨1, 0, 0⟩
        ⟨1, 0⟩ = some pinf ∧
      some (traceOn demoGlobalsShort (demoFrame 106) demoWide Mat33f.identity ⟨1, 0, 0⟩
        ⟨1, 0⟩).2.quality =
        traceOnNewQuality demoGlobalsShort (demoFrame 106) demoWide Mat33f.identity
          ⟨1, 0, 0⟩ ⟨1, 0⟩) :=
  ⟨⟨by decide!,
      (trace_quality_update demoGlobals (demoFrame 102) (demoSolver 0 98) demoNarrow
        Mat33f.identity demoK ⟨1, 0, 0⟩ ⟨1, 0⟩ true).1 (by decide!)⟩,
    ⟨by decide!, by decide!,
      ((trace_quality_update demoGlobals (demoFrame 130) (demoSolver 0 98)
        (demoPoint (fin (1 / 10)) IPS_UNINITIALIZED) Mat33f.identity demoK ⟨1, 0, 0⟩ ⟨1, 0⟩
        true).2.1 4 (by decide!) (by decide)).1⟩,
    ⟨by decide!, by decide!,
      (trace_quality_update demoGlobalsShort (demoFrame 106) (demoSolver 0 98) demoWide
        Mat33f.identity demoK ⟨1, 0, 0⟩ ⟨1, 0⟩ true).2.2.1 13 (by decide!) (by decide)⟩⟩

/-- C9 fails as stated: with `setting_trace_stepsize = 1` and a search length of
`3` pixels the trace uses `4` discrete steps, while `min(ceil(3 / 1), 99) = 3`. -/
theorem numSteps_not_ceil :
    demoGlobals.setting_trace_stepsize = 1 ∧
    rayDist demoGlobals (demoPoint 1 IPS_UNINITIALIZED) Mat33f.identity ⟨1, 0, 0⟩ = 3 ∧
    traceOnNumSteps demoGlobals (demoPoint 1 IPS_UNINITIALIZED) Mat33f.identity ⟨1, 0, 0⟩
      = some 4 ∧
    traceStereoNumSteps demoGlobals (demoPoint 1 IPS_UNINITIALIZED) demoK true = some 4 ∧
    numStepsOf demoGlobals 3 = 4 ∧
    min ⌈(3 : ℚ) / 1⌉ 99 = 3 := by
  refine ⟨by decide!, by decide!, by decide!, by decide!, by decide!, by decide!⟩

/-- C9 as amended: for a clamped search length `dist > 0` and a step size
`setting_trace_stepsize > 0` with `dist / stepsize <= 2^30`, the number of discrete
steps set up for `traceOn` and `traceStereo` is `min(floor(v), 99)`, where `v` is the
float value of `1.9999f + dist / setting_trace_stepsize`; `v` is within a relative
`2^-22` of the exact sum `1.9999 + dist / stepsize`. -/
theorem numSteps_eq_floor (g : Globals) (KRKi : Mat33f) (e : Endpoints) (errorInPixel : Flt)
    (d s : ℚ) (hs : g.setting_trace_stepsize = fin s)
    (hdist : (searchSetup g KRKi e errorInPixel).dist = fin d)
    (hd : 0 < d) (hpos : 0 < s) (hr : d / s ≤ 2 ^ 30) :
    ∃ v : ℚ, add32 (round32 (fin (19999 / 10000))) (div32 (fin d) (fin s)) = fin v ∧
      |v - (19999 / 10000 + d / s)| ≤ (19999 / 10000 + d / s) / 2 ^ 22 ∧
      (searchSetup g KRKi e errorInPixel).numSteps = min ⌊v⌋ 99 := by
  have h : (searchSetup g KRKi e errorInPixel).numSteps
      = numStepsOf g (searchSetup g KRKi e errorInPixel).dist := rfl
  rw [h, hdist]
  exact numStepsOf_eq g d s hs hd hpos hr

/-- C9 as amended, at a search length of `3` pixels with step size `1`: the float
sum is `4.99989986...` and there are 4 steps.  At the length `15.000099f` the float
sum rounds up to `17`, so there are 17 steps, one more than
`floor(1.9999 + 15.000099)`. -/
theorem numSteps_eq_floor_witness :
    (searchSetup demoGlobals Mat33f.identity demoEndpoints (fin (2 / 5))).dist = fin 3 ∧
    (∃ v : ℚ, add32 (round32 (fin (19999 / 10000))) (div32 (fin 3) (fin 1)) = fin v ∧
      |v - (19999 / 10000 + 3 / 1)| ≤ (19999 / 10000 + 3 / 1) / 2 ^ 22 ∧
      (searchSetup demoGlobals Mat33f.identity demoEndpoints (fin (2 / 5))).numSteps
        = min ⌊v⌋ 99) ∧
    (searchSetup demoGlobals Mat33f.identity demoEndpoints (fin (2 / 5))).numSteps = 4 ∧
    round32 (fin (1966093 / 131072)) = fin (1966093 / 131072) ∧
    numStepsOf demoGlobals (fin (1966093 / 131072)) = 17 ∧
    ⌊(19999 : ℚ) / 10000 + 1966093 / 131072⌋ = 16 :=
  ⟨by decide!,
    numSteps_eq_floor demoGlobals Mat33f.identity demoEndpoints (fin (2 / 5)) 3 1
      (by decide!) (by decide!) (by norm_num) (by norm_num) (by norm_num),
    by decide!, by decide!, by decide!, by decide!⟩

/-- C10 fails as stated: a point at the in-bounds pixel `(100, 100)` with interval
`[0, 3]`, traced with identity rotation, zero translation and brightness transform
`(1, 0)` against a frame that shows the point's intensity at `(100, 100)`, gets
`IPS_SKIPPED`, not `IPS_GOOD`. -/
theorem zero_motion_returns_skipped :
    inBorder demoGlobals (demoPoint 1 IPS_UNINITIALIZED).u
      (demoPoint 1 IPS_UNINITIALIZED).v = true ∧
    (demoFrame 100).interp31 100 100 = (demoPoint 1 IPS_UNINITIALIZED).color 0 ∧
    (traceOn demoGlobals (demoFrame 100) (demoPoint 1 IPS_UNINITIALIZED) Mat33f.identity
      ⟨0, 0, 0⟩ ⟨1, 0⟩).1 = IPS_SKIPPED ∧
    (traceOn demoGlobals (demoFrame 100) (demoPoint 1 IPS_UNINITIALIZED) Mat33f.identity
      ⟨0, 0, 0⟩ ⟨1, 0⟩).1 ≠ IPS_GOOD := by
  refine ⟨by decide!, by decide!, by decide!, by decide!⟩

/-- C10 as amended: with zero translation (`hostToFrame_Kt = 0`) `traceOn` never
returns `IPS_GOOD`, whatever the rotation, frame and brightness transform; and for
a point that is not `IPS_OOB`, with in-bounds `(u, v)` and a finite inverse-depth
interval, with `sqrtf(0) = 0` and `setting_trace_slackInterval > 0`, the trace
with identity rotation and zero translation returns `IPS_SKIPPED` with
`lastTraceUV = (u, v)` exactly, `lastTracePixelInterval = 0`, and no other field
changed. -/
theorem traceOn_zero_motion (g : Globals) (frame : FrameHessian) (p : ImmaturePoint)
    (aff : Vec2f) :
    (∀ KRKi : Mat33f, (traceOn g frame p KRKi ⟨0, 0, 0⟩ aff).1 ≠ IPS_GOOD) ∧
    (p.lastTraceStatus ≠ IPS_OOB → inBorder g p.u p.v = true →
      p.idepth_min.isfinite = true → p.idepth_max.isfinite = true →
      g.sqrtQ 0 = 0 → (0 : Flt) < g.setting_trace_slackInterval →
      traceOn g frame p Mat33f.identity ⟨0, 0, 0⟩ aff =
        (IPS_SKIPPED,
          { p with lastTraceUV := ⟨p.u, p.v⟩, lastTracePixelInterval := 0,
                   lastTraceStatus := IPS_SKIPPED })) := by
  constructor
  · intro KRKi
    cases ht : traceOnReach g p KRKi ⟨0, 0, 0⟩ with
    | none => exact (traceOn_of_reach_none g frame p KRKi _ aff ht).1
    | some t =>
      rw [traceOn_of_reach_some g frame p KRKi _ aff t ht]
      unfold traceOnSearch
      exact traceOnFinish_zero _ _ _ _ _ _
  · intro h0 hb hmin hmax hsq hsl
    exact zero_motion_skip_return g frame p aff h0 hb hmin hmax hsq hsl

/-- C10 as amended, at the concrete zero-motion run. -/
theorem traceOn_zero_motion_witness :
    (traceOn demoGlobals (demoFrame 100) (demoPoint 1 IPS_UNINITIALIZED) Mat33f.identity
      ⟨0, 0, 0⟩ ⟨1, 0⟩).2.lastTraceUV = ⟨100, 100⟩ ∧
    traceOn demoGlobals (demoFrame 100) (demoPoint 1 IPS_UNINITIALIZED) Mat33f.identity
      ⟨0, 0, 0⟩ ⟨1, 0⟩ =
      (IPS_SKIPPED,
        { demoPoint 1 IPS_UNINITIALIZED with
          lastTraceUV := ⟨(demoPoint 1 IPS_UNINITIALIZED).u, (demoPoint 1 IPS_UNINITIALIZED).v⟩,
          lastTracePixelInterval := 0, lastTraceStatus := IPS_SKIPPED }) :=
  ⟨by decide!,
    (traceOn_zero_motion demoGlobals (demoFrame 100) (demoPoint 1 IPS_UNINITIALIZED)
      ⟨1, 0⟩).2 (by decide) (by decide!) rfl rfl (by decide!) (by decide!)⟩

/-- C17 fails as stated for the code's binary32 arithmetic: at `pr[0] = 100`,
`pr[2] = 1`, `Kt[0] = 1`, `Kt[2] = 0` and `d = 0.1f = 13421773 / 2^27` both
conditions of the claim hold, the projection is `U = 13120307 / 2^17`
(`100.09999847...`), and back-projecting `U` gives `13107 / 2^17`
(`0.09999847...`), which is not `d`. -/
theorem backProject_rounds :
    round32 (fin (1 / 10)) = fin (13421773 / 134217728) ∧
    (1 : ℚ) + 0 * (13421773 / 134217728) ≠ 0 ∧ (1 : ℚ) * 1 ≠ 0 * 100 ∧
    project32 (fin 100) (fin 1) (fin 1) (fin 0) (fin (13421773 / 134217728)) =
      fin (13120307 / 131072) ∧
    backProject32 (fin 1) (fin 100) (fin 1) (fin 0) (fin (13120307 / 131072)) =
      fin (13107 / 131072) ∧
    (13107 / 131072 : ℚ) ≠ 13421773 / 134217728 := by
  refine ⟨by decide!, by norm_num, by norm_num, by decide!, by decide!, by norm_num⟩

/-- C17 as amended: for finite `pr`, `Kt` and inverse depth `d` with
`pr[2] + Kt[2]*d != 0` and `Kt[0]*pr[2] != Kt[2]*pr[0]`, whenever none of the
binary32 operations of the projection `U = (pr[0] + Kt[0]*d) / (pr[2] + Kt[2]*d)` and
of the back-projection `(pr[2]*U - pr[0]) / (Kt[0] - Kt[2]*U)` rounds, the
back-projection computed by the code returns `d`; and likewise on the `v` axis
with index `1` in place of `0`. -/
theorem backProject_inverts_unrounded (pr0 pr1 pr2 Kt0 Kt1 Kt2 d : ℚ)
    (hz : pr2 + Kt2 * d ≠ 0) :
    (Kt0 * pr2 ≠ Kt2 * pr0 → Unrounded32 pr0 pr2 Kt0 Kt2 d →
      backProject32 (fin pr2) (fin pr0) (fin Kt0) (fin Kt2)
        (project32 (fin pr0) (fin pr2) (fin Kt0) (fin Kt2) (fin d)) = fin d) ∧
    (Kt1 * pr2 ≠ Kt2 * pr1 → Unrounded32 pr1 pr2 Kt1 Kt2 d →
      backProject32 (fin pr2) (fin pr1) (fin Kt1) (fin Kt2)
        (project32 (fin pr1) (fin pr2) (fin Kt1) (fin Kt2) (fin d)) = fin d) :=
  ⟨fun hk hu => backProject32_of_unrounded pr0 Kt0 pr2 Kt2 d hz hk hu,
    fun hk hu => backProject32_of_unrounded pr1 Kt1 pr2 Kt2 d hz hk hu⟩

/-- C17 as amended at `pr = (100, 100, 1)`, `Kt = (1, 2, 0)` and `d = 3`: no
operation rounds, the projection is `(103, 106)` and both back-projections
return `3`. -/
theorem backProject_inverts_unrounded_witness :
    project32 (fin 100) (fin 1) (fin 1) (fin 0) (fin 3) = fin 103 ∧
    project32 (fin 100) (fin 1) (fin 2) (fin 0) (fin 3) = fin 106 ∧
    backProject32 (fin 1) (fin 100) (fin 1) (fin 0)
      (project32 (fin 100) (fin 1) (fin 1) (fin 0) (fin 3)) = fin 3 ∧
    backProject32 (fin 1) (fin 100) (fin 2) (fin 0)
      (project32 (fin 100) (fin 1) (fin 2) (fin 0) (fin 3)) = fin 3 :=
  ⟨by decide!, by decide!,
    (backProject_inverts_unrounded 100 100 1 1 2 0 3 (by norm_num)).1 (by norm_num)
      (by decide!),
    (backProject_inverts_unrounded 100 100 1 1 2 0 3 (by norm_num)).2 (by norm_num)
      (by decide!)⟩

/-- C13 fails as stated: a `traceStereo` call with `mode_right = false` that
returns `IPS_GOOD` with `bestU = 102` for `u_stereo = 100`, `baseline = 0.1` and
`K(0,0) = 10` resolves `idepth_stereo = 2`, while
`(u_stereo - bestU) / (baseline * K(0,0)) = -2`. -/
theorem traceStereo_left_idepth_sign :
    (traceStereo demoGlobals (demoFrame 102) (demoSolver 0 102)
      (demoPoint 1 IPS_UNINITIALIZED) demoK false).1 = IPS_GOOD ∧
    (traceStereo demoGlobals (demoFrame 102) (demoSolver 0 102)
      (demoPoint 1 IPS_UNINITIALIZED) demoK false).2.lastTraceUV.x = 102 ∧
    (traceStereo demoGlobals (demoFrame 102) (demoSolver 0 102)
      (demoPoint 1 IPS_UNINITIALIZED) demoK false).2.idepth_stereo = 2 ∧
    ((demoPoint 1 IPS_UNINITIALIZED).u_stereo - 102) / (demoGlobals.baseline * demoK.m00)
      = fin (-2) := by
  refine ⟨by decide!, by decide!, by decide!, by decide!⟩

/-- C13 as amended: for every `traceStereo` call that returns `IPS_GOOD`, the
resolved `idepth_stereo` equals `(u_stereo - bestU) / bf` with `bestU` the first
component of the `lastTraceUV` just stored and `bf = -K(0,0)*bl[0]`, which is
`baseline * K(0,0)` when `mode_right` is true and `-(baseline * K(0,0))` when it is
false. -/
theorem traceStereo_idepth_stereo (g : Globals) (frame : FrameHessian) (solver : G2O)
    (p : ImmaturePoint) (K : Mat33f) (mode_right : Bool)
    (h : (traceStereo g frame solver p K mode_right).1 = IPS_GOOD) :
    (traceStereo g frame solver p K mode_right).2.idepth_stereo =
      (p.u_stereo - (traceStereo g frame solver p K mode_right).2.lastTraceUV.x)
        / (if mode_right then g.baseline * K.m00 else -(g.baseline * K.m00)) := by
  obtain ⟨t, -, hs⟩ := traceStereo_good_reach g frame solver p K mode_right h
  rw [hs] at h ⊢
  unfold traceStereoSearch at h ⊢
  dsimp only at h ⊢
  rw [traceStereoFinish_of_good _ _ _ _ _ _ _ _ h]
  simp only [updateQuality_stereo, stereoBf_eq]

/-- C13 as amended, at a concrete right-to-left run (`mode_right = false`). -/
theorem traceStereo_idepth_stereo_witness :
    (traceStereo demoGlobals (demoFrame 102) (demoSolver 0 102)
      (demoPoint 1 IPS_UNINITIALIZED) demoK false).1 = IPS_GOOD ∧
    (traceStereo demoGlobals (demoFrame 102) (demoSolver 0 102)
      (demoPoint 1 IPS_UNINITIALIZED) demoK false).2.idepth_stereo =
      ((demoPoint 1 IPS_UNINITIALIZED).u_stereo -
          (traceStereo demoGlobals (demoFrame 102) (demoSolver 0 102)
            (demoPoint 1 IPS_UNINITIALIZED) demoK false).2.lastTraceUV.x)
        / (if false = true then demoGlobals.baseline * demoK.m00
            else -(demoGlobals.baseline * demoK.m00)) :=
  ⟨by decide!,
    traceStereo_idepth_stereo demoGlobals (demoFrame 102) (demoSolver 0 102)
      (demoPoint 1 IPS_UNINITIALIZED) demoK false (by decide!)⟩

/-- C15 fails as stated: a `traceOn` call on a point with interval `[-1, 2]` whose
best match back-projects to `[-1.4, -0.6]` returns `IPS_OUTLIER` (negative upper
bound) and leaves `idepth_min = -1.4`, `idepth_max = -0.6` in the point. -/
theorem traceOn_outlier_overwrites_interval :
    demoBehind.idepth_min = -1 ∧ demoBehind.idepth_max = 2 ∧
    (traceOn demoGlobals (demoFrame 99) demoBehind Mat33f.identity ⟨1, 0, 0⟩ ⟨1, 0⟩).1
      = IPS_OUTLIER ∧
    (traceOn demoGlobals (demoFrame 99) demoBehind Mat33f.identity ⟨1, 0, 0⟩
      ⟨1, 0⟩).2.idepth_min = fin (-7 / 5) ∧
    (traceOn demoGlobals (demoFrame 99) demoBehind Mat33f.identity ⟨1, 0, 0⟩
      ⟨1, 0⟩).2.idepth_max = fin (-3 / 5) := by
  refine ⟨rfl, rfl, by decide!, by decide!, by decide!⟩

/-- C15 as amended: whenever `traceOn` returns `IPS_OOB`, `IPS_SKIPPED` or
`IPS_BADCONDITION`, and whenever it fails the energy test (returning `IPS_OUTLIER`
or `IPS_OOB`), `idepth_min` and `idepth_max` hold the values they had before the
call; the only other return that is not `IPS_GOOD` is the `IPS_OUTLIER` of line 817,
and it leaves `idepth_min` and `idepth_max` at the back-projected, swapped pair that
the test of line 812 rejected. -/
theorem traceOn_failure_interval (g : Globals) (frame : FrameHessian) (p : ImmaturePoint)
    (KRKi : Mat33f) (Kt : Vec3f) (aff : Vec2f) :
    ((traceOn g frame p KRKi Kt aff).1 = IPS_OOB ∨
        (traceOn g frame p KRKi Kt aff).1 = IPS_SKIPPED ∨
        (traceOn g frame p KRKi Kt aff).1 = IPS_BADCONDITION →
      (traceOn g frame p KRKi Kt aff).2.idepth_min = p.idepth_min ∧
      (traceOn g frame p KRKi Kt aff).2.idepth_max = p.idepth_max) ∧
    (∀ e, traceOnBestEnergy g frame p KRKi Kt aff = some e → ¬ e < energyThreshold g p →
      (traceOn g frame p KRKi Kt aff).2.idepth_min = p.idepth_min ∧
      (traceOn g frame p KRKi Kt aff).2.idepth_max = p.idepth_max) ∧
    ((traceOn g frame p KRKi Kt aff).1 ≠ IPS_GOOD →
      ((traceOn g frame p KRKi Kt aff).2.idepth_min = p.idepth_min ∧
        (traceOn g frame p KRKi Kt aff).2.idepth_max = p.idepth_max) ∨
      ((traceOn g frame p KRKi Kt aff).1 = IPS_OUTLIER ∧
        ∃ iv, traceOnNewInterval g frame p KRKi Kt aff = some iv ∧
          intervalRejected iv = true ∧
          (traceOn g frame p KRKi Kt aff).2.idepth_min = iv.1 ∧
          (traceOn g frame p KRKi Kt aff).2.idepth_max = iv.2)) := by
  cases ht : traceOnReach g p KRKi Kt with
  | none =>
    have hx := traceOn_of_reach_none g frame p KRKi Kt aff ht
    refine ⟨fun _ => ⟨hx.2.2.1, hx.2.2.2.1⟩, fun _ _ _ => ⟨hx.2.2.1, hx.2.2.2.1⟩,
      fun _ => Or.inl ⟨hx.2.2.1, hx.2.2.2.1⟩⟩
  | some t =>
    obtain ⟨e, iv, hE, hiv, hcases⟩ := traceOn_outcomes g frame p KRKi Kt aff t ht
    refine ⟨?_, ?_, ?_⟩
    · intro hst
      rcases hcases with ⟨-, -, h3, h4⟩ | ⟨-, -, h3, -⟩ | ⟨-, -, h3, -⟩
      · exact ⟨h3, h4⟩
      · rw [h3] at hst
        simp at hst
      · rw [h3] at hst
        simp at hst
    · intro e' he' hrej
      rw [hE] at he'
      cases he'
      rcases hcases with ⟨-, -, h3, h4⟩ | ⟨h1, -⟩ | ⟨h1, -⟩
      · exact ⟨h3, h4⟩
      · exact absurd h1 hrej
      · exact absurd h1 hrej
    · intro hst
      rcases hcases with ⟨-, -, h3, h4⟩ | ⟨-, h2, h3, h4, h5⟩ | ⟨-, -, h3, -⟩
      · exact Or.inl ⟨h3, h4⟩
      · exact Or.inr ⟨h3, iv, hiv, h2, h4, h5⟩
      · exact absurd h3 hst

/-- C15 as amended, at a run that returns `IPS_SKIPPED` and at the run that
returns the `IPS_OUTLIER` of line 817. -/
theorem traceOn_failure_interval_witness :
    (traceOn demoGlobals (demoFrame 102) demoNarrow Mat33f.identity ⟨1, 0, 0⟩ ⟨1, 0⟩).1
      = IPS_SKIPPED ∧
    ((traceOn demoGlobals (demoFrame 102) demoNarrow Mat33f.identity ⟨1, 0, 0⟩
        ⟨1, 0⟩).2.idepth_min = demoNarrow.idepth_min ∧
      (traceOn demoGlobals (demoFrame 102) demoNarrow Mat33f.identity ⟨1, 0, 0⟩
        ⟨1, 0⟩).2.idepth_max = demoNarrow.idepth_max) ∧
    (traceOn demoGlobals (demoFrame 99) demoBehind Mat33f.identity ⟨1, 0, 0⟩ ⟨1, 0⟩).1
      ≠ IPS_GOOD ∧
    (((traceOn demoGlobals (demoFrame 99) demoBehind Mat33f.identity ⟨1, 0, 0⟩
          ⟨1, 0⟩).2.idepth_min = demoBehind.idepth_min ∧
        (traceOn demoGlobals (demoFrame 99) demoBehind Mat33f.identity ⟨1, 0, 0⟩
          ⟨1, 0⟩).2.idepth_max = demoBehind.idepth_max) ∨
      ((traceOn demoGlobals (demoFrame 99) demoBehind Mat33f.identity ⟨1, 0, 0⟩ ⟨1, 0⟩).1
          = IPS_OUTLIER ∧
        ∃ iv, traceOnNewInterval demoGlobals (demoFrame 99) demoBehind Mat33f.identity
            ⟨1, 0, 0⟩ ⟨1, 0⟩ = some iv ∧
          intervalRejected iv = true ∧
          (traceOn demoGlobals (demoFrame 99) demoBehind Mat33f.identity ⟨1, 0, 0⟩
            ⟨1, 0⟩).2.idepth_min = iv.1 ∧
          (traceOn demoGlobals (demoFrame 99) demoBehind Mat33f.identity ⟨1, 0, 0⟩
            ⟨1, 0⟩).2.idepth_max = iv.2)) :=
  ⟨by decide!,
    (traceOn_failure_interval demoGlobals (demoFrame 102) demoNarrow Mat33f.identity
      ⟨1, 0, 0⟩ ⟨1, 0⟩).1 (Or.inr (Or.inl (by decide!))),
    by decide!,
    (traceOn_failure_interval demoGlobals (demoFrame 99) demoBehind Mat33f.identity
      ⟨1, 0, 0⟩ ⟨1, 0⟩).2.2 (by decide!)⟩

/-- C12 fails as stated: on a host image whose sample at the first pattern offset
has the finite intensity `10` and a `NaN` gradient component, both constructors
run to the end and set `energyTH = 288`, not `NaN`. -/
theorem constructor_ignores_gradient_nan :
    (patternSample demoGlobals (demoHost nan) 100 100 0).x = 10 ∧
    (patternSample demoGlobals (demoHost nan) 100 100 0).y.isfinite = false ∧
    (ImmaturePoint.mkInt demoGlobals demoEnergy (demoHost nan)
      (demoPoint 1 IPS_UNINITIALIZED) 100 100).energyTH = 288 ∧
    (ImmaturePoint.mkFloat demoGlobals demoEnergy (demoHost nan)
      (demoPoint 1 IPS_UNINITIALIZED) 100 100).energyTH = 288 := by
  refine ⟨by decide!, by decide!, by decide!, by decide!⟩

/-- C12 as amended: for either constructor, if the interpolated intensity sampled
at one of the `patternNum` pattern offsets is not finite, construction returns
early with `energyTH = NaN`; and if every sampled intensity is finite (the gradient
components are not tested), construction completes with
`energyTH = patternNum * setting_outlierTH * setting_overallEnergyTHWeight²` and
`quality = 10000`. -/
theorem constructor_energyTH (g : Globals) (es : EnergySettings) (host : HostImage)
    (raw : ImmaturePoint) (ui vi : ℤ) (uf vf : Flt) :
    ((∃ idx, idx < g.patternNum ∧
        (patternSample g host (ofInt ui) (ofInt vi) idx).x.isfinite = false) →
      (ImmaturePoint.mkInt g es host raw ui vi).energyTH = nan) ∧
    ((∀ idx, idx < g.patternNum →
        (patternSample g host (ofInt ui) (ofInt vi) idx).x.isfinite = true) →
      (ImmaturePoint.mkInt g es host raw ui vi).energyTH =
        ofInt g.patternNum * es.setting_outlierTH *
          (es.setting_overallEnergyTHWeight * es.setting_overallEnergyTHWeight) ∧
      (ImmaturePoint.mkInt g es host raw ui vi).quality = 10000) ∧
    ((∃ idx, idx < g.patternNum ∧ (patternSample g host uf vf idx).x.isfinite = false) →
      (ImmaturePoint.mkFloat g es host raw uf vf).energyTH = nan) ∧
    ((∀ idx, idx < g.patternNum → (patternSample g host uf vf idx).x.isfinite = true) →
      (ImmaturePoint.mkFloat g es host raw uf vf).energyTH =
        ofInt g.patternNum * es.setting_outlierTH *
          (es.setting_overallEnergyTHWeight * es.setting_overallEnergyTHWeight) ∧
      (ImmaturePoint.mkFloat g es host raw uf vf).quality = 10000) :=
  ⟨(construct_energyTH g es host raw (ofInt ui) (ofInt vi)).1,
    (construct_energyTH g es host raw (ofInt ui) (ofInt vi)).2,
    (construct_energyTH g es host raw uf vf).1,
    (construct_energyTH g es host raw uf vf).2⟩

/-- C12 as amended, at a host image with a non-finite intensity at the first
pattern offset (integer constructor) and at one with finite intensities and a `NaN`
gradient (float constructor). -/
theorem constructor_energyTH_witness :
    (patternSample demoGlobals demoHostHole (ofInt 100) (ofInt 100) 0).x.isfinite = false ∧
    (ImmaturePoint.mkInt demoGlobals demoEnergy demoHostHole
      (demoPoint 1 IPS_UNINITIALIZED) 100 100).energyTH = nan ∧
    (ImmaturePoint.mkFloat demoGlobals demoEnergy (demoHost nan)
      (demoPoint 1 IPS_UNINITIALIZED) 100 100).energyTH =
      ofInt demoGlobals.patternNum * demoEnergy.setting_outlierTH *
        (demoEnergy.setting_overallEnergyTHWeight * demoEnergy.setting_overallEnergyTHWeight) :=
  ⟨by decide!,
    (constructor_energyTH demoGlobals demoEnergy demoHostHole
      (demoPoint 1 IPS_UNINITIALIZED) 100 100 100 100).1 ⟨0, by decide, by decide!⟩,
    ((constructor_energyTH demoGlobals demoEnergy (demoHost nan)
      (demoPoint 1 IPS_UNINITIALIZED) 100 100 100 100).2.2.2
      (fun idx _ => by unfold patternSample demoHost; dsimp only; split_ifs <;> rfl)).1⟩

/-- C14 fails also through a non-finite gradient: on a host image whose sample at
the pattern offsets has the finite intensity `10` and a `NaN` gradient component,
the constructors accumulate it, so that `gradH(0,0)` is `NaN`, and neither
`xᵗ gradH x >= 0` for `x = (1, 0)` nor `a >= 0` for the unit step `(1, 0)` holds. -/
theorem constructor_gradH_nan :
    (patternSample demoGlobals (demoHost nan) 100 100 0).x = 10 ∧
    (ImmaturePoint.mkFloat demoGlobals demoEnergy (demoHost nan)
      (demoPoint 1 IPS_UNINITIALIZED) 100 100).gradH.m00 = nan ∧
    ¬ ((0 : Flt) ≤ (ImmaturePoint.mkFloat demoGlobals demoEnergy (demoHost nan)
      (demoPoint 1 IPS_UNINITIALIZED) 100 100).gradH.quad ⟨fin 1, fin 0⟩) ∧
    rawStep demoGlobals ⟨⟨100, 100, 1⟩, ⟨100, 100, 1⟩, 100, 100, 101, 100, 1⟩ = ⟨1, 0⟩ ∧
    ¬ ((0 : Flt) ≤ errA demoGlobals
      (ImmaturePoint.mkFloat demoGlobals demoEnergy (demoHost nan)
        (demoPoint 1 IPS_UNINITIALIZED) 100 100)
      ⟨⟨100, 100, 1⟩, ⟨100, 100, 1⟩, 100, 100, 101, 100, 1⟩) := by
  refine ⟨by decide!, by decide!, by decide!, by decide!, by decide!⟩

/-- C14 fails as stated, for finite gradients: on a host image of constant gradient
`(gx, gy) = (33.2f, 38.3f)` and with two pattern offsets the constructor stores
`gradH = [[4514775/2^11, 2604155/2^10], [2604155/2^10, 6008381/2^11]]`, the rounded
products added up.  The determinant of this matrix is negative, its quadratic
form at `x = (gy, -gx)` is negative (about `-0.563`), and so is the float value
`a` that line 588 computes for the step `(gy, -gx)` (`-143/256`). -/
theorem constructor_gradH_indefinite :
    (patternSample demoGlobals demoHostSlope 100 100 0).y = fin (8703181 / 262144) ∧
    (patternSample demoGlobals demoHostSlope 100 100 0).z = fin (10040115 / 262144) ∧
    (ImmaturePoint.mkFloat demoGlobals demoEnergy demoHostSlope
      (demoPoint 1 IPS_UNINITIALIZED) 100 100).gradH =
      ⟨fin (4514775 / 2048), fin (2604155 / 1024), fin (2604155 / 1024),
        fin (6008381 / 2048)⟩ ∧
    (4514775 / 2048 : ℚ) * (6008381 / 2048) - 2604155 / 1024 * (2604155 / 1024) < 0 ∧
    (ImmaturePoint.mkFloat demoGlobals demoEnergy demoHostSlope
      (demoPoint 1 IPS_UNINITIALIZED) 100 100).gradH.quad
        ⟨fin (10040115 / 262144), fin (-8703181 / 262144)⟩ < 0 ∧
    (ImmaturePoint.mkFloat demoGlobals demoEnergy demoHostSlope
      (demoPoint 1 IPS_UNINITIALIZED) 100 100).gradH.quad32
        ⟨fin (10040115 / 262144), fin (-8703181 / 262144)⟩ = fin (-143 / 256) ∧
    ¬ ((ImmaturePoint.mkFloat demoGlobals demoEnergy demoHostSlope
      (demoPoint 1 IPS_UNINITIALIZED) 100 100).gradH.quad32
        ⟨fin (10040115 / 262144), fin (-8703181 / 262144)⟩ ≥ 0) := by
  refine ⟨by decide!, by decide!, by decide!, by norm_num, by decide!, by decide!,
    by decide!⟩

/-- C14 as amended: after construction by either constructor `gradH(0,1) = gradH(1,0)`
and each of `gradH(0,0)`, `gradH(1,1)` is `NaN`, `+inf` or a non-negative number,
also when sampling returns early. -/
theorem constructor_gradH_shape (g : Globals) (es : EnergySettings) (host : HostImage)
    (raw : ImmaturePoint) (ui vi : ℤ) (uf vf : Flt) :
    (ImmaturePoint.mkInt g es host raw ui vi).gradH.m01 =
      (ImmaturePoint.mkInt g es host raw ui vi).gradH.m10 ∧
    (ImmaturePoint.mkFloat g es host raw uf vf).gradH.m01 =
      (ImmaturePoint.mkFloat g es host raw uf vf).gradH.m10 ∧
    AtLeastOrNaN 0 (ImmaturePoint.mkInt g es host raw ui vi).gradH.m00 ∧
    AtLeastOrNaN 0 (ImmaturePoint.mkInt g es host raw ui vi).gradH.m11 ∧
    AtLeastOrNaN 0 (ImmaturePoint.mkFloat g es host raw uf vf).gradH.m00 ∧
    AtLeastOrNaN 0 (ImmaturePoint.mkFloat g es host raw uf vf).gradH.m11 :=
  ⟨construct_symmetric g es host raw (ofInt ui) (ofInt vi),
    construct_symmetric g es host raw uf vf,
    (construct_diagonal g es host raw (ofInt ui) (ofInt vi)).1,
    (construct_diagonal g es host raw (ofInt ui) (ofInt vi)).2,
    (construct_diagonal g es host raw uf vf).1,
    (construct_diagonal g es host raw uf vf).2⟩

/-- C16, counterexample: on an image whose gradient samples are `NaN` where the
intensity is finite, the denominator `H` of the first Gauss-Newton iteration of a
`traceOn` call is `NaN`, so `H >= 1` is false. -/
theorem traceOn_gn_denominator_nan :
    traceOnFirstH demoGlobals demoFrameNoGrad (demoPoint 1 IPS_UNINITIALIZED)
        Mat33f.identity ⟨1, 0, 0⟩ ⟨1, 0⟩ = some nan ∧
      ¬ ((1 : Flt) ≤ nan) := by
  decide!

/-- C16, the line equation under rounding: the update of lines 758-759 from
`(100, 100)` with `step = 0.5` along `(dx, dy) = (0.6f, 0.8f)` gives
`(6573261 / 2^16, 13159629 / 2^17)` in binary32, and no `t` satisfies both
`bestU = 100 + t*dx` and `bestV = 100 + t*dy`. -/
theorem gnAdvance_rounds :
    round32 (fin (3 / 5)) = fin (5033165 / 8388608) ∧
    round32 (fin (4 / 5)) = fin (13421773 / 16777216) ∧
    gnAdvance32 (fin 100) (fin 100) (fin (1 / 2)) (fin (5033165 / 8388608))
      (fin (13421773 / 16777216)) = (fin (6573261 / 65536), fin (13159629 / 131072)) ∧
    ¬ ∃ τ : ℚ, (6573261 / 65536 : ℚ) = 100 + τ * (5033165 / 8388608) ∧
      (13159629 / 131072 : ℚ) = 100 + τ * (13421773 / 16777216) := by
  refine ⟨by decide!, by decide!, by decide!, ?_⟩
  rintro ⟨τ, h1, h2⟩
  have e1 : τ = (6573261 / 65536 - 100) / (5033165 / 8388608) := by
    rw [eq_div_iff (by norm_num)]
    linarith
  rw [e1] at h2
  norm_num at h2

/-- C16 as amended: for a Huber threshold `setting_huberTH >= 0`, in the sub-pixel
refinement of `traceOn` the denominator `H` is `NaN` or at least 1 (possibly
`+inf`), at every position and after any number of pattern samples.  Every
committed step is a finite number in `[-1/2, 1/2]`.  The refined position is
reached from the discrete best in at most `setting_trace_GNIterations` moves, each
of which takes an earlier position `(mU, mV)` to `(mU + s*dx, mV + s*dy)` for a
finite `s` with `|s| <= 1/2`, the sums and products being the code's. -/
theorem gnRefine_moves_along_line (g : Globals) (frame : FrameHessian) (p : ImmaturePoint)
    (aff : Vec2f) (t : TraceGeom) (h : ℚ) (hh : g.setting_huberTH = fin h) (h0 : 0 ≤ h) :
    (∀ bestU bestV n, (gnSums g frame p aff t bestU bestV n).1 = nan ∨
      (1 : Flt) ≤ (gnSums g frame p aff t bestU bestV n).1) ∧
    (∀ H b, ∃ s : ℚ, gnClamp H b = fin s ∧ |s| ≤ 1 / 2) ∧
    (∀ s0 : SearchState,
      StepsAlong t.dx t.dy g.setting_trace_GNIterations.toNat (s0.bestU, s0.bestV)
        ((gnRefine g frame p aff t s0).bestU, (gnRefine g frame p aff t s0).bestV)) :=
  ⟨fun bestU bestV n => (gnSums_H g frame p aff t bestU bestV h hh h0 n).one_le,
   gnClamp_range,
   fun s0 => gnRefine_stepsAlong g frame p aff t s0⟩

/-- C16 as amended, at the test image with its minimum at `x = 102`, the Huber
threshold 9 and the geometry of the test point: the refinement started at the
discrete best `(102, 100)` ends at a position reached in at most 3 moves along
`(dx, dy)`. -/
theorem gnRefine_moves_along_line_witness :
    demoGlobals.setting_huberTH = fin 9 ∧ (0 : ℚ) ≤ 9 ∧
    demoGlobals.setting_trace_GNIterations.toNat = 3 ∧
    (runSearch demoGlobals (demoFrame 102) (demoPoint 1 IPS_UNINITIALIZED) ⟨1, 0⟩
      (searchSetup demoGlobals Mat33f.identity demoEndpoints (fin (2 / 5)))).bestU = 102 ∧
    (runSearch demoGlobals (demoFrame 102) (demoPoint 1 IPS_UNINITIALIZED) ⟨1, 0⟩
      (searchSetup demoGlobals Mat33f.identity demoEndpoints (fin (2 / 5)))).bestV = 100 ∧
    StepsAlong (searchSetup demoGlobals Mat33f.identity demoEndpoints (fin (2 / 5))).dx
      (searchSetup demoGlobals Mat33f.identity demoEndpoints (fin (2 / 5))).dy
      demoGlobals.setting_trace_GNIterations.toNat
      ((runSearch demoGlobals (demoFrame 102) (demoPoint 1 IPS_UNINITIALIZED) ⟨1, 0⟩
          (searchSetup demoGlobals Mat33f.identity demoEndpoints (fin (2 / 5)))).bestU,
        (runSearch demoGlobals (demoFrame 102) (demoPoint 1 IPS_UNINITIALIZED) ⟨1, 0⟩
          (searchSetup demoGlobals Mat33f.identity demoEndpoints (fin (2 / 5)))).bestV)
      ((gnRefine demoGlobals (demoFrame 102) (demoPoint 1 IPS_UNINITIALIZED) ⟨1, 0⟩
          (searchSetup demoGlobals Mat33f.identity demoEndpoints (fin (2 / 5)))
          (runSearch demoGlobals (demoFrame 102) (demoPoint 1 IPS_UNINITIALIZED) ⟨1, 0⟩
            (searchSetup demoGlobals Mat33f.identity demoEndpoints (fin (2 / 5))))).bestU,
        (gnRefine demoGlobals (demoFrame 102) (demoPoint 1 IPS_UNINITIALIZED) ⟨1, 0⟩
          (searchSetup demoGlobals Mat33f.identity demoEndpoints (fin (2 / 5)))
          (runSearch demoGlobals (demoFrame 102) (demoPoint 1 IPS_UNINITIALIZED) ⟨1, 0⟩
            (searchSetup demoGlobals Mat33f.identity demoEndpoints (fin (2 / 5))))).bestV) :=
  ⟨rfl, by norm_num, by decide, by decide!, by decide!,
   (gnRefine_moves_along_line demoGlobals (demoFrame 102) (demoPoint 1 IPS_UNINITIALIZED)
     ⟨1, 0⟩ (searchSetup demoGlobals Mat33f.identity demoEndpoints (fin (2 / 5))) 9 rfl
     (by norm_num)).2.2
     (runSearch demoGlobals (demoFrame 102) (demoPoint 1 IPS_UNINITIALIZED) ⟨1, 0⟩
       (searchSetup demoGlobals Mat33f.identity demoEndpoints (fin (2 / 5))))⟩

/-- C18 fails as stated for the code's binary32 arithmetic: with `fx = 500`,
baseline `0.1f`, `mode_right = true` (so `Kt = (-50, 0, 0)`, `bf = 50`), a point
at `u_stereo = 100`, the search direction `(dx, dy) = (-1, 0)`,
`errorInPixel = 0.4f` and the refined match `bestU = 94`, lines 425-450 store
`idepth_min_stereo = 15032381 / 2^27`, `idepth_max_stereo = 8589937 / 2^26` and
`idepth_stereo = 16106127 / 2^27`.  The midpoint of the interval is
`32212255 / 2^28` exactly and `16106128 / 2^27` when computed in binary32;
`idepth_stereo` is neither, though it lies inside the interval. -/
theorem traceStereo_midpoint_rounds :
    demoK500.m10 = 0 ∧ demoK500.m20 = 0 ∧
    demoK500.mulVec32 (stereoBl demoGlobals32 true) = ⟨fin (-50), fin 0, fin 0⟩ ∧
    stereoResolve32 demoGlobals32 (demoPoint 1 IPS_UNINITIALIZED) demoK500 true demoGeom32
      (fin 94) (fin 100) =
      some ((fin (15032381 / 134217728), fin (8589937 / 67108864),
        fin (16106127 / 134217728)) : Flt × Flt × Flt) ∧
    (fin (15032381 / 134217728) + fin (8589937 / 67108864)) * fin (1 / 2) =
      fin (32212255 / 268435456) ∧
    mul32 (add32 (fin (15032381 / 134217728)) (fin (8589937 / 67108864))) (fin (1 / 2)) =
      fin (16106128 / 134217728) ∧
    (16106127 / 134217728 : ℚ) ≠ 32212255 / 268435456 ∧
    (16106127 / 134217728 : ℚ) ≠ 16106128 / 134217728 ∧
    (15032381 / 134217728 : ℚ) ≤ 16106127 / 134217728 ∧
    (16106127 / 134217728 : ℚ) ≤ 8589937 / 67108864 := by
  refine ⟨rfl, rfl, ?_, ?_, ?_, ?_, by norm_num, by norm_num, by norm_num, by norm_num⟩
  · decide!
  · decide!
  · decide!
  · decide!

/-- C18 as amended: for a calibration matrix `K` whose first column is
`(fx, 0, 0)`, the stereo search is purely horizontal: whenever `traceStereo` has
projected both ends of the stereo interval the depth component of the projection
is 1 and `vMin = vMax = v_stereo`, and whenever it reaches the discrete search
`dy = 0`.  After every `traceStereo` call that returns `IPS_GOOD`,
`idepth_min_stereo <= idepth_stereo <= idepth_max_stereo`.  (With `fx = 0` or a
zero baseline no call returns `IPS_GOOD`, so these need not be assumed.) -/
theorem traceStereo_horizontal_ordered (g : Globals) (frame : FrameHessian) (solver : G2O)
    (p : ImmaturePoint) (K : Mat33f) (mode_right : Bool)
    (h10 : K.m10 = 0) (h20 : K.m20 = 0) :
    (∀ e, traceStereoProject g p K mode_right = .inr e →
      e.ptpMin.z = 1 ∧ e.vMin = p.v_stereo ∧ e.vMax = p.v_stereo) ∧
    (∀ t, traceStereoReach g p K mode_right = some t → t.dy = 0) ∧
    ((traceStereo g frame solver p K mode_right).1 = IPS_GOOD →
      (traceStereo g frame solver p K mode_right).2.idepth_min_stereo ≤
        (traceStereo g frame solver p K mode_right).2.idepth_stereo ∧
      (traceStereo g frame solver p K mode_right).2.idepth_stereo ≤
        (traceStereo g frame solver p K mode_right).2.idepth_max_stereo) := by
  have hcal : ∀ e, traceStereoProject g p K mode_right = .inr e →
      ∃ k : ℚ, stereoKt g K mode_right = ⟨fin k, fin 0, fin 0⟩ ∧
        stereoBf g K mode_right = fin (-k) := by
    intro e he
    obtain ⟨A, B, C, hKt⟩ := traceStereoProject_Kt_finite g p K mode_right e he
    exact ⟨A, stereoKt_of_finite g K mode_right h10 h20 A B C hKt⟩
  refine ⟨?_, ?_, ?_⟩
  · intro e he
    obtain ⟨k, hKt, -⟩ := hcal e he
    obtain ⟨a, c, d, x, -, hv, -, -, hptp, -, hvmin, -, hvmax⟩ :=
      traceStereoProject_horizontal g p K k mode_right hKt e he
    rw [hptp, hvmin, hvmax, hv]
    exact ⟨one_eq_fin.symm, rfl, rfl⟩
  · intro t ht
    obtain ⟨e, he⟩ := traceStereoReach_project g p K mode_right t ht
    obtain ⟨k, hKt, -⟩ := hcal e he
    obtain ⟨a, c, dx, -, -, -, -, hdy⟩ :=
      traceStereoReach_horizontal g p K k mode_right hKt t ht
    rw [hdy]
    exact zero_eq_fin.symm
  · intro h
    obtain ⟨t, ht, hs⟩ := traceStereo_good_reach g frame solver p K mode_right h
    obtain ⟨e, he⟩ := traceStereoReach_project g p K mode_right t ht
    obtain ⟨k, hKt, hbf⟩ := hcal e he
    obtain ⟨a, c, dx, hu, -, hpr, hdx, hdy⟩ :=
      traceStereoReach_horizontal g p K k mode_right hKt t ht
    rw [hs] at h ⊢
    unfold traceStereoSearch at h ⊢
    dsimp only at h ⊢
    have hgood := traceStereoFinish_good _ _ _ _ _ _ _ _ h
    rw [traceStereoFinish_of_good _ _ _ _ _ _ _ _ h] at hgood ⊢
    dsimp only at hgood ⊢
    obtain ⟨-, hf1, hf2, -⟩ := hgood
    rw [hKt] at hf1 hf2 ⊢
    have hk : k ≠ 0 := by
      rintro rfl
      have hz := newInterval_zero t.pr t solver.estimate.x solver.estimate.y
      simp only [zero_eq_fin] at hz
      rw [hz] at hf1
      exact Bool.noConfusion hf1
    obtain ⟨U, lo, hi, hU, hiv, hle, hmid⟩ :=
      newInterval_stereo_midpoint k a c dx hk t hpr hdx hdy _ _ hf1 hf2
    rw [hiv, updateQuality_stereo, hu, hU, hbf]
    dsimp only
    rw [fin_sub_fin, fin_div_fin _ _ (neg_ne_zero.2 hk)]
    have hval : (a - U) / -k = (lo + hi) * (1 / 2) := by
      rw [div_neg, ← neg_div, neg_sub, hmid]
      ring
    rw [hval]
    refine ⟨?_, ?_⟩
    · simp only [Flt.le_iff, Flt.le, decide_eq_true_eq]
      linarith
    · simp only [Flt.le_iff, Flt.le, decide_eq_true_eq]
      linarith

/-- C18 as amended at the test calibration (`fx = 10`, baseline `0.1`), matching
left to right: the call returns `IPS_GOOD` with `idepth_stereo = 2` inside the
new stereo interval. -/
theorem traceStereo_horizontal_ordered_witness :
    demoK.m10 = 0 ∧ demoK.m20 = 0 ∧
    (traceStereo demoGlobals (demoFrame 98) (demoSolver 0 98)
      (demoPoint 1 IPS_UNINITIALIZED) demoK true).1 = IPS_GOOD ∧
    (traceStereo demoGlobals (demoFrame 98) (demoSolver 0 98)
      (demoPoint 1 IPS_UNINITIALIZED) demoK true).2.idepth_stereo = fin 2 ∧
    (traceStereo demoGlobals (demoFrame 98) (demoSolver 0 98)
      (demoPoint 1 IPS_UNINITIALIZED) demoK true).2.idepth_min_stereo ≤
      (traceStereo demoGlobals (demoFrame 98) (demoSolver 0 98)
        (demoPoint 1 IPS_UNINITIALIZED) demoK true).2.idepth_stereo ∧
    (traceStereo demoGlobals (demoFrame 98) (demoSolver 0 98)
      (demoPoint 1 IPS_UNINITIALIZED) demoK true).2.idepth_stereo ≤
      (traceStereo demoGlobals (demoFrame 98) (demoSolver 0 98)
        (demoPoint 1 IPS_UNINITIALIZED) demoK true).2.idepth_max_stereo :=
  ⟨rfl, rfl, by decide!, by decide!,
    (traceStereo_horizontal_ordered demoGlobals (demoFrame 98) (demoSolver 0 98)
      (demoPoint 1 IPS_UNINITIALIZED) demoK true rfl rfl).2.2 (by decide!)⟩

end dso
